import Mathlib

/-!
# Server-side prepared statement support of the ODBC driver

A shallow embedding of `driver/my_prepared_stmt.c`: the buffer allocator
(`allocate_buffer_for_field`), the result binder (`ssps_bind_result`), the
deferred fetch of variable-length columns (`fetch_varlength_columns`), the
truncation query (`ssps_0buffers_truncated_only`) and the three accessors
(`ssps_get_string`, `ssps_get_double`, `ssps_get_int64`); and of the scan of
the query text in `driver/prepare.c` (`my_SQLPrepare`).

Conventions of the embedding.

* A pointer is `Option Ptr`: `none` is the NULL pointer, `some a` the address
  of a live block.  What a block holds is kept apart from the statement, in a
  `Memory`; only the client library writes there.
* The per-row cells `*length`, `*is_null`, `*error` of a binding are stored
  in the binding; a cell is `none` when the pointer to it is not valid.
* A function returns `none` where the C code has undefined behaviour (a NULL
  or out-of-bounds dereference).
* The host is little-endian, `short`, `int` and `long long` are 2, 4 and 8
  bytes wide.  Whether plain `char` is signed, and `sizeof(MYSQL_TIME)`, are
  fields of `Platform`.
* Floating-point values are not computed with: a `LongDouble` records the C
  expression that produced it.
* A query text is the list of its characters before the terminating NUL;
  offsets into it stand for the pointers `pos`, `query_end` and the entries
  of `param_pos`.  A read beyond the terminator is the outcome
  `Prepared.outside`.
-/

namespace Ssps

/-! ## Types of the client library -/

/-- Column type tags: the enumeration `enum_field_types` of the client library. -/
inductive enum_field_types
  | MYSQL_TYPE_DECIMAL
  | MYSQL_TYPE_TINY
  | MYSQL_TYPE_SHORT
  | MYSQL_TYPE_LONG
  | MYSQL_TYPE_FLOAT
  | MYSQL_TYPE_DOUBLE
  | MYSQL_TYPE_NULL
  | MYSQL_TYPE_TIMESTAMP
  | MYSQL_TYPE_LONGLONG
  | MYSQL_TYPE_INT24
  | MYSQL_TYPE_DATE
  | MYSQL_TYPE_TIME
  | MYSQL_TYPE_DATETIME
  | MYSQL_TYPE_YEAR
  | MYSQL_TYPE_NEWDATE
  | MYSQL_TYPE_VARCHAR
  | MYSQL_TYPE_BIT
  | MYSQL_TYPE_NEWDECIMAL
  | MYSQL_TYPE_ENUM
  | MYSQL_TYPE_SET
  | MYSQL_TYPE_TINY_BLOB
  | MYSQL_TYPE_MEDIUM_BLOB
  | MYSQL_TYPE_LONG_BLOB
  | MYSQL_TYPE_BLOB
  | MYSQL_TYPE_VAR_STRING
  | MYSQL_TYPE_STRING
  | MYSQL_TYPE_GEOMETRY
  deriving DecidableEq

open enum_field_types

/-- The bit of `MYSQL_FIELD.flags` that marks an unsigned column. -/
def UNSIGNED_FLAG : Nat := 32

/-- Column metadata (`MYSQL_FIELD`): the members the driver code reads. -/
structure MYSQL_FIELD where
  type : enum_field_types
  length : Nat
  flags : Nat
  deriving DecidableEq

/-- Temporal record of the client library (`MYSQL_TIME`). -/
structure MYSQL_TIME where
  year : Nat
  month : Nat
  day : Nat
  hour : Nat
  minute : Nat
  second : Nat
  second_part : Nat
  neg : Bool
  deriving DecidableEq

/-- Address of a live block; the NULL pointer is `none : Option Ptr`. -/
abbrev Ptr := Nat

/-- Contents of a block: its bytes, and the block read as a `MYSQL_TIME`
(the layout of that record is not modelled, so the two views are independent). -/
structure Block where
  bytes : List Nat
  time : MYSQL_TIME
  deriving DecidableEq

/-- Contents of the blocks the bindings point to. -/
abbrev Memory := Ptr → Block

/-- One column binding (`MYSQL_BIND`). `length`, `is_null` and `error` hold the
value of the cell the C member points to, `none` when that pointer is invalid. -/
structure MYSQL_BIND where
  buffer_type : enum_field_types
  buffer : Option Ptr
  buffer_length : Nat
  length : Option Nat
  is_null : Option Bool
  error : Option Bool
  is_unsigned : Bool
  deriving DecidableEq

/-- The members of the statement (`STMT`) used by the prepared-statement code.
`fields` is the column metadata of `stmt->result`, `fix_fields` tells whether
the handler pointer is set (it is only ever set to `fetch_varlength_columns`). -/
structure STMT where
  fields : List MYSQL_FIELD
  result_bind : Option (List MYSQL_BIND)
  array : Option (List (Option Ptr))
  lengths : Option (List Nat)
  fix_fields : Bool
  deriving DecidableEq

/-- Number of result columns, `field_count(stmt)`. -/
def field_count (stmt : STMT) : Nat := stmt.fields.length

/-! ## Allocation -/

/-- Allocator state: the next fresh address and the outcome of the coming
requests (`true`: the request is refused; past the end every request succeeds). -/
structure Heap where
  next : Ptr
  refusals : List Bool
  deriving DecidableEq

/-- Library allocator `my_malloc(size, flags)`: a fresh block, or NULL when refused
(the outcome does not depend on the size asked for). -/
def my_malloc (h : Heap) : Option Ptr × Heap :=
  match h.refusals with
  | true :: rest => (none, { next := h.next, refusals := rest })
  | false :: rest => (some h.next, { next := h.next + 1, refusals := rest })
  | [] => (some h.next, { next := h.next + 1, refusals := [] })

/-- Library allocator `my_realloc(old, size, MYF(MY_ALLOW_ZERO_PTR))`: the
address of the resized block (modelled as a fresh one), or NULL when refused. -/
def my_realloc (h : Heap) (_old : Option Ptr) : Option Ptr × Heap :=
  my_malloc h

/-! ## Machine integers -/

/-- Unsigned value of a byte sequence in host (little-endian) order. -/
def le_value : List Nat → Nat
  | [] => 0
  | b :: bs => b % 256 + 256 * le_value bs

/-- Unsigned value of a byte sequence in big-endian order. -/
def be_value (bs : List Nat) : Nat :=
  bs.foldl (fun acc b => 256 * acc + b % 256) 0

/-- Reading an unsigned integer of `w` bytes at the start of a block;
`none` when the block is shorter than `w` bytes. -/
def load (w : Nat) (bytes : List Nat) : Option Nat :=
  if bytes.length < w then none else some (le_value (bytes.take w))

/-- Two's-complement reading of an unsigned `bits`-bit value. -/
def to_signed (bits : Nat) (u : Nat) : Int :=
  if u % 2 ^ bits < 2 ^ (bits - 1) then ((u % 2 ^ bits : Nat) : Int)
  else ((u % 2 ^ bits : Nat) : Int) - ((2 ^ bits : Nat) : Int)

/-- Conversion of a `long long` to `unsigned long long`. -/
def to_unsigned64 (v : Int) : Nat := (v % ((2 ^ 64 : Nat) : Int)).toNat

/-! ## Floating point and platform parameters -/

/-- A `long double` value, recorded as the expression that produced it. -/
inductive LongDouble
  | zero
  | of_long_long (v : Int)
  | of_unsigned_long_long (v : Nat)
  | of_float (bits : Nat)
  | of_double (bits : Nat)
  | strtold (text : List Char)
  deriving DecidableEq

/-- What the code takes from the C implementation. -/
structure Platform where
  /-- whether plain `char` is a signed type -/
  char_is_signed : Bool
  /-- the value of `sizeof(MYSQL_TIME)` -/
  sizeof_MYSQL_TIME : Nat
  /-- the text `snprintf` produces for `"%f"` -/
  fmt_f : LongDouble → List Char
  /-- the conversion `(long long)x` of a floating value other than the literal zero -/
  fp_to_long_long : LongDouble → Option Int

/-- The conversion `(long long)x` of a `long double`. -/
def cast_long_long (p : Platform) : LongDouble → Option Int
  | .zero => some 0
  | x => p.fp_to_long_long x

/-! ## Text helpers -/

/-- Decimal digits of an unsigned number (`%u`, `%lu`, `%llu`). -/
def fmt_u (n : Nat) : List Char := Nat.toDigits 10 n

/-- Zero-padded decimal of minimum width `w` (`%0wu`). -/
def fmt_0u (w n : Nat) : List Char :=
  List.replicate (w - (fmt_u n).length) '0' ++ fmt_u n

/-- Signed decimal (`%lld`). -/
def fmt_lld (v : Int) : List Char :=
  if v < 0 then '-' :: fmt_u v.natAbs else fmt_u v.natAbs

/-- The string `snprintf(dst, size, ...)` leaves at `dst`, given the complete
formatted text: at most `size - 1` characters are kept. -/
def snprintf (size : Nat) (formatted : List Char) : List Char :=
  formatted.take (size - 1)

/-- The string at `dst` after a string `added` has been written at `dst + off`,
when `dst` held the string `old`. -/
def write_at (old : List Char) (off : Nat) (added : List Char) : List Char :=
  if off ≤ old.length then old.take off ++ added else old

/-- The characters held by a block of bytes. -/
def block_chars (bytes : List Nat) : List Char :=
  bytes.map (fun b => Char.ofNat (b % 256))

/-- White space of the C locale (`isspace`). -/
def isspace (c : Char) : Bool :=
  c.toNat = 32 || (9 ≤ c.toNat && c.toNat ≤ 13)

/-- Value of a run of decimal digits. -/
def digits_value (ds : List Char) : Nat :=
  ds.foldl (fun acc c => 10 * acc + (c.toNat - 48)) 0

/-- Library function `strtoll(text, NULL, 10)`: optional white space, optional sign, the
longest run of decimal digits; the result is clamped to the range of `long long`. -/
def strtoll (text : List Char) : Int :=
  let s := text.dropWhile isspace
  let neg := s.head? = some '-'
  let s := if s.head? = some '-' ∨ s.head? = some '+' then s.tail else s
  let n : Int := (digits_value (s.takeWhile Char.isDigit) : Nat)
  if neg then max (-((2 ^ 63 : Nat) : Int)) (-n) else min (((2 ^ 63 : Nat) : Int) - 1) n

/-- Library function `strtoll(buffer, NULL, 10)` on a pointer to a block that holds
the characters `chars`: the scan stops at the first character after the white space,
the sign and the digits; when the block holds no such character (the terminator is
one) the scan leaves the block, which is undefined behaviour. -/
def strtoll_block (chars : List Char) : Option Int :=
  let s := chars.dropWhile isspace
  let s := if s.head? = some '-' ∨ s.head? = some '+' then s.tail else s
  if s.dropWhile Char.isDigit = [] then none else some (strtoll chars)

/-! ## Buffer allocation (`allocate_buffer_for_field`) -/

/-- Result of `allocate_buffer_for_field` (`st_buffer_size_type`). -/
structure st_buffer_size_type where
  buffer : Option Ptr
  size : Nat
  type : enum_field_types
  deriving DecidableEq

/-- The `switch (field->type)` of `allocate_buffer_for_field`: the value of
`result.size` when the switch is left (it starts at 0). -/
def buffer_size_for_field (p : Platform) (field : MYSQL_FIELD) : Nat :=
  match field.type with
  | MYSQL_TYPE_NULL => 0
  | MYSQL_TYPE_TINY => 1
  | MYSQL_TYPE_SHORT => 2
  | MYSQL_TYPE_INT24 | MYSQL_TYPE_LONG | MYSQL_TYPE_FLOAT => 4
  | MYSQL_TYPE_DOUBLE | MYSQL_TYPE_LONGLONG => 8
  | MYSQL_TYPE_YEAR => 2
  | MYSQL_TYPE_TIMESTAMP | MYSQL_TYPE_DATE | MYSQL_TYPE_TIME | MYSQL_TYPE_DATETIME =>
      p.sizeof_MYSQL_TIME
  | MYSQL_TYPE_TINY_BLOB | MYSQL_TYPE_MEDIUM_BLOB | MYSQL_TYPE_LONG_BLOB
  | MYSQL_TYPE_BLOB | MYSQL_TYPE_STRING | MYSQL_TYPE_VAR_STRING =>
      if field.length > 0 ∧ field.length < 1025 then field.length + 1 else 0
  | MYSQL_TYPE_DECIMAL | MYSQL_TYPE_NEWDECIMAL => 64
  | MYSQL_TYPE_BIT => 1
  | _ => 0

/-- Function `allocate_buffer_for_field`: the size is chosen by the switch, and a
block is requested only when the size is positive. -/
def allocate_buffer_for_field (p : Platform) (h : Heap) (field : MYSQL_FIELD) :
    st_buffer_size_type × Heap :=
  let size := buffer_size_for_field p field
  if size > 0 then
    ({ buffer := (my_malloc h).1, size := size, type := field.type }, (my_malloc h).2)
  else
    ({ buffer := none, size := size, type := field.type }, h)

/-! ## Accessors (`ssps_get_string`, `ssps_get_double`, `ssps_get_int64`) -/

/-- The binding `&stmt->result_bind[column_number]`. -/
def col_rbind (stmt : STMT) (column_number : Nat) : Option MYSQL_BIND :=
  match stmt.result_bind with
  | none => none
  | some binds => binds[column_number]?

/-- Reading `w` bytes through a buffer pointer; `none` for NULL or a short block. -/
def deref (mem : Memory) (buffer : Option Ptr) (w : Nat) : Option Nat :=
  match buffer with
  | none => none
  | some a => load w (mem a).bytes

/-- The value of `*(char *)buffer` converted to `long long`. -/
def read_char (p : Platform) (mem : Memory) (buffer : Option Ptr) : Option Int :=
  (deref mem buffer 1).map (fun u => if p.char_is_signed then to_signed 8 u else (u : Int))

/-- Modelled from the spec: the driver utility `binary2numeric(&dst, src, srcLen)`,
which is not among the sources at hand; the spec has it "decode the raw big-endian
byte buffer as an unsigned integer bounded by its reported byte length". The sum is
returned as a `long long`. -/
def binary2numeric (src : List Nat) (srcLen : Nat) : Option Int :=
  if src.length < srcLen then none else some (to_signed 64 (be_value (src.take srcLen)))

/-- Case `MYSQL_TYPE_BIT` of `ssps_get_int64`. -/
def get_int64_bit (mem : Memory) (col : MYSQL_BIND) : Option Int :=
  match col.length with
  | none => none
  | some len =>
    binary2numeric (match col.buffer with | none => [] | some a => (mem a).bytes) len

/-- Cases `MYSQL_TYPE_YEAR` ... `MYSQL_TYPE_LONGLONG` of `ssps_get_int64`: the inner
`switch (col_rbind->buffer_length)`. -/
def get_int64_integer (p : Platform) (mem : Memory) (col : MYSQL_BIND) : Option Int :=
  match col.is_null with
  | none => none
  | some is_it_null =>
    let is_it_unsigned := col.is_unsigned
    match col.buffer_length with
    | 1 =>
      if is_it_unsigned then
        (if !is_it_null then read_char p mem col.buffer else some 0)
      else
        (if !is_it_null then read_char p mem col.buffer else some 0)
    | 2 =>
      if is_it_unsigned then
        (if !is_it_null then (deref mem col.buffer 2).map (fun u => (u : Int)) else some 0)
      else
        (if !is_it_null then (deref mem col.buffer 2).map (fun u => (u : Int)) else some 0)
    | 4 =>
      if is_it_unsigned then
        (if !is_it_null then (deref mem col.buffer 4).map (to_signed 32) else some 0)
      else
        (if !is_it_null then (deref mem col.buffer 4).map (fun u => (u : Int)) else some 0)
    | 8 =>
      if is_it_unsigned then
        (if !is_it_null then (deref mem col.buffer 8).map (to_signed 64) else some 0)
      else
        (if !is_it_null then (deref mem col.buffer 8).map (to_signed 64) else some 0)
    | _ => some 0

/-- What `ssps_get_int64` computes for a column of type BIT or of the integer family:
the branches that call no other accessor. `ssps_get_string` and `ssps_get_double`
call `ssps_get_int64` for these types only. -/
def get_int64_direct (p : Platform) (mem : Memory) (col : MYSQL_BIND) : Option Int :=
  match col.buffer_type with
  | MYSQL_TYPE_BIT => get_int64_bit mem col
  | _ => get_int64_integer p mem col

/-- What `ssps_get_double` computes for a column of type FLOAT or DOUBLE that is not
null: the branches that call no other accessor. `ssps_get_string` calls
`ssps_get_double` for these types only. -/
def get_double_direct (mem : Memory) (col : MYSQL_BIND) : Option LongDouble :=
  match col.is_null with
  | none => none
  | some is_null =>
    match col.buffer_type with
    | MYSQL_TYPE_FLOAT =>
      if !is_null then (deref mem col.buffer 4).map LongDouble.of_float
      else some LongDouble.zero
    | _ =>
      if !is_null then (deref mem col.buffer 8).map LongDouble.of_double
      else some LongDouble.zero

/-- The destination argument `buffer` of `ssps_get_string`: supplied by the caller,
or NULL with the allocation of `ALLOC_IFNULL` succeeding or being refused. -/
inductive Dest
  | caller
  | allocated
  | refused
  deriving DecidableEq

/-- Whether `ALLOC_IFNULL(buffer, size)` yields a non-NULL pointer. -/
def ALLOC_IFNULL (buffer : Dest) : Bool :=
  match buffer with
  | .refused => false
  | _ => true

/-- Outcome of `ssps_get_string`: the string at the returned pointer (`none` for a
NULL return) and the value of `*length` afterwards. -/
structure StringResult where
  value : Option (List Char)
  length : Nat
  deriving DecidableEq

/-- The record `*(MYSQL_TIME *)(col_rbind->buffer)`. -/
def deref_time (mem : Memory) (buffer : Option Ptr) : Option MYSQL_TIME :=
  buffer.map (fun a => (mem a).time)

/-- The fractional suffix written by `snprintf(buffer + *length, 8, ".%06lu", ...)`. -/
def fraction_text (second_part : Nat) : List Char :=
  snprintf 8 ('.' :: fmt_0u 6 second_part)

/-- Cases `MYSQL_TYPE_TIMESTAMP` and `MYSQL_TYPE_DATETIME` of `ssps_get_string`. -/
def get_string_datetime (t : MYSQL_TIME) : StringResult :=
  let text := snprintf 20 (fmt_0u 4 t.year ++ '-' :: fmt_0u 2 t.month ++ '-' :: fmt_0u 2 t.day
    ++ ' ' :: fmt_0u 2 t.hour ++ ':' :: fmt_0u 2 t.minute ++ ':' :: fmt_0u 2 t.second)
  if t.second_part > 0 then
    { value := some (write_at text 19 (fraction_text t.second_part)), length := 26 }
  else
    { value := some text, length := 19 }

/-- Case `MYSQL_TYPE_DATE` of `ssps_get_string`. -/
def get_string_date (t : MYSQL_TIME) : StringResult :=
  { value := some (snprintf 11 (fmt_0u 4 t.year ++ '-' :: fmt_0u 2 t.month
      ++ '-' :: fmt_0u 2 t.day)),
    length := 10 }

/-- Case `MYSQL_TYPE_TIME` of `ssps_get_string`. -/
def get_string_time (t : MYSQL_TIME) : StringResult :=
  let text := snprintf 10 ((if t.neg then ['-'] else []) ++ fmt_0u 2 t.hour
    ++ ':' :: fmt_0u 2 t.minute ++ ':' :: fmt_0u 2 t.second)
  let length := if t.neg then 9 else 8
  if t.second_part > 0 then
    { value := some (write_at text length (fraction_text t.second_part)), length := length + 7 }
  else
    { value := some text, length := length }

/-- Function `ssps_get_string(stmt, column_number, value, length, buffer)`; `length` is
the value of `*length` at the call (the argument `value` is never read). -/
def ssps_get_string (p : Platform) (mem : Memory) (stmt : STMT) (column_number : Nat)
    (length : Nat) (buffer : Dest) : Option StringResult :=
  match col_rbind stmt column_number with
  | none => none
  | some col =>
    match col.is_null with
    | none => none
    | some true => some { value := none, length := length }
    | some false =>
      match col.buffer_type with
      | MYSQL_TYPE_TIMESTAMP | MYSQL_TYPE_DATETIME =>
        if ALLOC_IFNULL buffer then (deref_time mem col.buffer).map get_string_datetime
        else none
      | MYSQL_TYPE_DATE =>
        if ALLOC_IFNULL buffer then (deref_time mem col.buffer).map get_string_date
        else none
      | MYSQL_TYPE_TIME =>
        if ALLOC_IFNULL buffer then (deref_time mem col.buffer).map get_string_time
        else none
      | MYSQL_TYPE_BIT | MYSQL_TYPE_YEAR | MYSQL_TYPE_TINY | MYSQL_TYPE_SHORT
      | MYSQL_TYPE_INT24 | MYSQL_TYPE_LONG | MYSQL_TYPE_LONGLONG =>
        if ALLOC_IFNULL buffer then
          (get_int64_direct p mem col).map (fun v =>
            let text :=
              if col.is_unsigned then snprintf 29 (fmt_u (to_unsigned64 v))
              else snprintf 29 (fmt_lld v)
            { value := some text, length := text.length })
        else none
      | MYSQL_TYPE_FLOAT | MYSQL_TYPE_DOUBLE =>
        if ALLOC_IFNULL buffer then
          (get_double_direct mem col).map (fun d =>
            let text := snprintf 49 (p.fmt_f d)
            { value := some text, length := text.length })
        else none
      | MYSQL_TYPE_DECIMAL | MYSQL_TYPE_NEWDECIMAL | MYSQL_TYPE_STRING | MYSQL_TYPE_BLOB
      | MYSQL_TYPE_VARCHAR | MYSQL_TYPE_VAR_STRING =>
        some { value := col.buffer.map (fun a => block_chars (mem a).bytes), length := length }
      | _ => some { value := none, length := length }

/-- Function `ssps_get_double(stmt, column_number, value, length)`. -/
def ssps_get_double (p : Platform) (mem : Memory) (stmt : STMT) (column_number : Nat)
    (length : Nat) : Option LongDouble :=
  match col_rbind stmt column_number with
  | none => none
  | some col =>
    match col.is_null with
    | none => none
    | some true => some LongDouble.zero
    | some false =>
      match col.buffer_type with
      | MYSQL_TYPE_BIT | MYSQL_TYPE_YEAR | MYSQL_TYPE_TINY | MYSQL_TYPE_SHORT
      | MYSQL_TYPE_INT24 | MYSQL_TYPE_LONG | MYSQL_TYPE_LONGLONG =>
        (get_int64_direct p mem col).map (fun ival =>
          if col.is_unsigned then LongDouble.of_unsigned_long_long (to_unsigned64 ival)
          else LongDouble.of_long_long ival)
      | MYSQL_TYPE_DECIMAL | MYSQL_TYPE_NEWDECIMAL | MYSQL_TYPE_TIMESTAMP
      | MYSQL_TYPE_DATETIME | MYSQL_TYPE_DATE | MYSQL_TYPE_TIME | MYSQL_TYPE_STRING
      | MYSQL_TYPE_BLOB | MYSQL_TYPE_VARCHAR | MYSQL_TYPE_VAR_STRING =>
        match ssps_get_string p mem stmt column_number length Dest.caller with
        | some { value := some text, length := _ } => some (LongDouble.strtold text)
        | _ => none
      | MYSQL_TYPE_FLOAT | MYSQL_TYPE_DOUBLE => get_double_direct mem col
      | _ => some LongDouble.zero

/-- Function `ssps_get_int64(stmt, column_number, value, length)`. The ten types of
the case that ends in `strtoll(ssps_get_string(...), NULL, 10)` are listed in two
groups: for the temporal types `ssps_get_string` hands back the terminated string it
wrote with `snprintf`, for the others the column's own buffer, which `strtoll` reads as
far as the block reaches. -/
def ssps_get_int64 (p : Platform) (mem : Memory) (stmt : STMT) (column_number : Nat)
    (length : Nat) : Option Int :=
  match col_rbind stmt column_number with
  | none => none
  | some col =>
    match col.buffer_type with
    | MYSQL_TYPE_FLOAT | MYSQL_TYPE_DOUBLE =>
      match ssps_get_double p mem stmt column_number length with
      | none => none
      | some d => cast_long_long p d
    | MYSQL_TYPE_TIMESTAMP | MYSQL_TYPE_DATETIME | MYSQL_TYPE_DATE | MYSQL_TYPE_TIME =>
      match ssps_get_string p mem stmt column_number length Dest.caller with
      | some { value := some text, length := _ } => some (strtoll text)
      | _ => none
    | MYSQL_TYPE_DECIMAL | MYSQL_TYPE_NEWDECIMAL | MYSQL_TYPE_STRING
    | MYSQL_TYPE_BLOB | MYSQL_TYPE_VARCHAR | MYSQL_TYPE_VAR_STRING =>
      match ssps_get_string p mem stmt column_number length Dest.caller with
      | some { value := some text, length := _ } => strtoll_block text
      | _ => none
    | MYSQL_TYPE_BIT => get_int64_bit mem col
    | MYSQL_TYPE_YEAR | MYSQL_TYPE_TINY | MYSQL_TYPE_SHORT | MYSQL_TYPE_INT24
    | MYSQL_TYPE_LONG | MYSQL_TYPE_LONGLONG => get_int64_integer p mem col
    | _ => some 0

/-! ## Deferred fetch (`fetch_varlength_columns`) -/

/-- What the client library stores in the cells of a binding. -/
structure RowCells where
  length : Nat
  is_null : Bool
  error : Bool
  deriving DecidableEq

/-- The client library call `mysql_stmt_fetch_column(ssps, bind, column, 0)`, seen
from the driver: from the binding it is handed and the column number, the values it
writes into the cells of that binding (the bytes go to the `Memory`). -/
abbrev FetchColumn := MYSQL_BIND → Nat → RowCells

/-- A binding after the library has written its cells; a cell behind an invalid
pointer stays invalid, and no other member is touched. -/
def write_cells (b : MYSQL_BIND) (c : RowCells) : MYSQL_BIND :=
  { b with
    length := b.length.map (fun _ => c.length),
    is_null := b.is_null.map (fun _ => c.is_null),
    error := b.error.map (fun _ => c.error) }

/-- The call `mysql_stmt_fetch_column(stmt->ssps, stmt->result_bind, i, 0)`: the
binding handed over is `stmt->result_bind`, the first element of the table. -/
def fetch_column_call (fetch : FetchColumn) (binds : List MYSQL_BIND) (i : Nat) :
    List MYSQL_BIND :=
  match binds with
  | [] => []
  | b0 :: rest => write_cells b0 (fetch b0 i) :: rest

/-- One iteration of the loop of `fetch_varlength_columns`, for column `i`. -/
def fetch_varlength_column (fetch : FetchColumn) (i : Nat) (stmt : STMT) (h : Heap) :
    Option (STMT × Heap) :=
  match stmt.result_bind with
  | none => none
  | some binds =>
    match binds[i]? with
    | none => none
    | some b =>
      if b.buffer = none then
        match stmt.lengths, stmt.array, b.length with
        | some lens, some arr, some len =>
          match lens[i]?, arr[i]? with
          | some li, some ai =>
            let grown := my_realloc h ai
            let arr1 := if li < len then arr.set i grown.1 else arr
            let lens1 := if li < len then lens.set i len else lens
            let h1 := if li < len then grown.2 else h
            let ai1 := if li < len then grown.1 else ai
            let li1 := if li < len then len else li
            let binds1 := binds.set i { b with buffer := ai1, buffer_length := li1 }
            some ({ stmt with
                    result_bind := some (fetch_column_call fetch binds1 i),
                    array := some arr1,
                    lengths := some lens1 }, h1)
          | _, _ => none
        | _, _, _ => none
      else some (stmt, h)

/-- The loop `for (i= 0; i < num_fields; ++i)` of `fetch_varlength_columns`, with `k`
iterations left to run from index `i`. -/
def fetch_varlength_loop (fetch : FetchColumn) : Nat → Nat → STMT → Heap → Option (STMT × Heap)
  | 0, _, stmt, h => some (stmt, h)
  | k + 1, i, stmt, h =>
    match fetch_varlength_column fetch i stmt h with
    | none => none
    | some (stmt1, h1) => fetch_varlength_loop fetch k (i + 1) stmt1 h1

/-- Function `fetch_varlength_columns(stmt, columns)`. After the loop the address of
the first length cell, `stmt->result_bind[0].length`, is handed to the row
descriptor (`fill_ird_data_lengths`, outside the model); the value returned by the C
function is `stmt->array`. -/
def fetch_varlength_columns (fetch : FetchColumn) (stmt : STMT) (h : Heap) :
    Option (STMT × Heap) :=
  match fetch_varlength_loop fetch (field_count stmt) 0 stmt h with
  | none => none
  | some (stmt1, h1) =>
    match stmt1.result_bind with
    | some (_ :: _) => some (stmt1, h1)
    | _ => none

/-! ## Binding (`ssps_bind_result`) -/

/-- The loop of the branch `if (stmt->result_bind)` of `ssps_bind_result`: buffer and
capacity of every column with a positive cached length are reset. -/
def reset_loop : Nat → Nat → STMT → Option STMT
  | 0, _, stmt => some stmt
  | k + 1, i, stmt =>
    match stmt.lengths with
    | none => none
    | some lens =>
      match lens[i]? with
      | none => none
      | some li =>
        if li > 0 then
          match stmt.result_bind with
          | none => none
          | some binds =>
            match binds[i]? with
            | none => none
            | some b =>
              reset_loop k (i + 1)
                { stmt with
                  result_bind := some (binds.set i { b with buffer := none, buffer_length := 0 }) }
        else reset_loop k (i + 1) stmt

/-- The loop of the first bind, over the columns in index order. The entries
`result_bind[i]` and `array[i]` are appended when the loop assigns them; `is_null`,
`err` and `len` are the three cell arrays, `n` is `num_fields`. -/
def first_bind_loop (p : Platform) (n : Nat) (is_null err len : Option Ptr) :
    List MYSQL_FIELD → STMT → Heap → Option (STMT × Heap)
  | [], stmt, h => some (stmt, h)
  | field :: rest, stmt, h =>
    match stmt.result_bind, stmt.array with
    | some binds, some arr =>
      let r := allocate_buffer_for_field p h field
      let b : MYSQL_BIND :=
        { buffer_type := r.1.type,
          buffer := r.1.buffer,
          buffer_length := r.1.size,
          length := len.map (fun _ => 0),
          is_null := is_null.map (fun _ => false),
          error := err.map (fun _ => false),
          is_unsigned := field.flags &&& UNSIGNED_FLAG != 0 }
      let stmt1 : STMT :=
        { stmt with result_bind := some (binds ++ [b]), array := some (arr ++ [r.1.buffer]) }
      if b.buffer = none ∧ b.buffer_type ≠ MYSQL_TYPE_NULL then
        first_bind_loop p n is_null err len rest
          { stmt1 with
            fix_fields := true,
            lengths := (my_malloc r.2).1.map (fun _ => List.replicate n 0) }
          (my_malloc r.2).2
      else
        first_bind_loop p n is_null err len rest stmt1 r.2
    | _, _ => none

/-- Function `ssps_bind_result(stmt)`: the returned `int`, the statement and the
allocator afterwards. The closing call `mysql_stmt_bind_result` hands the table to the
client library and changes nothing in the statement. -/
def ssps_bind_result (p : Platform) (stmt : STMT) (h : Heap) : Option (Int × STMT × Heap) :=
  let num_fields := field_count stmt
  match stmt.result_bind with
  | some _ =>
    if stmt.fix_fields then
      (reset_loop num_fields 0 stmt).map (fun stmt1 => (0, stmt1, h))
    else some (0, stmt, h)
  | none =>
    let a_is_null := my_malloc h
    let a_err := my_malloc a_is_null.2
    let a_len := my_malloc a_err.2
    let a_bind := my_malloc a_len.2
    let a_array := my_malloc a_bind.2
    (first_bind_loop p num_fields a_is_null.1 a_err.1 a_len.1 stmt.fields
      { stmt with
        result_bind := a_bind.1.map (fun _ => []),
        array := a_array.1.map (fun _ => []) }
      a_array.2).map (fun r => (0, r.1, r.2))

/-! ## Truncation query (`ssps_0buffers_truncated_only`) -/

/-- The loop of `ssps_0buffers_truncated_only`, with `k` iterations left to run from
index `i`; reaching the end of the loop gives `TRUE`. -/
def truncated_only_loop (binds : Option (List MYSQL_BIND)) : Nat → Nat → Option Bool
  | 0, _ => some true
  | k + 1, i =>
    match binds with
    | none => none
    | some bs =>
      match bs[i]? with
      | none => none
      | some b =>
        match b.error with
        | none => none
        | some e =>
          if e ∧ b.buffer_length > 0 ∧ b.buffer ≠ none then some false
          else truncated_only_loop binds k (i + 1)

/-- Function `ssps_0buffers_truncated_only(stmt)`. -/
def ssps_0buffers_truncated_only (stmt : STMT) : Option Bool :=
  if stmt.fix_fields = false then some false
  else truncated_only_loop stmt.result_bind (field_count stmt) 0

/-! ## The row fetch of the client library -/

/-- The client library call `mysql_stmt_fetch(ssps)`, seen from the driver: for the
row it moves to, it writes the cells of every binding of the registered table
(`row i` are the values for column `i`); the bytes go to the `Memory`. -/
def mysql_stmt_fetch (row : Nat → RowCells) (stmt : STMT) : STMT :=
  { stmt with
    result_bind := stmt.result_bind.map (fun binds =>
      List.zipWith (fun b i => write_cells b (row i)) binds (List.range binds.length)) }

/-! ## Well-formed states -/

/-- The tables of a bound statement are in place for `n` columns: binding table,
scratch array and cached lengths are allocated with `n` entries each, and every
length cell is valid. -/
def tables_ready (n : Nat) (stmt : STMT) : Prop :=
  match stmt.result_bind, stmt.array, stmt.lengths with
  | some binds, some arr, some lens =>
    binds.length = n ∧ arr.length = n ∧ lens.length = n ∧ ∀ b ∈ binds, b.length ≠ none
  | _, _, _ => False

instance (n : Nat) (stmt : STMT) : Decidable (tables_ready n stmt) := by
  unfold tables_ready
  split <;> infer_instance

/-! ## Sample inputs -/

/-- A platform with signed `char` and a 40-byte `MYSQL_TIME` (x86-64); its
floating-point members are not exercised. -/
def host : Platform :=
  { char_is_signed := true, sizeof_MYSQL_TIME := 40,
    fmt_f := fun _ => [], fp_to_long_long := fun _ => none }

/-- A memory in which every block holds the given bytes. -/
def memory_of (bytes : List Nat) : Memory :=
  fun _ => { bytes := bytes, time := ⟨0, 0, 0, 0, 0, 0, 0, false⟩ }

/-- The binding of a column whose buffer is the block at address 1. -/
def sample_bind (type : enum_field_types) (buffer_length : Nat) (length : Nat)
    (is_null is_unsigned : Bool) : MYSQL_BIND :=
  { buffer_type := type, buffer := some 1, buffer_length := buffer_length,
    length := some length, is_null := some is_null, error := some false,
    is_unsigned := is_unsigned }

/-- A statement with one bound column, not deferred. -/
def one_column (type : enum_field_types) (buffer_length : Nat) (length : Nat)
    (is_null is_unsigned : Bool) : STMT :=
  { fields := [{ type := type, length := 0, flags := if is_unsigned then 32 else 0 }],
    result_bind := some [sample_bind type buffer_length length is_null is_unsigned],
    array := some [some 1], lengths := none, fix_fields := false }

/-- An unbound statement with one BLOB column of declared length 65535. -/
def blob_statement : STMT :=
  { fields := [{ type := MYSQL_TYPE_BLOB, length := 65535, flags := 0 }],
    result_bind := none, array := none, lengths := none, fix_fields := false }

/-- The binding of a deferred BLOB column right after the row fetch: no buffer yet,
the row's length reported, the value flagged as truncated. -/
def deferred_bind (length : Nat) : MYSQL_BIND :=
  { buffer_type := MYSQL_TYPE_BLOB, buffer := none, buffer_length := 0,
    length := some length, is_null := some false, error := some true,
    is_unsigned := false }

/-- The statement `blob_statement` after its first bind and the fetch of a row whose
value has the given length. -/
def blob_row (length : Nat) : STMT :=
  { fields := [{ type := MYSQL_TYPE_BLOB, length := 65535, flags := 0 }],
    result_bind := some [deferred_bind length],
    array := some [none], lengths := some [0], fix_fields := true }

/-- A row whose columns all report the given length, truncated, not null. -/
def row_of_length (len : Nat) : Nat → RowCells :=
  fun _ => { length := len, is_null := false, error := true }

/-- A column re-fetch that reports the length already in the cell and no truncation. -/
def refetch : FetchColumn :=
  fun b _ => { length := b.length.getD 0, is_null := false, error := false }




/-! ## Reference renderings -/

/-- The character of the decimal digit `d`. -/
def digit_char (d : Nat) : Char := Char.ofNat (48 + d)

/-- The `w` low-order decimal digits of `n`, most significant first: the text of a
number written with exactly `w` digits, zero-padded on the left. -/
def zero_padded : Nat → Nat → List Char
  | 0, _ => []
  | w + 1, n => zero_padded w (n / 10) ++ [digit_char (n % 10)]

/-- The rendering `YYYY-MM-DD HH:MM:SS`, followed by `.ffffff` when the fraction is
not zero. -/
def render_datetime (t : MYSQL_TIME) : List Char :=
  zero_padded 4 t.year ++ '-' :: zero_padded 2 t.month ++ '-' :: zero_padded 2 t.day
    ++ ' ' :: zero_padded 2 t.hour ++ ':' :: zero_padded 2 t.minute
    ++ ':' :: zero_padded 2 t.second
    ++ (if t.second_part = 0 then [] else '.' :: zero_padded 6 t.second_part)

/-- The complete text of the format `%04u-%02u-%02u %02u:%02u:%02u`. -/
def datetime_formatted (t : MYSQL_TIME) : List Char :=
  fmt_0u 4 t.year ++ '-' :: fmt_0u 2 t.month ++ '-' :: fmt_0u 2 t.day
    ++ ' ' :: fmt_0u 2 t.hour ++ ':' :: fmt_0u 2 t.minute ++ ':' :: fmt_0u 2 t.second


/-- The complete text of the format `%s%02u:%02u:%02u`. -/
def time_formatted (t : MYSQL_TIME) : List Char :=
  (if t.neg then ['-'] else []) ++ fmt_0u 2 t.hour
    ++ ':' :: fmt_0u 2 t.minute ++ ':' :: fmt_0u 2 t.second

/-- A memory in which every block holds the given temporal record. -/
def memory_of_time (t : MYSQL_TIME) : Memory :=
  fun _ => { bytes := [], time := t }

/-! ## Per-column view of a statement -/

/-- The cached length `stmt->lengths[i]`, when the cache and the entry exist. -/
def cached_at (stmt : STMT) (i : Nat) : Option Nat :=
  match stmt.lengths with
  | none => none
  | some lens => lens[i]?

/-- The scratch pointer `stmt->array[i]`, when the array and the entry exist. -/
def scratch_at (stmt : STMT) (i : Nat) : Option (Option Ptr) :=
  match stmt.array with
  | none => none
  | some arr => arr[i]?

/-- The members of a binding that only the driver writes: type tag, buffer, capacity
and unsigned flag (the cells are written by the client library). -/
def bind_core (b : MYSQL_BIND) : enum_field_types × Option Ptr × Nat × Bool :=
  (b.buffer_type, b.buffer, b.buffer_length, b.is_unsigned)

/-- Everything the statement holds for column `i`: its binding, its cached length
and its scratch pointer. -/
structure ColumnView where
  bind : Option MYSQL_BIND
  cached : Option Nat
  scratch : Option (Option Ptr)
  deriving DecidableEq

/-- The view of column `i` of a statement. -/
def column_view (stmt : STMT) (i : Nat) : ColumnView :=
  { bind := col_rbind stmt i, cached := cached_at stmt i, scratch := scratch_at stmt i }

/-- Nothing the driver owns has changed for the column (its cells may have). -/
def untouched (x x1 : ColumnView) : Prop :=
  x1.bind.map bind_core = x.bind.map bind_core ∧ x1.cached = x.cached
    ∧ x1.scratch = x.scratch

/-- The column has gone through one iteration of the deferred fetch: a column with a
buffer is left alone; a column without one gets the larger of its cached length and
the row's length as cached length and capacity, and the scratch pointer as buffer,
the scratch pointer being kept when the cached length was enough. -/
def refetched (x x1 : ColumnView) : Prop :=
  ∃ b b1, x.bind = some b ∧ x1.bind = some b1 ∧ b1.buffer_type = b.buffer_type
    ∧ b1.is_unsigned = b.is_unsigned
    ∧ ((b.buffer ≠ none ∧ b1.buffer = b.buffer ∧ b1.buffer_length = b.buffer_length
          ∧ x1.cached = x.cached ∧ x1.scratch = x.scratch)
      ∨ (b.buffer = none ∧ ∃ len li ai, b.length = some len ∧ x.cached = some li
          ∧ x.scratch = some ai ∧ x1.cached = some (max li len)
          ∧ b1.buffer_length = max li len ∧ x1.scratch = some b1.buffer
          ∧ (len ≤ li → b1.buffer = ai)))

/-- The column has gone through one iteration of the reset loop of a rebind: cached
length and scratch pointer are kept; with a positive cached length the binding loses
its buffer and its capacity, otherwise the binding is kept. -/
def rebound (x x1 : ColumnView) : Prop :=
  x1.cached = x.cached ∧ x1.scratch = x.scratch
    ∧ ∃ li, x.cached = some li
      ∧ (if li > 0 then
          ∃ b, x.bind = some b ∧ x1.bind = some { b with buffer := none, buffer_length := 0 }
        else x1.bind = x.bind)

/-- The statement after the reset loop has cleared buffer and capacity of column `i`,
whose binding was `b` in the table `binds`. -/
def reset_column (s : STMT) (binds : List MYSQL_BIND) (i : Nat) (b : MYSQL_BIND) : STMT :=
  { s with result_bind := some (binds.set i { b with buffer := none, buffer_length := 0 }) }

/-! ## Sequences of calls -/

/-- A statement on which nothing has been bound yet. -/
def unbound (stmt : STMT) : Prop :=
  stmt.result_bind = none ∧ stmt.array = none ∧ stmt.lengths = none
    ∧ stmt.fix_fields = false

instance (stmt : STMT) : Decidable (unbound stmt) := by
  unfold unbound
  infer_instance

/-- An allocator that refuses no request. -/
def never_refuses (h : Heap) : Prop := ∀ r ∈ h.refusals, r = false

instance (h : Heap) : Decidable (never_refuses h) := by
  unfold never_refuses
  infer_instance

/-- One call made on a statement while its result set is read: the row fetch of the
client library, the deferred fetch, or `ssps_bind_result`; the deferred fetch and the
bind may find the allocator in any state. -/
inductive Call (p : Platform) : STMT → STMT → Prop
  | row (row : Nat → RowCells) (s : STMT) : Call p s (mysql_stmt_fetch row s)
  | fetch (fetch : FetchColumn) (s s1 : STMT) (h h1 : Heap) :
      fetch_varlength_columns fetch s h = some (s1, h1) → Call p s s1
  | bind (s s1 : STMT) (h h1 : Heap) (r : Int) :
      ssps_bind_result p s h = some (r, s1, h1) → Call p s s1

/-- The statement `s1` is reached from `s` by a sequence of calls. -/
inductive Later (p : Platform) : STMT → STMT → Prop
  | refl (s : STMT) : Later p s s
  | step (s s1 s2 : STMT) : Later p s s1 → Call p s1 s2 → Later p s s2

/-- What holds of a deferred column `i` of a statement with `n` columns between calls:
the statement is marked as having deferred columns, every column has a binding and a
cached length, and while the cached length of column `i` is zero the column has no
buffer, capacity 0 and no scratch block. -/
def deferred_column_ready (n i : Nat) (s : STMT) : Prop :=
  i < n ∧ s.fix_fields = true ∧ field_count s = n
    ∧ (∀ m, m < n → ∃ b li, col_rbind s m = some b ∧ cached_at s m = some li)
    ∧ ∃ b li ai, col_rbind s i = some b ∧ cached_at s i = some li
        ∧ scratch_at s i = some ai
        ∧ (li = 0 → b.buffer = none ∧ b.buffer_length = 0 ∧ ai = none)

/-- What holds of a column `i` that got the buffer `buffer` of capacity `capacity` at
the first bind: the binding still has them, and the cached length of the column, if
there is a cache, is zero. -/
def fixed_column_kept (i : Nat) (buffer : Option Ptr) (capacity : Nat) (s : STMT) : Prop :=
  (∃ b, col_rbind s i = some b ∧ b.buffer = buffer ∧ b.buffer_length = capacity)
    ∧ (cached_at s i = none ∨ cached_at s i = some 0)

/-! ## Sample sequences -/

/-- The binding of a deferred BLOB column as the first bind leaves it: no buffer, the
cells zeroed. -/
def blob_bind : MYSQL_BIND :=
  { buffer_type := MYSQL_TYPE_BLOB, buffer := none, buffer_length := 0,
    length := some 0, is_null := some false, error := some false, is_unsigned := false }

/-- The statement `blob_statement` after its first bind with the allocator
`⟨100, []⟩`: one deferred column, no buffer, cached length 0. -/
def blob_bound : STMT :=
  { fields := [{ type := MYSQL_TYPE_BLOB, length := 65535, flags := 0 }],
    result_bind := some [blob_bind],
    array := some [none], lengths := some [0], fix_fields := true }

/-- The statement `blob_bound` after the fetch of a row whose value has length 5 and
the deferred fetch of that row: the scratch block 106 of 5 bytes is bound. -/
def blob_fetched : STMT :=
  { fields := [{ type := MYSQL_TYPE_BLOB, length := 65535, flags := 0 }],
    result_bind := some [{ buffer_type := MYSQL_TYPE_BLOB, buffer := some 106,
                           buffer_length := 5, length := some 5, is_null := some false,
                           error := some false, is_unsigned := false }],
    array := some [some 106], lengths := some [5], fix_fields := true }

/-- An unbound statement with a LONG column and a BLOB column. -/
def mixed_statement : STMT :=
  { fields := [{ type := MYSQL_TYPE_LONG, length := 11, flags := 0 },
               { type := MYSQL_TYPE_BLOB, length := 65535, flags := 0 }],
    result_bind := none, array := none, lengths := none, fix_fields := false }

/-- The binding of the LONG column of `mixed_statement`: the block 105 of 4 bytes. -/
def long_bind (length : Nat) : MYSQL_BIND :=
  { buffer_type := MYSQL_TYPE_LONG, buffer := some 105, buffer_length := 4,
    length := some length, is_null := some false, error := some false,
    is_unsigned := false }

/-- The statement `mixed_statement` after its first bind with the allocator
`⟨100, []⟩`: the LONG column has its buffer, the BLOB column is deferred. -/
def mixed_bound : STMT :=
  { fields := mixed_statement.fields,
    result_bind := some [long_bind 0, blob_bind],
    array := some [some 105, none], lengths := some [0, 0], fix_fields := true }

/-- A row of `mixed_statement`: 4 bytes in the LONG column, 5 bytes in the BLOB column,
the latter flagged as truncated. -/
def mixed_row : Nat → RowCells :=
  fun i => { length := if i = 0 then 4 else 5, is_null := false, error := i != 0 }

/-- The statement `mixed_bound` after the fetch of `mixed_row` and the deferred fetch
of that row with the allocator `⟨107, []⟩`: the scratch block 107 of 5 bytes is bound
to the BLOB column. -/
def mixed_fetched : STMT :=
  { fields := mixed_statement.fields,
    result_bind := some [long_bind 4,
                         { buffer_type := MYSQL_TYPE_BLOB, buffer := some 107,
                           buffer_length := 5, length := some 5, is_null := some false,
                           error := some true, is_unsigned := false }],
    array := some [some 105, some 107], lengths := some [0, 5], fix_fields := true }

/-- The statement `mixed_fetched` after a rebind: the BLOB column is reset, the scratch
block 107 stays cached. -/
def mixed_rebound : STMT :=
  { fields := mixed_statement.fields,
    result_bind := some [long_bind 4,
                         { buffer_type := MYSQL_TYPE_BLOB, buffer := none, buffer_length := 0,
                           length := some 5, is_null := some false, error := some true,
                           is_unsigned := false }],
    array := some [some 105, some 107], lengths := some [0, 5], fix_fields := true }

/-! ## Sample statements with a NULL-typed column and with refused requests -/

/-- An unbound statement with a BLOB column and a column of the NULL type. -/
def blob_null_statement : STMT :=
  { fields := [{ type := MYSQL_TYPE_BLOB, length := 65535, flags := 0 },
               { type := MYSQL_TYPE_NULL, length := 0, flags := 0 }],
    result_bind := none, array := none, lengths := none, fix_fields := false }

/-- The statement `blob_null_statement` after its first bind with the allocator
`⟨100, []⟩`: neither column has a buffer, and only the BLOB column made the binder set
`fix_fields`. -/
def blob_null_bound : STMT :=
  { fields := blob_null_statement.fields,
    result_bind := some [blob_bind, { blob_bind with buffer_type := MYSQL_TYPE_NULL }],
    array := some [none, none], lengths := some [0, 0], fix_fields := true }

/-- A row of `blob_null_statement`: 5 bytes in the BLOB column, and the given length
and null flag in the column of the NULL type. -/
def blob_null_row (len : Nat) (is_null : Bool) : Nat → RowCells :=
  fun i => if i = 0 then { length := 5, is_null := false, error := true }
    else { length := len, is_null := is_null, error := false }

/-- A column re-fetch that reports 40 plus the column number as the length, so that
the cells written show for which column it ran last. -/
def numbered : FetchColumn :=
  fun _ i => { length := 40 + i, is_null := false, error := false }

/-- The buffer, capacity and length cell of a column, its scratch entry and its cached
length. -/
def column_state (s : STMT) (i : Nat) :
    Option (Option Ptr × Nat × Option Nat) × Option (Option Ptr) × Option Nat :=
  ((col_rbind s i).map (fun b => (b.buffer, b.buffer_length, b.length)),
    scratch_at s i, cached_at s i)

/-! ## Bound statements and calls in which every allocation succeeds -/

/-- A statement bound for `n` columns: the binding table has `n` entries, and when
the statement has deferred columns its tables are in place. -/
def bound_columns (n : Nat) (s : STMT) : Prop :=
  field_count s = n ∧ (∃ binds, s.result_bind = some binds ∧ binds.length = n)
    ∧ (s.fix_fields = true → tables_ready n s ∧ 0 < n)

/-- One call on a bound statement in which every allocation succeeds. -/
inductive GrantedCall (p : Platform) : STMT → STMT → Prop
  | row (row : Nat → RowCells) (s : STMT) : GrantedCall p s (mysql_stmt_fetch row s)
  | fetch (fetch : FetchColumn) (s s1 : STMT) (h h1 : Heap) :
      never_refuses h → fetch_varlength_columns fetch s h = some (s1, h1) →
      GrantedCall p s s1
  | bind (s s1 : STMT) (h h1 : Heap) (r : Int) :
      never_refuses h → ssps_bind_result p s h = some (r, s1, h1) → GrantedCall p s s1

/-- Any number of calls in which every allocation succeeds. -/
inductive GrantedLater (p : Platform) : STMT → STMT → Prop
  | refl (s : STMT) : GrantedLater p s s
  | step (s s1 s2 : STMT) : GrantedLater p s s1 → GrantedCall p s1 s2 → GrantedLater p s s2

/-- Buffer and capacity of a column agree, and so do scratch entry and cached length
once the column has no buffer or a positive cached length. -/
def capacity_matches (x : ColumnView) : Prop :=
  ∃ b, x.bind = some b ∧ (b.buffer = none ↔ b.buffer_length = 0)
    ∧ ∀ li ai, x.cached = some li → x.scratch = some ai → (b.buffer = none ∨ 0 < li) →
        (ai = none ↔ li = 0)

/-! ## Statement preparation (`my_SQLPrepare`, prepare.c) -/

/-- Character set of the connection as the scan uses it: `use_mb(charset_info)`, and
`my_ismbchar(charset_info, pos, end)` as a function of the text and the position. -/
structure CHARSET_INFO where
  use_mb : Bool
  my_ismbchar : List Char → Nat → Nat

/-- The terminating NUL character. -/
def NUL : Char := Char.ofNat 0

/-- The character read at `query[i]`, where `query` are the characters before the
terminator: the terminator at `i = length`, and nothing the program may read beyond. -/
def char_at (query : List Char) (i : Nat) : Option Char :=
  match query[i]? with
  | some c => some c
  | none => if i = query.length then some NUL else none

/-- Local variables of `my_SQLPrepare` during the scan, with the text `stmt->query`;
`pos` and `pcLastCloseBrace` are offsets into the text, `param_pos` holds the offsets
stored by `set_dynamic` at the indices `0 .. param_count - 1`. -/
structure Scan where
  query : List Char
  pos : Nat
  in_string : Char
  param_count : Nat
  param_pos : List Nat
  bPerhapsEmbraced : Bool
  bEmbraced : Bool
  pcLastCloseBrace : Option Nat
  deriving DecidableEq

/-- How the body of the scanning loop is left. -/
inductive Step
  /-- By `continue` or at its end; the `pos++` of the `for` is still to come. -/
  | next (s : Scan)
  /-- By `return set_error(stmt, MYERR_S1001, NULL, 4001)`. -/
  | failed
  /-- By a read at an index beyond the terminator (undefined behaviour). -/
  | outside (index : Nat)
  deriving DecidableEq

/-- What a call of `my_SQLPrepare` does. -/
inductive Prepared
  /-- It returns `SQL_SUCCESS`, leaving the text `stmt->query`, `stmt->param_count`, the
  recorded marker offsets and the offset `stmt->query_end`. -/
  | success (query : List Char) (param_count : Nat) (param_pos : List Nat) (query_end : Nat)
  /-- It returns the error set by `set_error(stmt, MYERR_S1001, NULL, 4001)`. -/
  | error
  /-- It reads the text at an index beyond the terminator (undefined behaviour). -/
  | outside (index : Nat)
  /-- The loop is still running when the iterations granted to it are used up. -/
  | running
  deriving DecidableEq

/-- The part `if (bPerhapsEmbraced) ... else if (bEmbraced && *pos == '}') ...` of the
loop body, for a character `c = *pos` that did not open an embraced statement. -/
def brace_flags (s : Scan) (c : Char) : Scan :=
  if s.bPerhapsEmbraced then
    if !isspace c then { s with bPerhapsEmbraced := false } else s
  else if s.bEmbraced ∧ c = '}' then { s with pcLastCloseBrace := some s.pos }
  else s

/-- The parts `in a string?` and `parameter marker?` of the loop body. `record k` tells
whether `desc_get_rec(stmt->apd, k, TRUE)`, `desc_get_rec(stmt->ipd, k, TRUE)` and
`set_dynamic(&stmt->param_pos, (char *)&pos, k)` all succeed. -/
def scan_quote_or_marker (record : Nat → Bool) (s : Scan) (c : Char) : Step :=
  if c = s.in_string then
    match char_at s.query (s.pos + 1) with
    | none => Step.outside (s.pos + 1)
    | some c1 =>
      if c1 = s.in_string then Step.next { s with pos := s.pos + 1 }
      else Step.next { s with in_string := NUL }
  else if s.in_string = NUL then
    if c = '\'' ∨ c = '"' ∨ c = '`' then Step.next { s with in_string := c }
    else if c = '?' then
      if record s.param_count then
        Step.next { s with param_pos := s.param_pos ++ [s.pos],
                           param_count := s.param_count + 1 }
      else Step.failed
    else Step.next s
  else Step.next s

/-- The part `escape char?` of the loop body and what follows it. -/
def scan_escape (record : Nat → Bool) (s : Scan) (c : Char) : Step :=
  if c = '\\' then
    match char_at s.query (s.pos + 1) with
    | none => Step.outside (s.pos + 1)
    | some c1 =>
      if c1 ≠ NUL then Step.next { s with pos := s.pos + 1 }
      else scan_quote_or_marker record s c
  else scan_quote_or_marker record s c

/-- The body of the loop `for (pos= stmt->query; *pos ; pos++)` for the character
`c = *pos`. -/
def scan_body (cs : CHARSET_INFO) (record : Nat → Bool) (s : Scan) (c : Char) : Step :=
  if cs.use_mb ∧ cs.my_ismbchar s.query s.pos ≠ 0 then
    Step.next { s with pos := s.pos + (cs.my_ismbchar s.query s.pos - 1) }
  else if s.bPerhapsEmbraced ∧ c = '{' then
    Step.next { s with bPerhapsEmbraced := false, bEmbraced := true,
                       query := s.query.set s.pos ' ', pos := s.pos + 1 }
  else scan_escape record (brace_flags s c) c

/-- The statements after the loop: the last closing brace seen is replaced by a space
and the results are stored in the statement. -/
def scan_finish (s : Scan) : Prepared :=
  Prepared.success
    (match s.pcLastCloseBrace with
     | some i => s.query.set i ' '
     | none => s.query)
    s.param_count s.param_pos s.pos

/-- The loop `for (pos= stmt->query; *pos ; pos++)`, with a bound on the number of
times its condition is evaluated. -/
def scan_loop (cs : CHARSET_INFO) (record : Nat → Bool) : Nat → Scan → Prepared
  | 0, _ => Prepared.running
  | fuel + 1, s =>
    match char_at s.query s.pos with
    | none => Prepared.outside s.pos
    | some c =>
      if c = NUL then scan_finish s
      else
        match scan_body cs record s c with
        | Step.next s1 => scan_loop cs record fuel { s1 with pos := s1.pos + 1 }
        | Step.failed => Prepared.error
        | Step.outside i => Prepared.outside i

/-- The local variables when the loop is entered. -/
def scan_start (query : List Char) : Scan :=
  { query := query, pos := 0, in_string := NUL, param_count := 0, param_pos := [],
    bPerhapsEmbraced := true, bEmbraced := false, pcLastCloseBrace := none }

/-- Function `my_SQLPrepare(hstmt, szSqlStr, cbSqlStr, dupe)`. The argument `query` is
the text `stmt->query` points at once it is assigned (the caller's text when `dupe` is
set, else the copy made by `dupp_str`), without its terminator, or `none` when
`dupp_str` returned NULL. Every iteration moves `pos` forward, so the condition of the
loop is evaluated at most `length + 1` times before it ends or reads outside the
text. -/
def my_SQLPrepare (cs : CHARSET_INFO) (record : Nat → Bool) (query : Option (List Char)) :
    Prepared :=
  match query with
  | none => Prepared.error
  | some q => scan_loop cs record (q.length + 1) (scan_start q)

/-- A single-byte character set. -/
def single_byte : CHARSET_INFO := { use_mb := false, my_ismbchar := fun _ _ => 0 }

/-- Where a position of a query text lies with respect to the literals quoted with
`'`, `"` or a backtick: outside of them, inside the literal opened by the quote
character `q`, or inside it right after a `q`, which ends the literal unless a second
`q` follows (a doubled quote character). -/
inductive Quoting
  | outside
  | inside (q : Char)
  | closing (q : Char)
  deriving DecidableEq

/-- The positions of the parameter markers of a query text, read off the text from
left to right: the `?` characters outside the quoted literals. `pos` is the position of
the first character of `text`; a literal left open runs to the end. -/
def outside_markers : Quoting → Nat → List Char → List Nat
  | _, _, [] => []
  | Quoting.outside, pos, c :: rest =>
    if c = '\'' ∨ c = '"' ∨ c = '`' then outside_markers (Quoting.inside c) (pos + 1) rest
    else if c = '?' then pos :: outside_markers Quoting.outside (pos + 1) rest
    else outside_markers Quoting.outside (pos + 1) rest
  | Quoting.inside q, pos, c :: rest =>
    if c = q then outside_markers (Quoting.closing q) (pos + 1) rest
    else outside_markers (Quoting.inside q) (pos + 1) rest
  | Quoting.closing q, pos, c :: rest =>
    if c = q then outside_markers (Quoting.inside q) (pos + 1) rest
    else if c = '\'' ∨ c = '"' ∨ c = '`' then
      outside_markers (Quoting.inside c) (pos + 1) rest
    else if c = '?' then pos :: outside_markers Quoting.outside (pos + 1) rest
    else outside_markers Quoting.outside (pos + 1) rest

/-- The local variables of the scan at offset `pos` of a text that is not an embraced
statement: `quote` is the quote character of the literal the scan is in, `perhaps` the
flag `bPerhapsEmbraced`, `param_pos` the markers recorded so far. -/
def scan_at (text : List Char) (pos : Nat) (quote : Option Char) (perhaps : Bool)
    (param_pos : List Nat) : Scan :=
  { query := text, pos := pos, in_string := quote.getD NUL, param_count := param_pos.length,
    param_pos := param_pos, bPerhapsEmbraced := perhaps, bEmbraced := false,
    pcLastCloseBrace := none }

/-- The place of the scan with respect to the literals, from the variable
`in_string`. -/
def quoting_of (quote : Option Char) : Quoting :=
  match quote with
  | none => Quoting.outside
  | some q => Quoting.inside q

/-- An environment in which every parameter record can be created. -/
def always : Nat → Bool := fun _ => true

/-! ## The first bind, column by column -/

/-- The allocator after the five requests that open the first bind: the arrays of
is-null, error and length cells, the binding table and the scratch array. -/
def tables_heap (h : Heap) : Heap :=
  (my_malloc (my_malloc (my_malloc (my_malloc (my_malloc h).2).2).2).2).2

/-- The allocator as the loop of the first bind finds it when it comes to column `i`:
every earlier column has called `allocate_buffer_for_field`, and every earlier column
without a buffer and not of the NULL type has requested a cache of lengths. -/
def column_heap (p : Platform) : List MYSQL_FIELD → Heap → Nat → Heap
  | [], h, _ => h
  | _ :: _, h, 0 => h
  | field :: rest, h, i + 1 =>
    if (allocate_buffer_for_field p h field).1.buffer = none
        ∧ (allocate_buffer_for_field p h field).1.type ≠ MYSQL_TYPE_NULL then
      column_heap p rest (my_malloc (allocate_buffer_for_field p h field).2).2 i
    else column_heap p rest (allocate_buffer_for_field p h field).2 i

/-- The members the loop of the first bind assigns to `stmt->result_bind[i]` for the
column `field`, when the allocator is `h` and the three arrays of cells are `is_null`,
`err` and `len`. -/
def first_binding (p : Platform) (h : Heap) (field : MYSQL_FIELD)
    (is_null err len : Option Ptr) : MYSQL_BIND :=
  { buffer_type := (allocate_buffer_for_field p h field).1.type,
    buffer := (allocate_buffer_for_field p h field).1.buffer,
    buffer_length := (allocate_buffer_for_field p h field).1.size,
    length := len.map (fun _ => 0),
    is_null := is_null.map (fun _ => false),
    error := err.map (fun _ => false),
    is_unsigned := field.flags &&& UNSIGNED_FLAG != 0 }

/-! ## Arithmetic and allocator lemmas -/

theorem le_value_lt (bs : List Nat) : le_value bs < 256 ^ bs.length := by
  induction bs with
  | nil => simp [le_value]
  | cons b bs ih =>
    have hb : b % 256 < 256 := Nat.mod_lt _ (by decide)
    simp only [le_value, List.length_cons, pow_succ]
    omega

theorem to_signed_64_eq (u : Nat) (hu : u < 2 ^ 64) :
    to_signed 64 u = if u < 2 ^ 63 then (u : Int) else (u : Int) - 2 ^ 64 := by
  unfold to_signed
  rw [Nat.mod_eq_of_lt hu]
  norm_num

theorem to_unsigned64_to_signed (u : Nat) (hu : u < 2 ^ 64) :
    to_unsigned64 (to_signed 64 u) = u := by
  rw [to_signed_64_eq u hu]
  unfold to_unsigned64
  norm_num
  split <;> omega

theorem my_malloc_granted (h : Heap) (hg : h.refusals.head? ≠ some true) :
    (my_malloc h).1 = some h.next := by
  unfold my_malloc
  rcases h with ⟨next, refusals⟩
  match refusals, hg with
  | [], _ => rfl
  | false :: _, _ => rfl
  | true :: _, hg => exact absurd rfl hg

/-! ## Integer accessor -/

/-- Claim C1. The code at a signed column storing -1: for a non-null signed SHORT
column of capacity 2 holding the bytes FF FF, `ssps_get_int64` returns 65535, and for
a non-null signed LONG column of capacity 4 holding FF FF FF FF it returns 4294967295,
on every platform; the two's-complement value of both buffers is -1. -/
theorem get_int64_signed_minus_one_read_unsigned (p : Platform) (length : Nat) :
    ssps_get_int64 p (memory_of [255, 255])
        (one_column MYSQL_TYPE_SHORT 2 2 false false) 0 length = some 65535
    ∧ to_signed 16 (le_value [255, 255]) = -1
    ∧ ssps_get_int64 p (memory_of [255, 255, 255, 255])
        (one_column MYSQL_TYPE_LONG 4 4 false false) 0 length = some 4294967295
    ∧ to_signed 32 (le_value [255, 255, 255, 255]) = -1 :=
  ⟨rfl, by decide, rfl, by decide⟩

/-- Claim C2. The code at an unsigned column storing a value above the signed range:
for a non-null unsigned LONG column of capacity 4 holding 3000000000 (bytes 00 5E D0 B2),
`ssps_get_int64` returns -1294967296 on every platform; and where plain `char` is
signed, a non-null unsigned TINY column holding 200 gives -56. -/
theorem get_int64_unsigned_read_signed (p : Platform) (length : Nat) :
    le_value [0, 94, 208, 178] = 3000000000
    ∧ ssps_get_int64 p (memory_of [0, 94, 208, 178])
        (one_column MYSQL_TYPE_LONG 4 4 false true) 0 length = some (-1294967296)
    ∧ ssps_get_int64 host (memory_of [200])
        (one_column MYSQL_TYPE_TINY 1 1 false true) 0 length = some (-56) :=
  ⟨by decide, rfl, rfl⟩

/-- Claim C3. For a non-null unsigned integer column of capacity 8 whose buffer holds
the unsigned value `u` (always below 2^64), `ssps_get_int64` returns `u` itself when
`u < 2^63` and `u - 2^64` otherwise: the value with the same 64-bit pattern, which
converts back to `u`; nothing is clamped. -/
theorem get_int64_unsigned_8_bytes_bit_identical (p : Platform) (mem : Memory) (stmt : STMT)
    (column_number length : Nat) (col : MYSQL_BIND) (a : Ptr)
    (hcol : col_rbind stmt column_number = some col)
    (hty : col.buffer_type ∈ [MYSQL_TYPE_LONGLONG, MYSQL_TYPE_LONG, MYSQL_TYPE_INT24,
      MYSQL_TYPE_SHORT, MYSQL_TYPE_YEAR, MYSQL_TYPE_TINY])
    (hnull : col.is_null = some false) (huns : col.is_unsigned = true)
    (hw : col.buffer_length = 8) (hbuf : col.buffer = some a)
    (hsz : 8 ≤ (mem a).bytes.length) :
    le_value ((mem a).bytes.take 8) < 2 ^ 64
    ∧ ∃ r, ssps_get_int64 p mem stmt column_number length = some r
      ∧ r = (if le_value ((mem a).bytes.take 8) < 2 ^ 63
            then (le_value ((mem a).bytes.take 8) : Int)
            else (le_value ((mem a).bytes.take 8) : Int) - 2 ^ 64)
      ∧ to_unsigned64 r = le_value ((mem a).bytes.take 8) := by
  have hlt : le_value ((mem a).bytes.take 8) < 2 ^ 64 := by
    have h := le_value_lt ((mem a).bytes.take 8)
    rw [List.length_take, Nat.min_eq_left hsz] at h
    exact h
  have hint : get_int64_integer p mem col
      = some (to_signed 64 (le_value ((mem a).bytes.take 8))) := by
    simp [get_int64_integer, hnull, huns, hw, deref, hbuf, load, Nat.not_lt.mpr hsz]
  refine ⟨hlt, to_signed 64 (le_value ((mem a).bytes.take 8)), ?_, to_signed_64_eq _ hlt,
    to_unsigned64_to_signed _ hlt⟩
  rw [← hint]
  simp only [List.mem_cons, List.mem_singleton, List.not_mem_nil, or_false] at hty
  rcases hty with h | h | h | h | h | h <;> simp [ssps_get_int64, hcol, h]

theorem get_int64_unsigned_8_bytes_bit_identical_witness :
    le_value [255, 255, 255, 255, 255, 255, 255, 255] < 2 ^ 64
    ∧ ∃ r, ssps_get_int64 host (memory_of [255, 255, 255, 255, 255, 255, 255, 255])
        (one_column MYSQL_TYPE_LONGLONG 8 8 false true) 0 0 = some r
      ∧ r = (if le_value [255, 255, 255, 255, 255, 255, 255, 255] < 2 ^ 63
            then (le_value [255, 255, 255, 255, 255, 255, 255, 255] : Int)
            else (le_value [255, 255, 255, 255, 255, 255, 255, 255] : Int) - 2 ^ 64)
      ∧ to_unsigned64 r = le_value [255, 255, 255, 255, 255, 255, 255, 255] :=
  get_int64_unsigned_8_bytes_bit_identical host
    (memory_of [255, 255, 255, 255, 255, 255, 255, 255])
    (one_column MYSQL_TYPE_LONGLONG 8 8 false true) 0 0
    (sample_bind MYSQL_TYPE_LONGLONG 8 8 false true) 1
    rfl (by decide) rfl rfl rfl rfl (by decide)

/-! ## Null columns -/

/-- Claim C4. For a column whose is-null flag is set, whatever its type, buffer and
unsigned flag, `ssps_get_string` returns the NULL pointer (no text at all, `*length`
untouched) and `ssps_get_double` returns the literal zero. -/
theorem null_column_string_and_double (p : Platform) (mem : Memory) (stmt : STMT)
    (column_number length : Nat) (buffer : Dest) (col : MYSQL_BIND)
    (hcol : col_rbind stmt column_number = some col) (hnull : col.is_null = some true) :
    ssps_get_string p mem stmt column_number length buffer
        = some { value := none, length := length }
    ∧ ssps_get_double p mem stmt column_number length = some LongDouble.zero := by
  constructor
  · simp [ssps_get_string, hcol, hnull]
  · simp [ssps_get_double, hcol, hnull]

theorem null_column_string_and_double_witness :
    ssps_get_string host (memory_of [49, 50, 0])
        (one_column MYSQL_TYPE_VAR_STRING 3 2 true false) 0 7 Dest.caller
        = some { value := none, length := 7 }
    ∧ ssps_get_double host (memory_of [49, 50, 0])
        (one_column MYSQL_TYPE_VAR_STRING 3 2 true false) 0 7 = some LongDouble.zero :=
  null_column_string_and_double host _ _ 0 7 Dest.caller _ rfl rfl

/-- Claim C5. The code at null-flagged columns outside the integer family: for a
null VAR_STRING column `ssps_get_int64` hands the NULL pointer returned by
`ssps_get_string` to `strtoll` (undefined behaviour, no value returned), and for a null
BIT column whose buffer still holds the byte 05 with length 1 it returns 5; for a null
LONG or FLOAT column it returns 0. -/
theorem get_int64_null_column_not_zero (p : Platform) (length : Nat) :
    ssps_get_int64 p (memory_of [49, 0])
        (one_column MYSQL_TYPE_VAR_STRING 2 1 true false) 0 length = none
    ∧ ssps_get_int64 p (memory_of [5]) (one_column MYSQL_TYPE_BIT 1 1 true true) 0 length
        = some 5
    ∧ ssps_get_int64 p (memory_of [5, 0, 0, 0])
        (one_column MYSQL_TYPE_LONG 4 4 true false) 0 length = some 0
    ∧ ssps_get_int64 p (memory_of [5, 0, 0, 0])
        (one_column MYSQL_TYPE_FLOAT 4 4 true false) 0 length = some 0 :=
  ⟨rfl, rfl, rfl, rfl⟩

/-! ## Buffer allocation -/

/-- Claim C6. Whatever the declared length and flags, `allocate_buffer_for_field` gives
capacity 1 to TINY, 2 to SHORT and YEAR, 4 to INT24, LONG and FLOAT, 8 to DOUBLE and
LONGLONG, 64 to DECIMAL and NEWDECIMAL, 1 to BIT, `sizeof(MYSQL_TIME)` to DATE, TIME,
DATETIME and TIMESTAMP alike; every type that is neither one of these nor a
variable-length text/blob type (NULL, GEOMETRY, ENUM, SET, VARCHAR, NEWDATE) gets no
buffer, capacity 0 and no allocation request; the returned type tag is the declared
one. -/
theorem allocate_fixed_sizes (p : Platform) (h : Heap) (length flags : Nat) :
    (allocate_buffer_for_field p h ⟨MYSQL_TYPE_TINY, length, flags⟩).1.size = 1
    ∧ (allocate_buffer_for_field p h ⟨MYSQL_TYPE_SHORT, length, flags⟩).1.size = 2
    ∧ (allocate_buffer_for_field p h ⟨MYSQL_TYPE_YEAR, length, flags⟩).1.size = 2
    ∧ (allocate_buffer_for_field p h ⟨MYSQL_TYPE_INT24, length, flags⟩).1.size = 4
    ∧ (allocate_buffer_for_field p h ⟨MYSQL_TYPE_LONG, length, flags⟩).1.size = 4
    ∧ (allocate_buffer_for_field p h ⟨MYSQL_TYPE_FLOAT, length, flags⟩).1.size = 4
    ∧ (allocate_buffer_for_field p h ⟨MYSQL_TYPE_DOUBLE, length, flags⟩).1.size = 8
    ∧ (allocate_buffer_for_field p h ⟨MYSQL_TYPE_LONGLONG, length, flags⟩).1.size = 8
    ∧ (allocate_buffer_for_field p h ⟨MYSQL_TYPE_DECIMAL, length, flags⟩).1.size = 64
    ∧ (allocate_buffer_for_field p h ⟨MYSQL_TYPE_NEWDECIMAL, length, flags⟩).1.size = 64
    ∧ (allocate_buffer_for_field p h ⟨MYSQL_TYPE_BIT, length, flags⟩).1.size = 1
    ∧ (∀ t ∈ [MYSQL_TYPE_DATE, MYSQL_TYPE_TIME, MYSQL_TYPE_DATETIME, MYSQL_TYPE_TIMESTAMP],
        (allocate_buffer_for_field p h ⟨t, length, flags⟩).1.size = p.sizeof_MYSQL_TIME)
    ∧ (∀ t, t ∉ [MYSQL_TYPE_TINY, MYSQL_TYPE_SHORT, MYSQL_TYPE_YEAR, MYSQL_TYPE_INT24,
          MYSQL_TYPE_LONG, MYSQL_TYPE_FLOAT, MYSQL_TYPE_DOUBLE, MYSQL_TYPE_LONGLONG,
          MYSQL_TYPE_DECIMAL, MYSQL_TYPE_NEWDECIMAL, MYSQL_TYPE_BIT, MYSQL_TYPE_DATE,
          MYSQL_TYPE_TIME, MYSQL_TYPE_DATETIME, MYSQL_TYPE_TIMESTAMP, MYSQL_TYPE_TINY_BLOB,
          MYSQL_TYPE_MEDIUM_BLOB, MYSQL_TYPE_LONG_BLOB, MYSQL_TYPE_BLOB, MYSQL_TYPE_STRING,
          MYSQL_TYPE_VAR_STRING] →
        allocate_buffer_for_field p h ⟨t, length, flags⟩
          = ({ buffer := none, size := 0, type := t }, h))
    ∧ allocate_buffer_for_field p h ⟨MYSQL_TYPE_NULL, length, flags⟩
          = ({ buffer := none, size := 0, type := MYSQL_TYPE_NULL }, h)
    ∧ allocate_buffer_for_field p h ⟨MYSQL_TYPE_GEOMETRY, length, flags⟩
          = ({ buffer := none, size := 0, type := MYSQL_TYPE_GEOMETRY }, h)
    ∧ (∀ field, (allocate_buffer_for_field p h field).1.type = field.type) := by
  refine ⟨?_, ?_, ?_, ?_, ?_, ?_, ?_, ?_, ?_, ?_, ?_, ?_, ?_, rfl, rfl, ?_⟩
  any_goals (simp [allocate_buffer_for_field, buffer_size_for_field]; done)
  · intro t ht
    simp only [List.mem_cons, List.mem_singleton, List.not_mem_nil, or_false] at ht
    rcases ht with h | h | h | h <;> subst h <;>
      by_cases hs : p.sizeof_MYSQL_TIME > 0 <;>
      simp [allocate_buffer_for_field, buffer_size_for_field, hs]
  · intro t ht
    cases t <;> simp at ht <;> rfl
  · intro field
    dsimp only [allocate_buffer_for_field]
    split <;> rfl

/-- Claim C7. For a field of a variable-length text/blob type with declared length `L`:
when `1 ≤ L ≤ 1024` the capacity is `L + 1` and the buffer is the block obtained from
`my_malloc`; when `L = 0` or `L > 1024` there is no buffer and the capacity is 0; a
buffer is never supplied outside `1 ≤ L ≤ 1024`, and whenever the allocator grants the
request a buffer is supplied exactly when `1 ≤ L ≤ 1024`. -/
theorem allocate_variable_length (p : Platform) (h : Heap) (field : MYSQL_FIELD)
    (hty : field.type ∈ [MYSQL_TYPE_TINY_BLOB, MYSQL_TYPE_MEDIUM_BLOB, MYSQL_TYPE_LONG_BLOB,
      MYSQL_TYPE_BLOB, MYSQL_TYPE_STRING, MYSQL_TYPE_VAR_STRING]) :
    (1 ≤ field.length ∧ field.length ≤ 1024 →
        (allocate_buffer_for_field p h field).1.size = field.length + 1
        ∧ (allocate_buffer_for_field p h field).1.buffer = (my_malloc h).1)
    ∧ (field.length = 0 ∨ 1024 < field.length →
        (allocate_buffer_for_field p h field).1.buffer = none
        ∧ (allocate_buffer_for_field p h field).1.size = 0)
    ∧ ((allocate_buffer_for_field p h field).1.buffer ≠ none →
        1 ≤ field.length ∧ field.length ≤ 1024)
    ∧ (h.refusals.head? ≠ some true →
        ((allocate_buffer_for_field p h field).1.buffer ≠ none ↔
          1 ≤ field.length ∧ field.length ≤ 1024)) := by
  have hsize : buffer_size_for_field p field =
      if field.length > 0 ∧ field.length < 1025 then field.length + 1 else 0 := by
    simp only [List.mem_cons, List.mem_singleton, List.not_mem_nil, or_false] at hty
    rcases hty with h | h | h | h | h | h <;> simp [buffer_size_for_field, h]
  by_cases hL : field.length > 0 ∧ field.length < 1025
  · have hs : buffer_size_for_field p field = field.length + 1 := by rw [hsize, if_pos hL]
    have hr : allocate_buffer_for_field p h field =
        ({ buffer := (my_malloc h).1, size := field.length + 1, type := field.type },
          (my_malloc h).2) := by
      simp [allocate_buffer_for_field, hs]
    rw [hr]
    refine ⟨fun _ => ⟨rfl, rfl⟩, fun h0 => by omega, fun _ => by omega, fun hg => ?_⟩
    simp [my_malloc_granted h hg]
    omega
  · have hs : buffer_size_for_field p field = 0 := by rw [hsize, if_neg hL]
    have hr : allocate_buffer_for_field p h field =
        ({ buffer := none, size := 0, type := field.type }, h) := by
      simp [allocate_buffer_for_field, hs]
    rw [hr]
    refine ⟨fun h1 => by omega, fun _ => ⟨rfl, rfl⟩, fun hne => absurd rfl hne, fun _ => ?_⟩
    simp
    omega

theorem allocate_variable_length_witness :
    (allocate_buffer_for_field host ⟨100, []⟩ ⟨MYSQL_TYPE_VAR_STRING, 1024, 0⟩).1.size = 1025
    ∧ (allocate_buffer_for_field host ⟨100, []⟩ ⟨MYSQL_TYPE_VAR_STRING, 1024, 0⟩).1.buffer
        = some 100
    ∧ (allocate_buffer_for_field host ⟨100, []⟩ ⟨MYSQL_TYPE_VAR_STRING, 1025, 0⟩).1.buffer
        = none :=
  ⟨((allocate_variable_length host ⟨100, []⟩ ⟨MYSQL_TYPE_VAR_STRING, 1024, 0⟩
      (by decide)).1 (by decide)).1,
   ((allocate_variable_length host ⟨100, []⟩ ⟨MYSQL_TYPE_VAR_STRING, 1024, 0⟩
      (by decide)).1 (by decide)).2,
   ((allocate_variable_length host ⟨100, []⟩ ⟨MYSQL_TYPE_VAR_STRING, 1025, 0⟩
      (by decide)).2.1 (Or.inr (by decide))).1⟩

/-! ## Deferred fetch -/

theorem tables_ready_iff (n : Nat) (stmt : STMT) :
    tables_ready n stmt ↔
      ∃ binds arr lens, stmt.result_bind = some binds ∧ stmt.array = some arr
        ∧ stmt.lengths = some lens ∧ binds.length = n ∧ arr.length = n ∧ lens.length = n
        ∧ ∀ b ∈ binds, b.length ≠ none := by
  unfold tables_ready
  constructor
  · intro h
    split at h
    · next binds arr lens hb ha hl =>
      exact ⟨binds, arr, lens, hb, ha, hl, h.1, h.2.1, h.2.2.1, h.2.2.2⟩
    · exact absurd h id
  · rintro ⟨binds, arr, lens, hb, ha, hl, h1, h2, h3, h4⟩
    rw [hb, ha, hl]
    exact ⟨h1, h2, h3, h4⟩

theorem write_cells_buffer (b : MYSQL_BIND) (c : RowCells) :
    (write_cells b c).buffer = b.buffer ∧ (write_cells b c).buffer_length = b.buffer_length
    ∧ ((write_cells b c).length ≠ none ↔ b.length ≠ none) := by
  refine ⟨rfl, rfl, ?_⟩
  cases h : b.length <;> simp [write_cells, h]

theorem fetch_column_call_length (fetch : FetchColumn) (l : List MYSQL_BIND) (i : Nat) :
    (fetch_column_call fetch l i).length = l.length := by
  cases l <;> rfl

theorem fetch_column_call_getElem? (fetch : FetchColumn) (l : List MYSQL_BIND) (i m : Nat) :
    (fetch_column_call fetch l i)[m]? =
      (l[m]?).map (fun b => if m = 0 then write_cells b (fetch b i) else b) := by
  cases l with
  | nil => simp [fetch_column_call]
  | cons b0 rest =>
    cases m with
    | zero => simp [fetch_column_call]
    | succ m => simp [fetch_column_call]

/-- The entries of the binding table after the buffer of column `j` has been set and
the column re-fetch has written the cells of the first entry. -/
theorem refetched_table_getElem? (fetch : FetchColumn) (binds : List MYSQL_BIND) (j m : Nat)
    (nb : MYSQL_BIND) (hj : j < binds.length) :
    (fetch_column_call fetch (binds.set j nb) j)[m]? =
      ((if j = m then some nb else binds[m]?)).map
        (fun b => if m = 0 then write_cells b (fetch b j) else b) := by
  rw [fetch_column_call_getElem?, List.getElem?_set]
  simp only [hj, if_true]

theorem fetch_varlength_column_grow (fetch : FetchColumn) (j : Nat) (stmt : STMT) (h : Heap)
    (binds : List MYSQL_BIND) (arr : List (Option Ptr)) (lens : List Nat)
    (b : MYSQL_BIND) (ai : Option Ptr) (li len : Nat)
    (hb : stmt.result_bind = some binds) (ha : stmt.array = some arr)
    (hl : stmt.lengths = some lens)
    (hget : binds[j]? = some b) (hgl : lens[j]? = some li) (hga : arr[j]? = some ai)
    (hbuf : b.buffer = none) (hlen : b.length = some len) :
    fetch_varlength_column fetch j stmt h = some
        ({ stmt with
            result_bind := some (fetch_column_call fetch (binds.set j { b with
              buffer := if li < len then (my_realloc h ai).1 else ai,
              buffer_length := if li < len then len else li }) j),
            array := some (if li < len then arr.set j (my_realloc h ai).1 else arr),
            lengths := some (if li < len then lens.set j len else lens) },
          if li < len then (my_realloc h ai).2 else h) := by
  unfold fetch_varlength_column
  simp only [hb, hget, hbuf, hl, ha, hlen, hgl, hga, if_true]

theorem fetch_varlength_column_skip (fetch : FetchColumn) (j : Nat) (stmt : STMT) (h : Heap)
    (binds : List MYSQL_BIND) (b : MYSQL_BIND)
    (hb : stmt.result_bind = some binds) (hget : binds[j]? = some b)
    (hbuf : b.buffer ≠ none) :
    fetch_varlength_column fetch j stmt h = some (stmt, h) := by
  unfold fetch_varlength_column
  simp only [hb, hget, hbuf, if_false]


/-- One iteration of the deferred fetch on a well-formed statement: it returns, keeps
the statement well-formed, changes buffer and capacity of column `j` only, changes the
cells of the first column only, and gives an empty-buffered column `j` a capacity that
covers its reported length. -/
theorem fetch_varlength_column_spec (fetch : FetchColumn) (n j : Nat) (stmt : STMT) (h : Heap)
    (hready : tables_ready n stmt) (hj : j < n) :
    ∃ stmt1 h1, fetch_varlength_column fetch j stmt h = some (stmt1, h1)
      ∧ tables_ready n stmt1 ∧ stmt1.fields = stmt.fields
      ∧ ∀ m b, col_rbind stmt m = some b → ∃ b1, col_rbind stmt1 m = some b1
          ∧ (m ≠ j → b1.buffer = b.buffer ∧ b1.buffer_length = b.buffer_length)
          ∧ (m ≠ j → m ≠ 0 → b1 = b)
          ∧ (m = j → b.buffer = none → ∀ len, b.length = some len → len ≤ b1.buffer_length) := by
  obtain ⟨binds, arr, lens, hb, ha, hl, hnb, hna, hnl, hcells⟩ :=
    (tables_ready_iff n stmt).mp hready
  have hjb : j < binds.length := by omega
  obtain ⟨b, hget⟩ : ∃ b, binds[j]? = some b := ⟨binds[j], List.getElem?_eq_getElem hjb⟩
  obtain ⟨li, hgl⟩ : ∃ li, lens[j]? = some li :=
    ⟨lens[j], List.getElem?_eq_getElem (by omega)⟩
  obtain ⟨ai, hga⟩ : ∃ ai, arr[j]? = some ai := ⟨arr[j], List.getElem?_eq_getElem (by omega)⟩
  have hbmem : b ∈ binds := List.getElem?_mem hget
  by_cases hbuf : b.buffer = none
  · obtain ⟨len, hlen⟩ := Option.ne_none_iff_exists'.mp (hcells b hbmem)
    refine ⟨_, _, fetch_varlength_column_grow fetch j stmt h binds arr lens b ai li len
      hb ha hl hget hgl hga hbuf hlen, ?_, rfl, ?_⟩
    · refine (tables_ready_iff n _).mpr ⟨_, _, _, rfl, rfl, rfl, ?_, ?_, ?_, ?_⟩
      · rw [fetch_column_call_length, List.length_set, hnb]
      · split <;> simp [hna]
      · split <;> simp [hnl]
      · intro b1 hb1
        obtain ⟨m, hm⟩ := List.mem_iff_getElem?.mp hb1
        rw [refetched_table_getElem? fetch binds j m _ hjb] at hm
        by_cases hjm : j = m
        · rw [if_pos hjm] at hm
          simp only [Option.map_some', Option.some.injEq] at hm
          subst hm
          split
          · exact (write_cells_buffer _ _).2.2.mpr (by simp [hlen])
          · simp [hlen]
        · rw [if_neg hjm] at hm
          obtain ⟨b0, hb0, hb01⟩ := Option.map_eq_some'.mp hm
          subst hb01
          have hv := hcells b0 (List.getElem?_mem hb0)
          split
          · exact (write_cells_buffer _ _).2.2.mpr hv
          · exact hv
    · intro m bm hmb
      simp only [col_rbind, hb] at hmb
      simp only [col_rbind]
      rw [refetched_table_getElem? fetch binds j m _ hjb]
      by_cases hjm : j = m
      · subst hjm
        rw [hget] at hmb
        cases hmb
        rw [if_pos rfl]
        refine ⟨_, rfl, fun hne => absurd rfl hne, fun hne => absurd rfl hne, ?_⟩
        intro _ _ len1 hlen1
        rw [hlen] at hlen1
        cases hlen1
        have hcap : len ≤ (if li < len then len else li) := by split <;> omega
        split
        · exact hcap
        · exact hcap
      · rw [if_neg hjm, hmb]
        refine ⟨_, rfl, ?_, ?_, fun he => absurd he.symm hjm⟩
        · intro _
          split
          · exact ⟨rfl, rfl⟩
          · exact ⟨rfl, rfl⟩
        · intro _ hm0
          simp only [Option.map_some', if_neg hm0]
  · refine ⟨stmt, h, fetch_varlength_column_skip fetch j stmt h binds b hb hget hbuf,
      hready, rfl, ?_⟩
    intro m bm hmb
    refine ⟨bm, hmb, fun _ => ⟨rfl, rfl⟩, fun _ _ => rfl, ?_⟩
    intro hmj hnone
    subst hmj
    simp only [col_rbind, hb, hget, Option.some.injEq] at hmb
    rw [hmb] at hbuf
    exact absurd hnone hbuf

theorem col_rbind_lt (n : Nat) (stmt : STMT) (hready : tables_ready n stmt) (i : Nat)
    (b : MYSQL_BIND) (hcol : col_rbind stmt i = some b) : i < n := by
  obtain ⟨binds, arr, lens, hb, -, -, hnb, -⟩ := (tables_ready_iff n stmt).mp hready
  simp only [col_rbind, hb] at hcol
  have := (List.getElem?_eq_some_iff.mp hcol).1
  omega

/-- The loop of the deferred fetch on a well-formed statement returns, and a column
whose buffer is empty when its turn comes ends with a capacity covering its length. -/
theorem fetch_varlength_loop_covers (fetch : FetchColumn) (n i len : Nat) :
    ∀ (k i0 : Nat) (stmt : STMT) (h : Heap), tables_ready n stmt → i0 + k = n →
      ((i0 ≤ i ∧ ∃ b, col_rbind stmt i = some b ∧ b.buffer = none ∧ b.length = some len)
        ∨ (i < i0 ∧ ∃ b, col_rbind stmt i = some b ∧ len ≤ b.buffer_length)) →
      ∃ stmt1 h1, fetch_varlength_loop fetch k i0 stmt h = some (stmt1, h1)
        ∧ ∃ b1, col_rbind stmt1 i = some b1 ∧ len ≤ b1.buffer_length := by
  intro k
  induction k with
  | zero =>
    intro i0 stmt h hready hk hcase
    refine ⟨stmt, h, rfl, ?_⟩
    rcases hcase with ⟨hle, b, hcol, -, -⟩ | ⟨-, b, hcol, hcap⟩
    · have := col_rbind_lt n stmt hready i b hcol
      omega
    · exact ⟨b, hcol, hcap⟩
  | succ k ih =>
    intro i0 stmt h hready hk hcase
    obtain ⟨stmt1, h1, hstep, hready1, -, hcols⟩ :=
      fetch_varlength_column_spec fetch n i0 stmt h hready (by omega)
    have hnext : (i0 + 1 ≤ i ∧ ∃ b, col_rbind stmt1 i = some b ∧ b.buffer = none
          ∧ b.length = some len)
        ∨ (i < i0 + 1 ∧ ∃ b, col_rbind stmt1 i = some b ∧ len ≤ b.buffer_length) := by
      rcases hcase with ⟨hle, b, hcol, hbuf, hlen⟩ | ⟨hlt, b, hcol, hcap⟩
      · obtain ⟨b1, hcol1, -, hsame, hcover⟩ := hcols i b hcol
        rcases Nat.eq_or_lt_of_le hle with heq | hlt
        · exact Or.inr ⟨by omega, b1, hcol1, hcover heq.symm hbuf len hlen⟩
        · have hb1 : b1 = b := hsame (by omega) (by omega)
          subst hb1
          exact Or.inl ⟨by omega, b1, hcol1, hbuf, hlen⟩
      · obtain ⟨b1, hcol1, hkeep, -, -⟩ := hcols i b hcol
        have := (hkeep (by omega)).2
        exact Or.inr ⟨by omega, b1, hcol1, by omega⟩
    obtain ⟨stmt2, h2, hloop, hres⟩ := ih (i0 + 1) stmt1 h1 hready1 (by omega) hnext
    refine ⟨stmt2, h2, ?_, hres⟩
    simp only [fetch_varlength_loop, hstep]
    exact hloop

/-! ## Truncation query -/

/-- Claim C9, as amended. When the statement has no deferred column (`fix_fields` is
not set), `ssps_0buffers_truncated_only` returns FALSE, whatever the error flags. -/
theorem truncated_only_false_without_deferred (stmt : STMT) (h : stmt.fix_fields = false) :
    ssps_0buffers_truncated_only stmt = some false := by
  simp [ssps_0buffers_truncated_only, h]

theorem truncated_only_false_without_deferred_witness :
    ssps_0buffers_truncated_only (one_column MYSQL_TYPE_LONG 4 4 false false) = some false :=
  truncated_only_false_without_deferred (one_column MYSQL_TYPE_LONG 4 4 false false) rfl

/-- Claim C9, counterexample. A statement with one bound LONG column and no deferred
column: `fix_fields` is unset and the result is not TRUE. -/
theorem truncated_only_not_true_without_deferred :
    (one_column MYSQL_TYPE_LONG 4 4 false false).fix_fields = false
    ∧ ssps_0buffers_truncated_only (one_column MYSQL_TYPE_LONG 4 4 false false) ≠ some true := by
  decide

/-- The scan of `ssps_0buffers_truncated_only` over a table with valid error cells
returns, and returns FALSE exactly when a column from the start index on has its error
flag set, a positive capacity and a buffer. -/
theorem truncated_only_loop_spec (bs : List MYSQL_BIND)
    (hcells : ∀ b ∈ bs, b.error ≠ none) :
    ∀ (k i : Nat), i + k = bs.length →
      ∃ r, truncated_only_loop (some bs) k i = some r ∧
        (r = false ↔ ∃ (j : Nat) (b : MYSQL_BIND), i ≤ j ∧ bs[j]? = some b
            ∧ b.error = some true ∧ 0 < b.buffer_length ∧ b.buffer ≠ none) := by
  intro k
  induction k with
  | zero =>
    intro i hi
    refine ⟨true, rfl, ?_⟩
    constructor
    · intro h; cases h
    · rintro ⟨j, b, hij, hj, -⟩
      have := List.getElem?_eq_some_iff.mp hj
      obtain ⟨hlt, -⟩ := this
      omega
  | succ k ih =>
    intro i hi
    have hlt : i < bs.length := by omega
    have hget : bs[i]? = some bs[i] := List.getElem?_eq_getElem hlt
    have hmem : bs[i] ∈ bs := List.getElem_mem hlt
    obtain ⟨e, he⟩ := Option.ne_none_iff_exists'.mp (hcells _ hmem)
    by_cases hc : e = true ∧ bs[i].buffer_length > 0 ∧ bs[i].buffer ≠ none
    · refine ⟨false, ?_, ?_⟩
      · simp [truncated_only_loop, hget, he, hc]
      · simp only [true_iff]
        exact ⟨i, bs[i], le_refl _, hget, by rw [he, hc.1], hc.2.1, hc.2.2⟩
    · obtain ⟨r, hr, hiff⟩ := ih (i + 1) (by omega)
      refine ⟨r, ?_, ?_⟩
      · simp only [truncated_only_loop, hget, he]
        rw [if_neg hc]
        exact hr
      · rw [hiff]
        constructor
        · rintro ⟨j, b, hij, hrest⟩
          exact ⟨j, b, by omega, hrest⟩
        · rintro ⟨j, b, hij, hj, hje, hjl, hjb⟩
          rcases Nat.eq_or_lt_of_le hij with heq | hlt2
          · subst heq
            rw [hget] at hj
            cases hj
            rw [he] at hje
            cases hje
            exact absurd ⟨rfl, hjl, hjb⟩ hc
          · exact ⟨j, b, hlt2, hj, hje, hjl, hjb⟩

/-- Claim C10. When the statement has deferred columns (`fix_fields` is set) and its
binding table has one entry per column with valid error cells,
`ssps_0buffers_truncated_only` returns, and it returns FALSE if and only if some column
has its error flag set, a capacity greater than zero and a non-empty buffer; so error
flags on columns whose buffer is empty or whose capacity is 0 leave the result TRUE. -/
theorem truncated_only_false_iff (stmt : STMT) (binds : List MYSQL_BIND)
    (hfix : stmt.fix_fields = true) (hb : stmt.result_bind = some binds)
    (hn : binds.length = field_count stmt) (hcells : ∀ b ∈ binds, b.error ≠ none) :
    ∃ r, ssps_0buffers_truncated_only stmt = some r
      ∧ (r = false ↔ ∃ (i : Nat) (b : MYSQL_BIND), binds[i]? = some b ∧ b.error = some true
          ∧ 0 < b.buffer_length ∧ b.buffer ≠ none)
      ∧ ((∀ b ∈ binds, b.error = some true → b.buffer = none ∨ b.buffer_length = 0) →
          r = true) := by
  obtain ⟨r, hr, hiff⟩ := truncated_only_loop_spec binds hcells (field_count stmt) 0 (by omega)
  have hiff2 : r = false ↔ ∃ (i : Nat) (b : MYSQL_BIND), binds[i]? = some b
      ∧ b.error = some true ∧ 0 < b.buffer_length ∧ b.buffer ≠ none := by
    rw [hiff]
    constructor
    · rintro ⟨j, b, -, hrest⟩
      exact ⟨j, b, hrest⟩
    · rintro ⟨j, b, hrest⟩
      exact ⟨j, b, Nat.zero_le _, hrest⟩
  refine ⟨r, ?_, hiff2, ?_⟩
  · simp [ssps_0buffers_truncated_only, hfix, hb, hr]
  · intro hall
    cases hrv : r with
    | true => rfl
    | false =>
      obtain ⟨i, b, hi, he, hl, hbuf⟩ := hiff2.mp hrv
      have hmem : b ∈ binds := List.getElem?_mem hi
      rcases hall b hmem he with h1 | h1
      · exact absurd h1 hbuf
      · omega

theorem truncated_only_false_iff_witness :
    ∃ r, ssps_0buffers_truncated_only (blob_row 5) = some r
      ∧ (r = false ↔ ∃ (i : Nat) (b : MYSQL_BIND), [deferred_bind 5][i]? = some b
          ∧ b.error = some true ∧ 0 < b.buffer_length ∧ b.buffer ≠ none)
      ∧ ((∀ b ∈ [deferred_bind 5], b.error = some true →
            b.buffer = none ∨ b.buffer_length = 0) → r = true) :=
  truncated_only_false_iff (blob_row 5) [deferred_bind 5] rfl rfl rfl (by decide)

/-! ## Decimal text -/

theorem digitChar_eq_digit_char (d : Nat) (hd : d < 10) : Nat.digitChar d = digit_char d := by
  interval_cases d <;> rfl

theorem digit_char_isDigit (d : Nat) (hd : d < 10) : (digit_char d).isDigit = true := by
  interval_cases d <;> rfl

theorem digit_char_toNat (d : Nat) (hd : d < 10) : (digit_char d).toNat = 48 + d := by
  interval_cases d <;> rfl

theorem toDigitsCore_append (fuel : Nat) :
    ∀ (n : Nat) (ds : List Char),
      Nat.toDigitsCore 10 fuel n ds = Nat.toDigitsCore 10 fuel n [] ++ ds := by
  induction fuel with
  | zero => intro n ds; simp [Nat.toDigitsCore]
  | succ fuel ih =>
    intro n ds
    simp only [Nat.toDigitsCore]
    split
    · simp
    · rw [ih (n / 10) (Nat.digitChar (n % 10) :: ds), ih (n / 10) [Nat.digitChar (n % 10)]]
      simp

theorem toDigitsCore_fuel (f1 : Nat) :
    ∀ (f2 n : Nat), n < f1 → n < f2 →
      Nat.toDigitsCore 10 f1 n [] = Nat.toDigitsCore 10 f2 n [] := by
  induction f1 with
  | zero => intro f2 n h1; omega
  | succ f1 ih =>
    intro f2 n h1 h2
    cases f2 with
    | zero => omega
    | succ f2 =>
      simp only [Nat.toDigitsCore]
      split
      · rfl
      · next hne =>
        have hlt : n / 10 < n := Nat.div_lt_self (by omega) (by decide)
        rw [toDigitsCore_append f1, toDigitsCore_append f2,
          ih f2 (n / 10) (by omega) (by omega)]

/-- The digits of `n`: one digit below 10, otherwise the digits of `n / 10` followed
by the last digit. -/
theorem fmt_u_step (n : Nat) :
    fmt_u n = if n < 10 then [digit_char n]
      else fmt_u (n / 10) ++ [digit_char (n % 10)] := by
  unfold fmt_u Nat.toDigits
  simp only [Nat.toDigitsCore]
  have hd : Nat.digitChar (n % 10) = digit_char (n % 10) :=
    digitChar_eq_digit_char _ (Nat.mod_lt _ (by decide))
  by_cases h : n < 10
  · have h0 : n / 10 = 0 := by omega
    have hm : n % 10 = n := Nat.mod_eq_of_lt h
    rw [hm] at hd
    simp [h0, h, hd, hm]
  · have h0 : n / 10 ≠ 0 := by omega
    rw [if_neg h0, if_neg h, toDigitsCore_append, hd]
    congr 1
    exact toDigitsCore_fuel n (n / 10 + 1) (n / 10) (by omega) (by omega)

theorem fmt_u_digits (n : Nat) : ∀ c ∈ fmt_u n, c.isDigit = true := by
  induction n using Nat.strong_induction_on with
  | _ n ih =>
    rw [fmt_u_step]
    split
    · next h =>
      intro c hc
      simp only [List.mem_singleton] at hc
      subst hc
      exact digit_char_isDigit n h
    · next h =>
      intro c hc
      rcases List.mem_append.mp hc with hc | hc
      · exact ih (n / 10) (by omega) c hc
      · simp only [List.mem_singleton] at hc
        subst hc
        exact digit_char_isDigit _ (Nat.mod_lt _ (by decide))

theorem fmt_u_length_pos (n : Nat) : 0 < (fmt_u n).length := by
  rw [fmt_u_step]
  split <;> simp

theorem fmt_u_length_le (w : Nat) : ∀ n, n < 10 ^ (w + 1) → (fmt_u n).length ≤ w + 1 := by
  induction w with
  | zero =>
    intro n hn
    rw [fmt_u_step, if_pos (by simpa using hn)]
    simp
  | succ w ih =>
    intro n hn
    rw [fmt_u_step]
    split
    · simp
    · have := ih (n / 10) (by rw [pow_succ] at hn; omega)
      simp only [List.length_append, List.length_singleton]
      omega

theorem zero_padded_length (w : Nat) : ∀ n, (zero_padded w n).length = w := by
  induction w with
  | zero => intro n; rfl
  | succ w ih => intro n; simp [zero_padded, ih]

theorem zero_padded_zero (w : Nat) : zero_padded w 0 = List.replicate w '0' := by
  induction w with
  | zero => rfl
  | succ w ih =>
    simp only [zero_padded, Nat.zero_div, Nat.zero_mod, ih]
    rw [List.replicate_succ']
    rfl

theorem fmt_0u_length_ge (w n : Nat) : w ≤ (fmt_0u w n).length := by
  unfold fmt_0u
  simp only [List.length_append, List.length_replicate]
  omega

theorem fmt_0u_digits (w n : Nat) : ∀ c ∈ fmt_0u w n, c.isDigit = true := by
  intro c hc
  unfold fmt_0u at hc
  rcases List.mem_append.mp hc with hc | hc
  · rw [List.eq_of_mem_replicate hc]
    rfl
  · exact fmt_u_digits n c hc

/-- A number with at most `w + 1` digits, zero-padded to width `w + 1` by the format
`%0u`, is written with exactly its `w + 1` low-order digits. -/
theorem fmt_0u_eq_zero_padded (w : Nat) :
    ∀ n, n < 10 ^ (w + 1) → fmt_0u (w + 1) n = zero_padded (w + 1) n := by
  induction w with
  | zero =>
    intro n hn
    have h10 : n < 10 := by simpa using hn
    have hm : n % 10 = n := Nat.mod_eq_of_lt h10
    simp [fmt_0u, fmt_u_step n, h10, zero_padded, hm]
  | succ w ih =>
    intro n hn
    have hdiv : n / 10 < 10 ^ (w + 1) := by rw [pow_succ] at hn; omega
    by_cases h10 : n < 10
    · have hm : n % 10 = n := Nat.mod_eq_of_lt h10
      have h0 : n / 10 = 0 := by omega
      simp only [fmt_0u, fmt_u_step n, if_pos h10, List.length_singleton, zero_padded, h0,
        hm, Nat.zero_div, Nat.zero_mod]
      rw [show w + 1 + 1 - 1 = w + 1 from rfl, ← zero_padded_zero (w + 1)]
      simp [zero_padded]
    · have hlen := fmt_u_length_le w (n / 10) hdiv
      have hrec := ih (n / 10) hdiv
      unfold fmt_0u at hrec ⊢
      rw [fmt_u_step n, if_neg h10]
      simp only [List.length_append, List.length_singleton]
      rw [show w + 1 + 1 - ((fmt_u (n / 10)).length + 1) = w + 1 - (fmt_u (n / 10)).length by
        omega, ← List.append_assoc, hrec]
      rfl

/-! ## Temporal text -/

/-- The fractional suffix is a dot followed by six decimal digits. -/
theorem fraction_text_eq (second_part : Nat) :
    fraction_text second_part = '.' :: (fmt_0u 6 second_part).take 6
    ∧ ((fmt_0u 6 second_part).take 6).length = 6
    ∧ ∀ c ∈ (fmt_0u 6 second_part).take 6, c.isDigit = true := by
  refine ⟨rfl, ?_, ?_⟩
  · rw [List.length_take]
    have := fmt_0u_length_ge 6 second_part
    omega
  · intro c hc
    exact fmt_0u_digits 6 second_part c (List.mem_of_mem_take hc)

theorem datetime_formatted_length (t : MYSQL_TIME) : 19 ≤ (datetime_formatted t).length := by
  have h1 := fmt_0u_length_ge 4 t.year
  have h2 := fmt_0u_length_ge 2 t.month
  have h3 := fmt_0u_length_ge 2 t.day
  have h4 := fmt_0u_length_ge 2 t.hour
  have h5 := fmt_0u_length_ge 2 t.minute
  have h6 := fmt_0u_length_ge 2 t.second
  simp only [datetime_formatted, List.length_append, List.length_cons]
  omega

theorem get_string_datetime_eq (t : MYSQL_TIME) :
    get_string_datetime t =
      if t.second_part > 0 then
        { value := some ((datetime_formatted t).take 19 ++ fraction_text t.second_part),
          length := 26 }
      else { value := some ((datetime_formatted t).take 19), length := 19 } := by
  have hlen : ((datetime_formatted t).take 19).length = 19 := by
    rw [List.length_take]
    have := datetime_formatted_length t
    omega
  unfold get_string_datetime
  simp only [snprintf, write_at]
  by_cases hsp : t.second_part > 0
  · rw [if_pos hsp, if_pos hsp]
    have hle : 19 ≤ (List.take (20 - 1) (datetime_formatted t)).length := by
      rw [show 20 - 1 = 19 from rfl, hlen]
    have hle' : 19 ≤ (List.take (20 - 1) (fmt_0u 4 t.year ++ '-' :: fmt_0u 2 t.month
        ++ '-' :: fmt_0u 2 t.day ++ ' ' :: fmt_0u 2 t.hour ++ ':' :: fmt_0u 2 t.minute
        ++ ':' :: fmt_0u 2 t.second)).length := hle
    rw [if_pos hle']
    congr 2
    show List.take 19 (List.take 19 (datetime_formatted t)) ++ _ = _
    rw [List.take_take]
    simp
  · rw [if_neg hsp, if_neg hsp]
    rfl

theorem datetime_formatted_eq_render (t : MYSQL_TIME) (hy : t.year ≤ 9999)
    (hmo : t.month ≤ 99) (hd : t.day ≤ 99) (hh : t.hour ≤ 99) (hmi : t.minute ≤ 99)
    (hs : t.second ≤ 99) :
    (datetime_formatted t).take 19 =
      zero_padded 4 t.year ++ '-' :: zero_padded 2 t.month ++ '-' :: zero_padded 2 t.day
        ++ ' ' :: zero_padded 2 t.hour ++ ':' :: zero_padded 2 t.minute
        ++ ':' :: zero_padded 2 t.second := by
  unfold datetime_formatted
  rw [fmt_0u_eq_zero_padded 3 t.year (by norm_num; omega),
    fmt_0u_eq_zero_padded 1 t.month (by norm_num; omega),
    fmt_0u_eq_zero_padded 1 t.day (by norm_num; omega),
    fmt_0u_eq_zero_padded 1 t.hour (by norm_num; omega),
    fmt_0u_eq_zero_padded 1 t.minute (by norm_num; omega),
    fmt_0u_eq_zero_padded 1 t.second (by norm_num; omega)]
  apply List.take_of_length_le
  simp [zero_padded_length]

/-- Claim C11. For a non-null TIMESTAMP or DATETIME column with a buffer and a
destination, whatever the fields of the record: `ssps_get_string` returns a text of
19 characters and reports length 19 when `second_part` is zero, and a text of 26
characters with reported length 26 otherwise, whose characters from position 19 on
are a dot and six decimal digits; and when the year is at most 9999, the other fields
at most 99 and the fraction below 1000000, the text is the zero-padded rendering
`YYYY-MM-DD HH:MM:SS[.ffffff]` of the fields. -/
theorem get_string_datetime_text (p : Platform) (mem : Memory) (stmt : STMT)
    (column_number length : Nat) (buffer : Dest) (col : MYSQL_BIND) (a : Ptr)
    (hcol : col_rbind stmt column_number = some col)
    (hty : col.buffer_type = MYSQL_TYPE_TIMESTAMP ∨ col.buffer_type = MYSQL_TYPE_DATETIME)
    (hnull : col.is_null = some false) (hbuf : col.buffer = some a)
    (hdest : buffer ≠ Dest.refused) :
    ∃ text, ssps_get_string p mem stmt column_number length buffer
        = some { value := some text,
                 length := if (mem a).time.second_part = 0 then 19 else 26 }
      ∧ text.length = (if (mem a).time.second_part = 0 then 19 else 26)
      ∧ ((mem a).time.second_part ≠ 0 →
          ∃ ds : List Char, ds.length = 6 ∧ (∀ c ∈ ds, c.isDigit = true)
            ∧ text.drop 19 = '.' :: ds)
      ∧ ((mem a).time.year ≤ 9999 → (mem a).time.month ≤ 99 → (mem a).time.day ≤ 99 →
          (mem a).time.hour ≤ 99 → (mem a).time.minute ≤ 99 → (mem a).time.second ≤ 99 →
          (mem a).time.second_part < 1000000 → text = render_datetime (mem a).time) := by
  have hcall : ssps_get_string p mem stmt column_number length buffer
      = some (get_string_datetime (mem a).time) := by
    have hd : ALLOC_IFNULL buffer = true := by cases buffer <;> simp_all [ALLOC_IFNULL]
    rcases hty with h | h <;>
      simp [ssps_get_string, hcol, hnull, h, hd, deref_time, hbuf]
  have hlen : ((datetime_formatted (mem a).time).take 19).length = 19 := by
    rw [List.length_take]
    have := datetime_formatted_length (mem a).time
    omega
  obtain ⟨hfrac, hfl, hfd⟩ := fraction_text_eq (mem a).time.second_part
  rw [hcall, get_string_datetime_eq]
  by_cases hsp : (mem a).time.second_part = 0
  · have hn : ¬ (mem a).time.second_part > 0 := by omega
    rw [if_neg hn, if_pos hsp]
    refine ⟨_, rfl, hlen, fun h => absurd hsp h, ?_⟩
    intro hy hmo hd hh hmi hs _
    rw [datetime_formatted_eq_render _ hy hmo hd hh hmi hs]
    simp [render_datetime, hsp]
  · have hn : (mem a).time.second_part > 0 := by omega
    rw [if_pos hn, if_neg hsp]
    refine ⟨_, rfl, ?_, fun _ => ⟨_, hfl, hfd, ?_⟩, ?_⟩
    · rw [List.length_append, hlen, hfrac, List.length_cons, hfl]
    · rw [List.drop_append_eq_append_drop, hlen, List.drop_of_length_le (by omega), hfrac]
      simp
    · intro hy hmo hd hh hmi hs hf
      rw [datetime_formatted_eq_render _ hy hmo hd hh hmi hs, hfrac,
        fmt_0u_eq_zero_padded 5 _ (by norm_num; omega),
        List.take_of_length_le (by simp [zero_padded_length])]
      simp [render_datetime, hsp]

theorem get_string_datetime_text_witness :
    ∃ text, ssps_get_string host (memory_of_time ⟨2024, 2, 29, 13, 5, 9, 250000, false⟩)
        (one_column MYSQL_TYPE_DATETIME 40 0 false false) 0 0 Dest.caller
        = some { value := some text, length := 26 }
      ∧ text.length = 26
      ∧ text = render_datetime ⟨2024, 2, 29, 13, 5, 9, 250000, false⟩ := by
  obtain ⟨text, h1, h2, -, h4⟩ := get_string_datetime_text host
    (memory_of_time ⟨2024, 2, 29, 13, 5, 9, 250000, false⟩)
    (one_column MYSQL_TYPE_DATETIME 40 0 false false) 0 0 Dest.caller
    (sample_bind MYSQL_TYPE_DATETIME 40 0 false false) 1 rfl (Or.inr rfl) rfl rfl (by decide)
  exact ⟨text, h1, h2, h4 (by decide) (by decide) (by decide) (by decide) (by decide)
    (by decide) (by decide)⟩

/-- Claim C12. The code at a TIME value of 838 hours: for the non-negative value
838:59:59 without fraction `ssps_get_string` writes the nine characters `838:59:59`
and reports length 8; with the fraction 7 the suffix is written over the last digit,
giving `838:59:5.000007` with reported length 15; for the negative value the text is
cut to `-838:59:5`. -/
theorem get_string_time_three_digit_hour (p : Platform) (length : Nat) :
    ssps_get_string p (memory_of_time ⟨0, 0, 0, 838, 59, 59, 0, false⟩)
        (one_column MYSQL_TYPE_TIME 40 0 false false) 0 length Dest.caller
      = some { value := some ['8', '3', '8', ':', '5', '9', ':', '5', '9'], length := 8 }
    ∧ ssps_get_string p (memory_of_time ⟨0, 0, 0, 838, 59, 59, 7, false⟩)
        (one_column MYSQL_TYPE_TIME 40 0 false false) 0 length Dest.caller
      = some { value := some ['8', '3', '8', ':', '5', '9', ':', '5',
                              '.', '0', '0', '0', '0', '0', '7'], length := 15 }
    ∧ ssps_get_string p (memory_of_time ⟨0, 0, 0, 838, 59, 59, 0, true⟩)
        (one_column MYSQL_TYPE_TIME 40 0 false false) 0 length Dest.caller
      = some { value := some ['-', '8', '3', '8', ':', '5', '9', ':', '5'], length := 9 } :=
  ⟨rfl, rfl, rfl⟩

theorem time_formatted_chars (t : MYSQL_TIME) :
    ∀ c ∈ time_formatted t, c = '-' ∨ c = ':' ∨ c.isDigit = true := by
  intro c hc
  unfold time_formatted at hc
  simp only [List.mem_append, List.mem_cons] at hc
  rcases hc with ((hc | hc) | hc | hc) | hc | hc
  · split at hc
    · simp only [List.mem_singleton] at hc
      exact Or.inl hc
    · simp at hc
  · exact Or.inr (Or.inr (fmt_0u_digits _ _ c hc))
  · exact Or.inr (Or.inl hc)
  · exact Or.inr (Or.inr (fmt_0u_digits _ _ c hc))
  · exact Or.inr (Or.inl hc)
  · exact Or.inr (Or.inr (fmt_0u_digits _ _ c hc))

theorem get_string_time_eq (t : MYSQL_TIME) :
    get_string_time t =
      if t.second_part > 0 then
        { value := some (write_at ((time_formatted t).take 9) (if t.neg then 9 else 8)
            (fraction_text t.second_part)),
          length := (if t.neg then 9 else 8) + 7 }
      else { value := some ((time_formatted t).take 9), length := if t.neg then 9 else 8 } :=
  rfl

/-- Claim C13. For a non-null TIME column with a buffer and a destination,
`ssps_get_string` returns a text; when the negative flag is set the text begins with
`-`; and when `second_part` is zero the text contains no dot and the reported length
is the plain 8 (or 9 for a negative value). -/
theorem get_string_time_sign_and_fraction (p : Platform) (mem : Memory) (stmt : STMT)
    (column_number length : Nat) (buffer : Dest) (col : MYSQL_BIND) (a : Ptr)
    (hcol : col_rbind stmt column_number = some col)
    (hty : col.buffer_type = MYSQL_TYPE_TIME)
    (hnull : col.is_null = some false) (hbuf : col.buffer = some a)
    (hdest : buffer ≠ Dest.refused) :
    ∃ text len, ssps_get_string p mem stmt column_number length buffer
        = some { value := some text, length := len }
      ∧ ((mem a).time.neg = true → text.head? = some '-')
      ∧ ((mem a).time.second_part = 0 →
          '.' ∉ text ∧ len = if (mem a).time.neg then 9 else 8) := by
  have hcall : ssps_get_string p mem stmt column_number length buffer
      = some (get_string_time (mem a).time) := by
    have hd : ALLOC_IFNULL buffer = true := by cases buffer <;> simp_all [ALLOC_IFNULL]
    simp [ssps_get_string, hcol, hnull, hty, hd, deref_time, hbuf]
  rw [hcall, get_string_time_eq]
  have hhead : (mem a).time.neg = true →
      ∃ rest, (time_formatted (mem a).time).take 9 = '-' :: rest := by
    intro hneg
    refine ⟨(fmt_0u 2 (mem a).time.hour ++ ':' :: fmt_0u 2 (mem a).time.minute
      ++ ':' :: fmt_0u 2 (mem a).time.second).take 8, ?_⟩
    simp [time_formatted, hneg]
  by_cases hsp : (mem a).time.second_part = 0
  · have hn : ¬ (mem a).time.second_part > 0 := by omega
    rw [if_neg hn]
    refine ⟨_, _, rfl, ?_, fun _ => ⟨?_, rfl⟩⟩
    · intro hneg
      obtain ⟨rest, hrest⟩ := hhead hneg
      rw [hrest]
      rfl
    · intro hmem
      rcases time_formatted_chars _ _ (List.mem_of_mem_take hmem) with h | h | h
      · exact absurd h (by decide)
      · exact absurd h (by decide)
      · exact absurd h (by decide)
  · have hn : (mem a).time.second_part > 0 := by omega
    rw [if_pos hn]
    refine ⟨_, _, rfl, ?_, fun h => absurd h hsp⟩
    intro hneg
    obtain ⟨rest, hrest⟩ := hhead hneg
    rw [hrest]
    simp only [write_at, hneg, if_true]
    split <;> rfl

theorem get_string_time_sign_and_fraction_witness :
    ∃ text len, ssps_get_string host (memory_of_time ⟨0, 0, 0, 12, 30, 45, 0, true⟩)
        (one_column MYSQL_TYPE_TIME 40 0 false false) 0 0 Dest.caller
        = some { value := some text, length := len }
      ∧ text.head? = some '-' ∧ '.' ∉ text ∧ len = 9 := by
  obtain ⟨text, len, h1, h2, h3⟩ := get_string_time_sign_and_fraction host
    (memory_of_time ⟨0, 0, 0, 12, 30, 45, 0, true⟩)
    (one_column MYSQL_TYPE_TIME 40 0 false false) 0 0 Dest.caller
    (sample_bind MYSQL_TYPE_TIME 40 0 false false) 1 rfl rfl rfl rfl (by decide)
  exact ⟨text, len, h1, h2 rfl, (h3 rfl).1, (h3 rfl).2⟩

/-! ## Integer text -/

theorem isDigit_toNat (c : Char) (h : c.isDigit = true) : 48 ≤ c.toNat ∧ c.toNat ≤ 57 := by
  simp only [Char.isDigit, Bool.and_eq_true, decide_eq_true_eq] at h
  have h1 : (48 : UInt32).toNat ≤ c.val.toNat := UInt32.le_def.mp h.1
  have h2 : c.val.toNat ≤ (57 : UInt32).toNat := UInt32.le_def.mp h.2
  exact ⟨h1, h2⟩

theorem isDigit_not_space (c : Char) (h : c.isDigit = true) :
    isspace c = false ∧ c ≠ '-' ∧ c ≠ '+' := by
  obtain ⟨h1, h2⟩ := isDigit_toNat c h
  refine ⟨?_, ?_, ?_⟩
  · simp only [isspace, Bool.or_eq_false_iff, decide_eq_false_iff_not, Bool.and_eq_false_iff]
    omega
  · rintro rfl
    exact absurd h (by decide)
  · rintro rfl
    exact absurd h (by decide)

theorem digits_value_append (xs : List Char) (c : Char) :
    digits_value (xs ++ [c]) = 10 * digits_value xs + (c.toNat - 48) := by
  simp [digits_value, List.foldl_append]

/-- Reading the decimal text of `n` gives `n` again. -/
theorem digits_value_fmt_u (n : Nat) : digits_value (fmt_u n) = n := by
  induction n using Nat.strong_induction_on with
  | _ n ih =>
    rw [fmt_u_step]
    split
    · next h =>
      simp only [digits_value, List.foldl_cons, List.foldl_nil, digit_char_toNat n h]
      omega
    · next h =>
      rw [digits_value_append, ih (n / 10) (by omega),
        digit_char_toNat _ (Nat.mod_lt _ (by decide))]
      omega

theorem takeWhile_isDigit_fmt_u (n : Nat) : (fmt_u n).takeWhile Char.isDigit = fmt_u n :=
  List.takeWhile_eq_self_iff.mpr (fmt_u_digits n)

theorem fmt_u_head (n : Nat) : ∃ c rest, fmt_u n = c :: rest ∧ c.isDigit = true := by
  cases h : fmt_u n with
  | nil =>
    have := fmt_u_length_pos n
    rw [h] at this
    exact absurd this (by simp)
  | cons c rest =>
    exact ⟨c, rest, rfl, fmt_u_digits n c (by rw [h]; exact List.mem_cons_self _ _)⟩

theorem strtoll_fmt_u (n : Nat) (hn : n < 2 ^ 63) : strtoll (fmt_u n) = (n : Int) := by
  obtain ⟨c, rest, hcr, hc⟩ := fmt_u_head n
  obtain ⟨hsp, hminus, hplus⟩ := isDigit_not_space c hc
  have hdrop : (fmt_u n).dropWhile isspace = fmt_u n := by
    rw [hcr, List.dropWhile_cons_of_neg (by simp [hsp])]
  have hhead : (fmt_u n).head? = some c := by rw [hcr]; rfl
  unfold strtoll
  simp only [hdrop, hhead, Option.some.injEq, hminus, hplus, or_self, if_false,
    takeWhile_isDigit_fmt_u, digits_value_fmt_u, decide_False]
  norm_num
  omega

theorem strtoll_fmt_lld (v : Int) (hlo : -(2 ^ 63) ≤ v) (hhi : v < 2 ^ 63) :
    strtoll (fmt_lld v) = v := by
  unfold fmt_lld
  by_cases hneg : v < 0
  · rw [if_pos hneg]
    have hn : ((v.natAbs : Nat) : Int) = -v := by omega
    generalize v.natAbs = n at hn
    unfold strtoll
    have hsp : isspace '-' = false := by decide
    simp only [List.dropWhile_cons_of_neg (by simp [hsp] : ¬ isspace '-' = true),
      List.head?_cons, true_or, if_true, List.tail_cons, takeWhile_isDigit_fmt_u,
      digits_value_fmt_u, decide_True]
    norm_num
    omega
  · rw [if_neg hneg]
    have h := strtoll_fmt_u v.natAbs (by omega)
    rw [h]
    omega

theorem to_signed_range (bits : Nat) (hb : 0 < bits) (u : Nat) :
    -((2 : Int) ^ (bits - 1)) ≤ to_signed bits u ∧ to_signed bits u < (2 : Int) ^ (bits - 1) := by
  have hpow : (2 : Nat) ^ bits = 2 * 2 ^ (bits - 1) := by
    cases bits with
    | zero => omega
    | succ b => simp [pow_succ, Nat.mul_comm]
  have hmod : u % 2 ^ bits < 2 ^ bits := Nat.mod_lt _ (by positivity)
  unfold to_signed
  split
  · next hlt =>
    constructor
    · have : (0 : Int) ≤ ((u % 2 ^ bits : Nat) : Int) := Int.natCast_nonneg _
      have h2 : (0 : Int) ≤ (2 : Int) ^ (bits - 1) := by positivity
      omega
    · exact_mod_cast hlt
  · next hge =>
    have hge' : 2 ^ (bits - 1) ≤ u % 2 ^ bits := Nat.le_of_not_lt hge
    have e1 : ((2 ^ bits : Nat) : Int) = 2 * (2 : Int) ^ (bits - 1) := by
      rw [hpow]; push_cast; ring
    have e2 : ((u % 2 ^ bits : Nat) : Int) < 2 * (2 : Int) ^ (bits - 1) := by
      rw [← e1]; exact_mod_cast hmod
    have e3 : (2 : Int) ^ (bits - 1) ≤ ((u % 2 ^ bits : Nat) : Int) := by exact_mod_cast hge'
    constructor <;> omega

theorem load_lt (w : Nat) (bytes : List Nat) (u : Nat) (h : load w bytes = some u) :
    u < 256 ^ w := by
  unfold load at h
  split at h
  · cases h
  · next hlen =>
    cases h
    have := le_value_lt (bytes.take w)
    rw [List.length_take, Nat.min_eq_left (by omega)] at this
    exact this

theorem deref_lt (mem : Memory) (buffer : Option Ptr) (w u : Nat)
    (h : deref mem buffer w = some u) : u < 256 ^ w := by
  unfold deref at h
  split at h
  · cases h
  · exact load_lt w _ u h

theorem to_signed_64_range (u : Nat) :
    -(2 ^ 63 : Int) ≤ to_signed 64 u ∧ to_signed 64 u < 2 ^ 63 :=
  to_signed_range 64 (by decide) u

/-- Every value the integer and bit-field branches of `ssps_get_int64` produce is a
`long long` value. -/
theorem get_int64_direct_range (p : Platform) (mem : Memory) (col : MYSQL_BIND) (v : Int)
    (h : get_int64_direct p mem col = some v) : -(2 ^ 63 : Int) ≤ v ∧ v < 2 ^ 63 := by
  have hchar : ∀ r, read_char p mem col.buffer = some r → -(2 ^ 63 : Int) ≤ r ∧ r < 2 ^ 63 := by
    intro r hr
    unfold read_char at hr
    obtain ⟨u, hu, rfl⟩ := Option.map_eq_some'.mp hr
    have hlt := deref_lt mem col.buffer 1 u hu
    split
    · have := to_signed_range 8 (by decide) u
      norm_num at this ⊢
      omega
    · norm_num at hlt ⊢
      omega
  have hnat : ∀ (w : Nat) r, w ≤ 4 →
      (deref mem col.buffer w).map (fun u => (u : Int)) = some r →
      -(2 ^ 63 : Int) ≤ r ∧ r < 2 ^ 63 := by
    intro w r hw hr
    cases hd : deref mem col.buffer w with
    | none => rw [hd] at hr; simp at hr
    | some u =>
      rw [hd] at hr
      simp at hr
      subst hr
      have hlt := deref_lt mem col.buffer w u hd
      have hle : 256 ^ w ≤ 256 ^ 4 := Nat.pow_le_pow_right (by decide) hw
      norm_num at hle ⊢
      omega
  have h32 : ∀ r, (deref mem col.buffer 4).map (to_signed 32) = some r →
      -(2 ^ 63 : Int) ≤ r ∧ r < 2 ^ 63 := by
    intro r hr
    obtain ⟨u, -, rfl⟩ := Option.map_eq_some'.mp hr
    have := to_signed_range 32 (by decide) u
    norm_num at this ⊢
    omega
  have h64 : ∀ r, (deref mem col.buffer 8).map (to_signed 64) = some r →
      -(2 ^ 63 : Int) ≤ r ∧ r < 2 ^ 63 := by
    intro r hr
    obtain ⟨u, -, rfl⟩ := Option.map_eq_some'.mp hr
    exact to_signed_64_range u
  have hzero : ∀ r : Int, some (0 : Int) = some r → -(2 ^ 63 : Int) ≤ r ∧ r < 2 ^ 63 := by
    intro r hr
    cases hr
    norm_num
  unfold get_int64_direct at h
  split at h
  · unfold get_int64_bit binary2numeric at h
    split at h
    · cases h
    · split at h
      · cases h
      · cases h
        exact to_signed_64_range _
  · unfold get_int64_integer at h
    split at h
    · cases h
    · split at h <;> (try dsimp only at h) <;> (try split at h) <;> (try split at h) <;>
        first
        | exact hchar v h
        | exact hnat 2 v (by decide) h
        | exact hnat 4 v (by decide) h
        | exact h32 v h
        | exact h64 v h
        | exact hzero v h

theorem get_int64_eq_direct (p : Platform) (mem : Memory) (stmt : STMT)
    (column_number length : Nat) (col : MYSQL_BIND)
    (hcol : col_rbind stmt column_number = some col)
    (hty : col.buffer_type ∈ [MYSQL_TYPE_TINY, MYSQL_TYPE_SHORT, MYSQL_TYPE_YEAR,
      MYSQL_TYPE_INT24, MYSQL_TYPE_LONG, MYSQL_TYPE_LONGLONG, MYSQL_TYPE_BIT]) :
    ssps_get_int64 p mem stmt column_number length = get_int64_direct p mem col := by
  simp only [List.mem_cons, List.mem_singleton, List.not_mem_nil, or_false] at hty
  rcases hty with h | h | h | h | h | h | h <;>
    simp [ssps_get_int64, hcol, h, get_int64_direct]

theorem to_unsigned64_cases (v : Int) (hlo : -(2 ^ 63 : Int) ≤ v) (hhi : v < 2 ^ 63) :
    to_unsigned64 v < 2 ^ 64
    ∧ (0 ≤ v → (to_unsigned64 v : Int) = v)
    ∧ (v < 0 → (to_unsigned64 v : Int) = v + 2 ^ 64) := by
  unfold to_unsigned64
  norm_num
  omega

theorem fmt_lld_length (v : Int) (hlo : -(2 ^ 63 : Int) ≤ v) (hhi : v < 2 ^ 63) :
    (fmt_lld v).length ≤ 20 := by
  have hn : v.natAbs < 10 ^ (18 + 1) := by norm_num; omega
  have := fmt_u_length_le 18 v.natAbs hn
  unfold fmt_lld
  split
  · simp only [List.length_cons]
    omega
  · omega

/-- Claim C14, as amended. For a non-null column of the integer family or of type BIT
for which `ssps_get_int64` returns `v`: `ssps_get_string` returns the decimal text of
`v`, signed when the unsigned flag is clear and of `v` modulo 2^64 when it is set; the
text has at most 20 characters, so the 29-byte bound cuts nothing, and the reported
length is the length of the text. Parsing the text with `strtoll` gives `v` again when
the unsigned flag is clear or `v` is not negative; for an unsigned column with negative
`v` the text reads `v + 2^64`. -/
theorem get_string_integer_text (p : Platform) (mem : Memory) (stmt : STMT)
    (column_number length : Nat) (buffer : Dest) (col : MYSQL_BIND) (v : Int)
    (hcol : col_rbind stmt column_number = some col)
    (hty : col.buffer_type ∈ [MYSQL_TYPE_TINY, MYSQL_TYPE_SHORT, MYSQL_TYPE_YEAR,
      MYSQL_TYPE_INT24, MYSQL_TYPE_LONG, MYSQL_TYPE_LONGLONG, MYSQL_TYPE_BIT])
    (hnull : col.is_null = some false) (hdest : buffer ≠ Dest.refused)
    (hv : ssps_get_int64 p mem stmt column_number length = some v) :
    ∃ text, ssps_get_string p mem stmt column_number length buffer
        = some { value := some text, length := text.length }
      ∧ text = (if col.is_unsigned then fmt_u (to_unsigned64 v) else fmt_lld v)
      ∧ text.length ≤ 20
      ∧ (col.is_unsigned = false ∨ 0 ≤ v → strtoll text = v)
      ∧ (col.is_unsigned = true → v < 0 → (digits_value text : Int) = v + 2 ^ 64) := by
  rw [get_int64_eq_direct p mem stmt column_number length col hcol hty] at hv
  obtain ⟨hlo, hhi⟩ := get_int64_direct_range p mem col v hv
  obtain ⟨hu64, hupos, huneg⟩ := to_unsigned64_cases v hlo hhi
  have hulen : (fmt_u (to_unsigned64 v)).length ≤ 20 :=
    fmt_u_length_le 19 _ (by norm_num; omega)
  have hslen := fmt_lld_length v hlo hhi
  have hd : ALLOC_IFNULL buffer = true := by cases buffer <;> simp_all [ALLOC_IFNULL]
  have hcall : ssps_get_string p mem stmt column_number length buffer
      = some { value := some (if col.is_unsigned then snprintf 29 (fmt_u (to_unsigned64 v))
                              else snprintf 29 (fmt_lld v)),
               length := (if col.is_unsigned then snprintf 29 (fmt_u (to_unsigned64 v))
                              else snprintf 29 (fmt_lld v)).length } := by
    simp only [List.mem_cons, List.mem_singleton, List.not_mem_nil, or_false] at hty
    rcases hty with h | h | h | h | h | h | h <;>
      simp [ssps_get_string, hcol, hnull, h, hd, hv]
  have hcut : (if col.is_unsigned then snprintf 29 (fmt_u (to_unsigned64 v))
        else snprintf 29 (fmt_lld v))
      = (if col.is_unsigned then fmt_u (to_unsigned64 v) else fmt_lld v) := by
    unfold snprintf
    split
    · exact List.take_of_length_le (by omega)
    · exact List.take_of_length_le (by omega)
  rw [hcall, hcut]
  refine ⟨_, rfl, rfl, ?_, ?_, ?_⟩
  · split <;> assumption
  · intro hcase
    cases hu : col.is_unsigned with
    | false =>
      simp only [Bool.false_eq_true, if_false]
      exact strtoll_fmt_lld v hlo hhi
    | true =>
      have h0 : 0 ≤ v := by
        rcases hcase with h | h
        · rw [hu] at h; cases h
        · exact h
      simp only [if_true]
      rw [strtoll_fmt_u _ (by have := hupos h0; omega)]
      exact hupos h0
  · intro hu hneg
    simp only [hu, if_true]
    rw [digits_value_fmt_u]
    exact huneg hneg

theorem get_string_integer_text_witness :
    ∃ text, ssps_get_string host (memory_of [254, 255, 255, 255, 255, 255, 255, 255])
        (one_column MYSQL_TYPE_LONGLONG 8 8 false false) 0 0 Dest.caller
        = some { value := some text, length := text.length }
      ∧ text.length ≤ 20 ∧ strtoll text = -2 := by
  have hv : ssps_get_int64 host (memory_of [254, 255, 255, 255, 255, 255, 255, 255])
      (one_column MYSQL_TYPE_LONGLONG 8 8 false false) 0 0 = some (-2) := rfl
  obtain ⟨text, h1, -, h3, h4, -⟩ := get_string_integer_text host
    (memory_of [254, 255, 255, 255, 255, 255, 255, 255])
    (one_column MYSQL_TYPE_LONGLONG 8 8 false false) 0 0
    Dest.caller (sample_bind MYSQL_TYPE_LONGLONG 8 8 false false) (-2)
    rfl (by decide) rfl (by decide) hv
  exact ⟨text, h1, h3, h4 (Or.inl rfl)⟩

/-- Claim C14, counterexample. A non-null unsigned LONGLONG column whose eight bytes
are all FF: `ssps_get_int64` returns -1, the text is `18446744073709551615`, and
parsing that text as a base-10 integer gives 18446744073709551615, or
9223372036854775807 through `strtoll`; neither is -1. -/
theorem get_string_unsigned_text_not_parsed_back :
    ssps_get_int64 host (memory_of [255, 255, 255, 255, 255, 255, 255, 255])
        (one_column MYSQL_TYPE_LONGLONG 8 8 false true) 0 0 = some (-1)
    ∧ ssps_get_string host (memory_of [255, 255, 255, 255, 255, 255, 255, 255])
        (one_column MYSQL_TYPE_LONGLONG 8 8 false true) 0 0 Dest.caller
      = some { value := some ['1', '8', '4', '4', '6', '7', '4', '4', '0', '7', '3', '7',
                              '0', '9', '5', '5', '1', '6', '1', '5'], length := 20 }
    ∧ digits_value ['1', '8', '4', '4', '6', '7', '4', '4', '0', '7', '3', '7',
                    '0', '9', '5', '5', '1', '6', '1', '5'] = 18446744073709551615
    ∧ strtoll ['1', '8', '4', '4', '6', '7', '4', '4', '0', '7', '3', '7',
               '0', '9', '5', '5', '1', '6', '1', '5'] = 9223372036854775807 := by
  refine ⟨rfl, rfl, rfl, rfl⟩

/-! ## Text columns and columns without a conversion -/

/-- Claim C15. The code at the blob types the accessor does not list: for a non-null
TINY_BLOB, MEDIUM_BLOB or LONG_BLOB column whose buffer holds the bytes of `abc`,
`ssps_get_string` returns the NULL pointer, while for a BLOB or VAR_STRING column
with the same buffer it returns the buffer's bytes. -/
theorem get_string_blob_variants_no_value (p : Platform) (length : Nat) (buffer : Dest) :
    ssps_get_string p (memory_of [97, 98, 99, 0])
        (one_column MYSQL_TYPE_TINY_BLOB 11 3 false false) 0 length buffer
      = some { value := none, length := length }
    ∧ ssps_get_string p (memory_of [97, 98, 99, 0])
        (one_column MYSQL_TYPE_MEDIUM_BLOB 11 3 false false) 0 length buffer
      = some { value := none, length := length }
    ∧ ssps_get_string p (memory_of [97, 98, 99, 0])
        (one_column MYSQL_TYPE_LONG_BLOB 11 3 false false) 0 length buffer
      = some { value := none, length := length }
    ∧ ssps_get_string p (memory_of [97, 98, 99, 0])
        (one_column MYSQL_TYPE_BLOB 11 3 false false) 0 length buffer
      = some { value := some ['a', 'b', 'c', Char.ofNat 0], length := length }
    ∧ ssps_get_string p (memory_of [97, 98, 99, 0])
        (one_column MYSQL_TYPE_VAR_STRING 11 3 false false) 0 length buffer
      = some { value := some ['a', 'b', 'c', Char.ofNat 0], length := length } :=
  ⟨rfl, rfl, rfl, rfl, rfl⟩

/-- Claim C16. For a non-null column whose type has no case in any of the three
accessors (NULL, NEWDATE, ENUM, SET, TINY_BLOB, MEDIUM_BLOB, LONG_BLOB, GEOMETRY),
whatever the memory, the column's buffer pointer and the destination:
`ssps_get_string` returns the NULL pointer and leaves `*length`, `ssps_get_double`
returns the literal zero and `ssps_get_int64` returns 0. -/
theorem no_conversion_defaults (p : Platform) (mem : Memory) (stmt : STMT)
    (column_number length : Nat) (buffer : Dest) (col : MYSQL_BIND)
    (hcol : col_rbind stmt column_number = some col)
    (hty : col.buffer_type ∈ [MYSQL_TYPE_NULL, MYSQL_TYPE_NEWDATE, MYSQL_TYPE_ENUM,
      MYSQL_TYPE_SET, MYSQL_TYPE_TINY_BLOB, MYSQL_TYPE_MEDIUM_BLOB, MYSQL_TYPE_LONG_BLOB,
      MYSQL_TYPE_GEOMETRY])
    (hnull : col.is_null = some false) :
    ssps_get_string p mem stmt column_number length buffer
        = some { value := none, length := length }
    ∧ ssps_get_double p mem stmt column_number length = some LongDouble.zero
    ∧ ssps_get_int64 p mem stmt column_number length = some 0 := by
  simp only [List.mem_cons, List.mem_singleton, List.not_mem_nil, or_false] at hty
  rcases hty with h | h | h | h | h | h | h | h <;>
    simp [ssps_get_string, ssps_get_double, ssps_get_int64, hcol, hnull, h]

theorem no_conversion_defaults_witness :
    ssps_get_string host (memory_of [1, 2, 3])
        (one_column MYSQL_TYPE_GEOMETRY 0 3 false false) 0 7 Dest.refused
        = some { value := none, length := 7 }
    ∧ ssps_get_double host (memory_of [1, 2, 3])
        (one_column MYSQL_TYPE_GEOMETRY 0 3 false false) 0 7 = some LongDouble.zero
    ∧ ssps_get_int64 host (memory_of [1, 2, 3])
        (one_column MYSQL_TYPE_GEOMETRY 0 3 false false) 0 7 = some 0 :=
  no_conversion_defaults host (memory_of [1, 2, 3])
    (one_column MYSQL_TYPE_GEOMETRY 0 3 false false) 0 7 Dest.refused
    (sample_bind MYSQL_TYPE_GEOMETRY 0 3 false false) rfl (by decide) rfl

/-! ## Effect of the deferred fetch on each column -/

/-- What one iteration of the deferred fetch did, read off the code. -/
theorem fetch_varlength_column_cases (fetch : FetchColumn) (j : Nat) (s s1 : STMT)
    (h h1 : Heap) (hstep : fetch_varlength_column fetch j s h = some (s1, h1)) :
    ∃ binds b, s.result_bind = some binds ∧ binds[j]? = some b
      ∧ ((b.buffer ≠ none ∧ s1 = s ∧ h1 = h)
        ∨ (b.buffer = none ∧ ∃ lens arr len li ai, s.lengths = some lens
            ∧ s.array = some arr ∧ b.length = some len ∧ lens[j]? = some li
            ∧ arr[j]? = some ai
            ∧ s1 = { s with
                result_bind := some (fetch_column_call fetch (binds.set j { b with
                  buffer := if li < len then (my_realloc h ai).1 else ai,
                  buffer_length := if li < len then len else li }) j),
                array := some (if li < len then arr.set j (my_realloc h ai).1 else arr),
                lengths := some (if li < len then lens.set j len else lens) }
            ∧ h1 = if li < len then (my_realloc h ai).2 else h)) := by
  rcases Option.eq_none_or_eq_some s.result_bind with hb | ⟨binds, hb⟩
  · simp [fetch_varlength_column, hb] at hstep
  rcases Option.eq_none_or_eq_some binds[j]? with hget | ⟨b, hget⟩
  · simp [fetch_varlength_column, hb, hget] at hstep
  refine ⟨binds, b, hb, hget, ?_⟩
  by_cases hbuf : b.buffer = none
  · right
    refine ⟨hbuf, ?_⟩
    rcases Option.eq_none_or_eq_some s.lengths with hl | ⟨lens, hl⟩
    · simp [fetch_varlength_column, hb, hget, hbuf, hl] at hstep
    rcases Option.eq_none_or_eq_some s.array with ha | ⟨arr, ha⟩
    · simp [fetch_varlength_column, hb, hget, hbuf, hl, ha] at hstep
    rcases Option.eq_none_or_eq_some b.length with hlen | ⟨len, hlen⟩
    · simp [fetch_varlength_column, hb, hget, hbuf, hl, ha, hlen] at hstep
    rcases Option.eq_none_or_eq_some lens[j]? with hgl | ⟨li, hgl⟩
    · simp [fetch_varlength_column, hb, hget, hbuf, hl, ha, hlen, hgl] at hstep
    rcases Option.eq_none_or_eq_some arr[j]? with hga | ⟨ai, hga⟩
    · simp [fetch_varlength_column, hb, hget, hbuf, hl, ha, hlen, hgl, hga] at hstep
    have hgrow := fetch_varlength_column_grow fetch j s h binds arr lens b ai
      li len hb ha hl hget hgl hga hbuf hlen
    rw [hgrow] at hstep
    simp only [Option.some.injEq, Prod.mk.injEq] at hstep
    exact ⟨lens, arr, len, li, ai, hl, ha, hlen, hgl, hga, hstep.1.symm, hstep.2.symm⟩
  · left
    have hskip := fetch_varlength_column_skip fetch j s h binds b hb hget hbuf
    rw [hskip] at hstep
    simp only [Option.some.injEq, Prod.mk.injEq] at hstep
    exact ⟨hbuf, hstep.1.symm, hstep.2.symm⟩

theorem bind_core_write_cells (b : MYSQL_BIND) (c : RowCells) :
    bind_core (write_cells b c) = bind_core b := rfl

theorem untouched_refl (x : ColumnView) : untouched x x := ⟨rfl, rfl, rfl⟩

theorem untouched_trans (x y z : ColumnView) (h1 : untouched x y) (h2 : untouched y z) :
    untouched x z :=
  ⟨h2.1.trans h1.1, h2.2.1.trans h1.2.1, h2.2.2.trans h1.2.2⟩

theorem getElem?_lt_length {α : Type} (l : List α) (j : Nat) (a : α) (h : l[j]? = some a) :
    j < l.length :=
  (List.getElem?_eq_some_iff.mp h).1

/-- One iteration of the deferred fetch, column by column: column `j` is refetched,
every other column is untouched, and apart from the first column not even the cells
of another column change; when the cached length of column `j` was enough, nothing is
allocated. -/
theorem fetch_varlength_column_view (fetch : FetchColumn) (j : Nat) (s s1 : STMT)
    (h h1 : Heap) (hstep : fetch_varlength_column fetch j s h = some (s1, h1)) :
    s1.fields = s.fields ∧ s1.fix_fields = s.fix_fields
    ∧ (∀ m, m ≠ j → untouched (column_view s m) (column_view s1 m)
        ∧ (m ≠ 0 → column_view s1 m = column_view s m))
    ∧ refetched (column_view s j) (column_view s1 j)
    ∧ ((∀ b len li, col_rbind s j = some b → b.buffer = none → b.length = some len →
          cached_at s j = some li → len ≤ li) →
        h1 = h ∧ s1.lengths = s.lengths ∧ s1.array = s.array) := by
  obtain ⟨binds, b, hb, hget, hcase⟩ := fetch_varlength_column_cases fetch j s s1 h h1 hstep
  have hcolj : col_rbind s j = some b := by simp [col_rbind, hb, hget]
  rcases hcase with ⟨hbuf, rfl, rfl⟩ | ⟨hbuf, lens, arr, len, li, ai, hl, ha, hlen, hgl, hga,
    hs1, hh1⟩
  · refine ⟨rfl, rfl, fun m _ => ⟨untouched_refl _, fun _ => rfl⟩, ?_, fun _ => ⟨rfl, rfl, rfl⟩⟩
    exact ⟨b, b, hcolj, hcolj, rfl, rfl, Or.inl ⟨hbuf, rfl, rfl, rfl, rfl⟩⟩
  · have hjb : j < binds.length := getElem?_lt_length binds j b hget
    have hjl : j < lens.length := getElem?_lt_length lens j li hgl
    have hja : j < arr.length := getElem?_lt_length arr j ai hga
    have hcached : ∀ m, cached_at s1 m
        = if j = m then some (max li len) else cached_at s m := by
      intro m
      rw [hs1]
      simp only [cached_at, hl]
      by_cases hjm : j = m
      · subst hjm
        rw [if_pos rfl]
        by_cases hlt : li < len
        · rw [if_pos hlt, List.getElem?_set, if_pos rfl, if_pos hjl, Nat.max_eq_right (by omega)]
        · rw [if_neg hlt, hgl, Nat.max_eq_left (by omega)]
      · rw [if_neg hjm]
        split
        · rw [List.getElem?_set, if_neg hjm]
        · rfl
    have hscratch : ∀ m, scratch_at s1 m
        = if j = m then some (if li < len then (my_realloc h ai).1 else ai)
          else scratch_at s m := by
      intro m
      rw [hs1]
      simp only [scratch_at, ha]
      by_cases hjm : j = m
      · subst hjm
        rw [if_pos rfl]
        by_cases hlt : li < len
        · rw [if_pos hlt, if_pos hlt, List.getElem?_set, if_pos rfl, if_pos hja]
        · rw [if_neg hlt, if_neg hlt, hga]
      · rw [if_neg hjm]
        split
        · rw [List.getElem?_set, if_neg hjm]
        · rfl
    obtain ⟨nb, hnb⟩ : ∃ nb : MYSQL_BIND, nb = { b with
        buffer := if li < len then (my_realloc h ai).1 else ai,
        buffer_length := if li < len then len else li } := ⟨_, rfl⟩
    have hnb_type : nb.buffer_type = b.buffer_type := by rw [hnb]
    have hnb_uns : nb.is_unsigned = b.is_unsigned := by rw [hnb]
    have hnb_buf : nb.buffer = if li < len then (my_realloc h ai).1 else ai := by rw [hnb]
    have hnb_cap : nb.buffer_length = max li len := by
      rw [hnb]
      show (if li < len then len else li) = max li len
      split <;> omega
    have hbind : ∀ m, col_rbind s1 m
        = (if j = m then some nb else col_rbind s m).map
          (fun x => if m = 0 then write_cells x (fetch x j) else x) := by
      intro m
      rw [hs1, hnb]
      simp only [col_rbind, hb]
      exact refetched_table_getElem? fetch binds j m _ hjb
    refine ⟨by rw [hs1], by rw [hs1], ?_, ?_, ?_⟩
    · intro m hmj
      have hjm : ¬ j = m := fun e => hmj e.symm
      refine ⟨⟨?_, ?_, ?_⟩, ?_⟩
      · simp only [column_view, hbind m, if_neg hjm, Option.map_map]
        congr 1
        funext x
        simp only [Function.comp]
        split <;> rfl
      · simp only [column_view, hcached m, if_neg hjm]
      · simp only [column_view, hscratch m, if_neg hjm]
      · intro hm0
        simp only [column_view, hbind m, hcached m, hscratch m, if_neg hjm, if_neg hm0]
        simp
    · have hb1 : (if j = 0 then write_cells nb (fetch nb j) else nb).buffer = nb.buffer
          ∧ (if j = 0 then write_cells nb (fetch nb j) else nb).buffer_length
              = nb.buffer_length
          ∧ (if j = 0 then write_cells nb (fetch nb j) else nb).buffer_type = nb.buffer_type
          ∧ (if j = 0 then write_cells nb (fetch nb j) else nb).is_unsigned
              = nb.is_unsigned := by
        split <;> exact ⟨rfl, rfl, rfl, rfl⟩
      refine ⟨b, if j = 0 then write_cells nb (fetch nb j) else nb, hcolj, ?_, ?_, ?_,
        Or.inr ⟨hbuf, len, li, ai, hlen, ?_, ?_, ?_, ?_, ?_, ?_⟩⟩
      · simp only [column_view, hbind j, ↓reduceIte, Option.map_some']
      · rw [hb1.2.2.1, hnb_type]
      · rw [hb1.2.2.2, hnb_uns]
      · simp [column_view, cached_at, hl, hgl]
      · simp [column_view, scratch_at, ha, hga]
      · simp only [column_view, hcached j, ↓reduceIte]
      · rw [hb1.2.1, hnb_cap]
      · simp only [column_view, hscratch j, ↓reduceIte]
        rw [hb1.1, hnb_buf]
      · intro hle
        have hn : ¬ li < len := by omega
        rw [hb1.1, hnb_buf, if_neg hn]
    · intro hall
      have hle : len ≤ li := hall b len li hcolj hbuf hlen (by simp [cached_at, hl, hgl])
      have hn : ¬ li < len := by omega
      rw [hh1, hs1]
      simp [hn, hl, ha]

theorem untouched_bind (x y : ColumnView) (b : MYSQL_BIND) (hu : untouched x y)
    (hx : x.bind = some b) :
    ∃ b1, y.bind = some b1 ∧ b1.buffer_type = b.buffer_type ∧ b1.buffer = b.buffer
      ∧ b1.buffer_length = b.buffer_length ∧ b1.is_unsigned = b.is_unsigned := by
  have h1 := hu.1
  rw [hx] at h1
  rcases Option.eq_none_or_eq_some y.bind with hy | ⟨b1, hy⟩
  · rw [hy] at h1
    simp at h1
  · rw [hy] at h1
    simp only [Option.map_some', Option.some.injEq, bind_core, Prod.mk.injEq] at h1
    exact ⟨b1, hy, h1.1, h1.2.1, h1.2.2.1, h1.2.2.2⟩

theorem refetched_then_untouched (x y z : ColumnView) (h1 : refetched x y)
    (h2 : untouched y z) : refetched x z := by
  obtain ⟨b, b1, hx, hy, hty, hun, hcase⟩ := h1
  obtain ⟨b2, hz, h2t, h2b, h2l, h2u⟩ := untouched_bind y z b1 h2 hy
  refine ⟨b, b2, hx, hz, h2t.trans hty, h2u.trans hun, ?_⟩
  rcases hcase with ⟨hb, hbuf, hcap, hc, hs⟩ | ⟨hb, len, li, ai, hlen, hc, hs, hc1, hcap, hs1, hkeep⟩
  · exact Or.inl ⟨hb, h2b.trans hbuf, h2l.trans hcap, h2.2.1.trans hc, h2.2.2.trans hs⟩
  · refine Or.inr ⟨hb, len, li, ai, hlen, hc, hs, h2.2.1.trans hc1, h2l.trans hcap, ?_, ?_⟩
    · rw [h2.2.2, hs1, h2b]
    · intro hle
      rw [h2b]
      exact hkeep hle

theorem untouched_then_refetched (x y z : ColumnView) (h1 : y = x) (h2 : refetched y z) :
    refetched x z := by
  subst h1
  exact h2

/-- The loop of the deferred fetch, column by column: the columns in the range of the
loop are refetched, the others untouched; when every column without a buffer in the
range has a sufficient cached length, nothing is allocated. -/
theorem fetch_varlength_loop_view (fetch : FetchColumn) :
    ∀ (k i0 : Nat) (s s1 : STMT) (h h1 : Heap),
      fetch_varlength_loop fetch k i0 s h = some (s1, h1) →
      s1.fields = s.fields ∧ s1.fix_fields = s.fix_fields
      ∧ (∀ m, m < i0 ∨ i0 + k ≤ m → untouched (column_view s m) (column_view s1 m))
      ∧ (∀ m, i0 ≤ m → m < i0 + k → refetched (column_view s m) (column_view s1 m))
      ∧ ((∀ m b len li, i0 ≤ m → m < i0 + k → col_rbind s m = some b → b.buffer = none →
            b.length = some len → cached_at s m = some li → len ≤ li) →
          h1 = h ∧ s1.lengths = s.lengths ∧ s1.array = s.array) := by
  intro k
  induction k with
  | zero =>
    intro i0 s s1 h h1 hloop
    simp only [fetch_varlength_loop, Option.some.injEq, Prod.mk.injEq] at hloop
    obtain ⟨rfl, rfl⟩ := hloop
    exact ⟨rfl, rfl, fun m _ => untouched_refl _, fun m h1 h2 => by omega,
      fun _ => ⟨rfl, rfl, rfl⟩⟩
  | succ k ih =>
    intro i0 s s2 h h2 hloop
    rcases Option.eq_none_or_eq_some (fetch_varlength_column fetch i0 s h) with hnone | ⟨r, hr⟩
    · simp [fetch_varlength_loop, hnone] at hloop
    obtain ⟨s1, h1⟩ := r
    have hrest : fetch_varlength_loop fetch k (i0 + 1) s1 h1 = some (s2, h2) := by
      simpa [fetch_varlength_loop, hr] using hloop
    obtain ⟨hf1, hx1, hother, hthis, hgrow1⟩ := fetch_varlength_column_view fetch i0 s s1 h h1 hr
    obtain ⟨hf2, hx2, hout, hin, hgrow2⟩ := ih (i0 + 1) s1 s2 h1 h2 hrest
    refine ⟨hf2.trans hf1, hx2.trans hx1, ?_, ?_, ?_⟩
    · intro m hm
      exact untouched_trans _ _ _ (hother m (by omega)).1 (hout m (by omega))
    · intro m hm1 hm2
      rcases Nat.eq_or_lt_of_le hm1 with heq | hlt
      · subst heq
        exact refetched_then_untouched _ _ _ hthis (hout i0 (by omega))
      · exact untouched_then_refetched _ _ _ ((hother m (by omega)).2 (by omega))
          (hin m (by omega) (by omega))
    · intro hall
      obtain ⟨e1, e2, e3⟩ := hgrow1 (fun b len li hc hb hl hca =>
        hall i0 b len li (le_refl _) (by omega) hc hb hl hca)
      have hall2 : ∀ m b len li, i0 + 1 ≤ m → m < i0 + 1 + k → col_rbind s1 m = some b →
          b.buffer = none → b.length = some len → cached_at s1 m = some li → len ≤ li := by
        intro m b len li hm1 hm2 hc hb hl hca
        have hview := (hother m (by omega)).2 (by omega)
        have hc' : col_rbind s m = some b := by
          have := congrArg ColumnView.bind hview
          simp only [column_view] at this
          rw [← this]; exact hc
        have hca' : cached_at s m = some li := by
          have := congrArg ColumnView.cached hview
          simp only [column_view] at this
          rw [← this]; exact hca
        exact hall m b len li (by omega) (by omega) hc' hb hl hca'
      obtain ⟨e4, e5, e6⟩ := hgrow2 hall2
      exact ⟨e4.trans e1, e5.trans e2, e6.trans e3⟩

/-- The deferred fetch, column by column: every column of the statement is refetched,
anything beyond the column count is untouched. -/
theorem fetch_varlength_columns_view (fetch : FetchColumn) (s s1 : STMT) (h h1 : Heap)
    (hcall : fetch_varlength_columns fetch s h = some (s1, h1)) :
    s1.fields = s.fields ∧ s1.fix_fields = s.fix_fields
    ∧ (∀ m, field_count s ≤ m → untouched (column_view s m) (column_view s1 m))
    ∧ (∀ m, m < field_count s → refetched (column_view s m) (column_view s1 m))
    ∧ ((∀ m b len li, col_rbind s m = some b → b.buffer = none →
          b.length = some len → cached_at s m = some li → len ≤ li) →
        h1 = h ∧ s1.lengths = s.lengths ∧ s1.array = s.array) := by
  rcases Option.eq_none_or_eq_some (fetch_varlength_loop fetch (field_count s) 0 s h)
    with hnone | ⟨r, hr⟩
  · simp [fetch_varlength_columns, hnone] at hcall
  obtain ⟨s2, h2⟩ := r
  have heq : s2 = s1 ∧ h2 = h1 := by
    simp only [fetch_varlength_columns, hr] at hcall
    split at hcall
    · simpa using hcall
    · cases hcall
  obtain ⟨rfl, rfl⟩ := heq
  obtain ⟨hf, hx, hout, hin, hgrow⟩ :=
    fetch_varlength_loop_view fetch (field_count s) 0 s s2 h h2 hr
  refine ⟨hf, hx, fun m hm => hout m (Or.inr (by omega)),
    fun m hm => hin m (Nat.zero_le _) (by omega), fun hall => hgrow ?_⟩
  intro m b len li _ _ hc hb hl hca
  exact hall m b len li hc hb hl hca

/-! ## Effect of a rebind and of a row fetch on each column -/

/-- The reset loop of a rebind, column by column: cached lengths and scratch array
are not written at all; the columns in the range of the loop are rebound, the others
are what they were. -/
theorem reset_loop_view :
    ∀ (k i0 : Nat) (s s1 : STMT), reset_loop k i0 s = some s1 →
      s1.fields = s.fields ∧ s1.fix_fields = s.fix_fields ∧ s1.lengths = s.lengths
      ∧ s1.array = s.array
      ∧ (∀ m, m < i0 ∨ i0 + k ≤ m → column_view s1 m = column_view s m)
      ∧ (∀ m, i0 ≤ m → m < i0 + k → rebound (column_view s m) (column_view s1 m)) := by
  intro k
  induction k with
  | zero =>
    intro i0 s s1 hloop
    simp only [reset_loop, Option.some.injEq] at hloop
    subst hloop
    exact ⟨rfl, rfl, rfl, rfl, fun _ _ => rfl, fun m h1 h2 => by omega⟩
  | succ k ih =>
    intro i0 s s2 hloop
    rcases Option.eq_none_or_eq_some s.lengths with hl | ⟨lens, hl⟩
    · simp [reset_loop, hl] at hloop
    rcases Option.eq_none_or_eq_some lens[i0]? with hgl | ⟨li, hgl⟩
    · simp [reset_loop, hl, hgl] at hloop
    have hcached : cached_at s i0 = some li := by simp [cached_at, hl, hgl]
    by_cases hpos : li > 0
    · rcases Option.eq_none_or_eq_some s.result_bind with hb | ⟨binds, hb⟩
      · simp [reset_loop, hl, hgl, hpos, hb] at hloop
      rcases Option.eq_none_or_eq_some binds[i0]? with hget | ⟨b, hget⟩
      · simp [reset_loop, hl, hgl, hpos, hb, hget] at hloop
      have hjb : i0 < binds.length := getElem?_lt_length binds i0 b hget
      have hrest : reset_loop k (i0 + 1) (reset_column s binds i0 b) = some s2 := by
        simpa [reset_loop, hl, hgl, hpos, hb, hget, reset_column] using hloop
      obtain ⟨hf, hx, hlen, harr, hout, hin⟩ := ih (i0 + 1) _ s2 hrest
      have hstep : ∀ m, column_view (reset_column s binds i0 b) m
          = if i0 = m then { column_view s m with
              bind := some { b with buffer := none, buffer_length := 0 } }
            else column_view s m := by
        intro m
        by_cases hm : i0 = m
        · subst hm
          simp only [column_view, col_rbind, cached_at, scratch_at, reset_column,
            List.getElem?_set, hjb, ↓reduceIte]
        · simp only [column_view, col_rbind, cached_at, scratch_at, reset_column,
            List.getElem?_set, hm, ↓reduceIte, hb]
      refine ⟨hf, hx, hlen, harr, ?_, ?_⟩
      · intro m hm
        rw [hout m (by omega), hstep m, if_neg (by omega)]
      · intro m hm1 hm2
        rcases Nat.eq_or_lt_of_le hm1 with heq | hlt
        · subst heq
          rw [hout i0 (by omega), hstep i0, if_pos rfl]
          refine ⟨rfl, rfl, li, hcached, ?_⟩
          rw [if_pos hpos]
          exact ⟨b, by simp [column_view, col_rbind, hb, hget], rfl⟩
        · have := hin m (by omega) (by omega)
          rw [hstep m, if_neg (by omega)] at this
          exact this
    · have hrest : reset_loop k (i0 + 1) s = some s2 := by
        simpa [reset_loop, hl, hgl, hpos] using hloop
      obtain ⟨hf, hx, hlen, harr, hout, hin⟩ := ih (i0 + 1) s s2 hrest
      refine ⟨hf, hx, hlen, harr, fun m hm => hout m (by omega), ?_⟩
      intro m hm1 hm2
      rcases Nat.eq_or_lt_of_le hm1 with heq | hlt
      · subst heq
        rw [hout i0 (by omega)]
        refine ⟨rfl, rfl, li, hcached, ?_⟩
        rw [if_neg hpos]
      · exact hin m (by omega) (by omega)

/-- The reset loop returns when every column in its range has a binding and a cached
length. -/
theorem reset_loop_returns :
    ∀ (k i0 : Nat) (s : STMT),
      (∀ m, i0 ≤ m → m < i0 + k → ∃ b li, col_rbind s m = some b ∧ cached_at s m = some li) →
      ∃ s1, reset_loop k i0 s = some s1 := by
  intro k
  induction k with
  | zero => intro i0 s _; exact ⟨s, rfl⟩
  | succ k ih =>
    intro i0 s hall
    obtain ⟨b, li, hcol, hcached⟩ := hall i0 (le_refl _) (by omega)
    rcases Option.eq_none_or_eq_some s.lengths with hl | ⟨lens, hl⟩
    · simp [cached_at, hl] at hcached
    rcases Option.eq_none_or_eq_some s.result_bind with hb | ⟨binds, hb⟩
    · simp [col_rbind, hb] at hcol
    have hgl : lens[i0]? = some li := by simpa [cached_at, hl] using hcached
    have hget : binds[i0]? = some b := by simpa [col_rbind, hb] using hcol
    by_cases hpos : li > 0
    · have hnext : ∀ m, i0 + 1 ≤ m → m < i0 + 1 + k → ∃ b1 li1,
          col_rbind (reset_column s binds i0 b) m = some b1
          ∧ cached_at (reset_column s binds i0 b) m = some li1 := by
        intro m hm1 hm2
        obtain ⟨b1, li1, hc1, hca1⟩ := hall m (by omega) (by omega)
        refine ⟨b1, li1, ?_, hca1⟩
        simp only [col_rbind, hb] at hc1
        simp only [col_rbind, reset_column, List.getElem?_set, if_neg (by omega : ¬ i0 = m)]
        exact hc1
      obtain ⟨s1, hs1⟩ := ih (i0 + 1) _ hnext
      exact ⟨s1, by simpa [reset_loop, hl, hgl, hpos, hb, hget, reset_column] using hs1⟩
    · obtain ⟨s1, hs1⟩ := ih (i0 + 1) s (fun m hm1 hm2 => hall m (by omega) (by omega))
      exact ⟨s1, by simpa [reset_loop, hl, hgl, hpos] using hs1⟩

/-- A rebind (`ssps_bind_result` on a statement that has a binding table), column by
column: it returns 0, allocates nothing, leaves cached lengths and scratch array
alone; with deferred columns every column is rebound, without them the statement is
not changed. -/
theorem ssps_bind_result_rebind_view (p : Platform) (s s1 : STMT) (h h1 : Heap) (r : Int)
    (hbound : s.result_bind ≠ none)
    (hcall : ssps_bind_result p s h = some (r, s1, h1)) :
    r = 0 ∧ h1 = h ∧ s1.fields = s.fields ∧ s1.fix_fields = s.fix_fields
    ∧ s1.lengths = s.lengths ∧ s1.array = s.array
    ∧ (s.fix_fields = false → s1 = s)
    ∧ (s.fix_fields = true →
        (∀ m, field_count s ≤ m → column_view s1 m = column_view s m)
        ∧ (∀ m, m < field_count s → rebound (column_view s m) (column_view s1 m))) := by
  obtain ⟨binds, hb⟩ := Option.ne_none_iff_exists'.mp hbound
  rcases Bool.eq_false_or_eq_true s.fix_fields with hfix | hfix
  · rcases Option.eq_none_or_eq_some (reset_loop (field_count s) 0 s) with hnone | ⟨s2, hs2⟩
    · simp [ssps_bind_result, hb, hfix, hnone] at hcall
    have : (r, s1, h1) = (0, s2, h) := by
      simpa [ssps_bind_result, hb, hfix, hs2] using hcall.symm
    simp only [Prod.mk.injEq] at this
    obtain ⟨rfl, rfl, rfl⟩ := this
    obtain ⟨hf, hx, hlen, harr, hout, hin⟩ := reset_loop_view (field_count s) 0 s s1 hs2
    refine ⟨rfl, rfl, hf, hx, hlen, harr, fun hc => ?_, fun _ => ⟨?_, ?_⟩⟩
    · rw [hfix] at hc
      cases hc
    · intro m hm
      exact hout m (Or.inr (by omega))
    · intro m hm
      exact hin m (Nat.zero_le _) (by omega)
  · have : (r, s1, h1) = (0, s, h) := by
      simpa [ssps_bind_result, hb, hfix] using hcall.symm
    simp only [Prod.mk.injEq] at this
    obtain ⟨rfl, rfl, rfl⟩ := this
    refine ⟨rfl, rfl, rfl, rfl, rfl, rfl, fun _ => rfl, fun hc => ?_⟩
    rw [hfix] at hc
    cases hc

theorem mysql_stmt_fetch_col_rbind (row : Nat → RowCells) (s : STMT) (m : Nat) :
    col_rbind (mysql_stmt_fetch row s) m
      = (col_rbind s m).map (fun b => write_cells b (row m)) := by
  rcases Option.eq_none_or_eq_some s.result_bind with hb | ⟨binds, hb⟩
  · simp [col_rbind, mysql_stmt_fetch, hb]
  simp only [col_rbind, mysql_stmt_fetch, hb, Option.map_some', List.getElem?_zipWith]
  rcases Option.eq_none_or_eq_some binds[m]? with hget | ⟨b, hget⟩
  · simp [hget]
  have hm : m < binds.length := getElem?_lt_length binds m b hget
  simp [hget, List.getElem?_range hm]

/-- The row fetch of the client library leaves every column untouched: it writes
cells only. -/
theorem mysql_stmt_fetch_view (row : Nat → RowCells) (s : STMT) :
    (mysql_stmt_fetch row s).fields = s.fields
    ∧ (mysql_stmt_fetch row s).fix_fields = s.fix_fields
    ∧ (mysql_stmt_fetch row s).lengths = s.lengths
    ∧ (mysql_stmt_fetch row s).array = s.array
    ∧ ∀ m, untouched (column_view s m) (column_view (mysql_stmt_fetch row s) m) := by
  refine ⟨rfl, rfl, rfl, rfl, fun m => ⟨?_, rfl, rfl⟩⟩
  simp only [column_view, mysql_stmt_fetch_col_rbind, Option.map_map]
  congr 1

/-! ## The first bind -/

theorem my_malloc_never_refuses (h : Heap) (hn : never_refuses h) :
    (my_malloc h).1 = some h.next ∧ never_refuses (my_malloc h).2 := by
  rcases h with ⟨next, refusals⟩
  cases refusals with
  | nil => exact ⟨rfl, by simp [my_malloc, never_refuses]⟩
  | cons r rest =>
    have hr : r = false := hn r (List.mem_cons_self _ _)
    subst hr
    refine ⟨rfl, ?_⟩
    intro x hx
    exact hn x (List.mem_cons_of_mem _ hx)

theorem allocate_buffer_for_field_parts (p : Platform) (h : Heap) (field : MYSQL_FIELD) :
    (allocate_buffer_for_field p h field).1.type = field.type
    ∧ (allocate_buffer_for_field p h field).1.size = buffer_size_for_field p field
    ∧ (never_refuses h →
        never_refuses (allocate_buffer_for_field p h field).2
        ∧ ((allocate_buffer_for_field p h field).1.buffer = none ↔
            buffer_size_for_field p field = 0)) := by
  dsimp only [allocate_buffer_for_field]
  split
  · next hpos =>
    refine ⟨rfl, rfl, fun hn => ?_⟩
    obtain ⟨h1, h2⟩ := my_malloc_never_refuses h hn
    refine ⟨h2, ?_⟩
    simp only [h1]
    constructor
    · intro hc; cases hc
    · intro hz; omega
  · next hzero =>
    refine ⟨rfl, rfl, fun hn => ⟨hn, ?_⟩⟩
    constructor
    · intro _; omega
    · intro _; rfl

/-- The loop of the first bind appends one binding and one scratch entry per column.
Entry `i` carries the type tag of field `i`, the buffer and the size the allocator
returned for it, its unsigned flag and zeroed cells; the statement is marked as having
deferred columns, with a zero-filled cache of `n` lengths, exactly when one of the new
bindings has no buffer and is not of the NULL type. -/
theorem first_bind_loop_spec (p : Platform) (n : Nat) (is_null err len : Option Ptr) :
    ∀ (fields : List MYSQL_FIELD) (s : STMT) (h : Heap) (accb : List MYSQL_BIND)
      (acca : List (Option Ptr)), s.result_bind = some accb → s.array = some acca →
      ∃ s1 h1 nb na, first_bind_loop p n is_null err len fields s h = some (s1, h1)
        ∧ s1.result_bind = some (accb ++ nb) ∧ s1.array = some (acca ++ na)
        ∧ s1.fields = s.fields ∧ nb.length = fields.length ∧ na.length = fields.length
        ∧ (∀ (i : Nat) (field : MYSQL_FIELD), fields[i]? = some field →
            ∃ (hi : Heap) (b : MYSQL_BIND), nb[i]? = some b
            ∧ na[i]? = some b.buffer ∧ (never_refuses h → never_refuses hi)
            ∧ b.buffer_type = field.type
            ∧ b.buffer = (allocate_buffer_for_field p hi field).1.buffer
            ∧ b.buffer_length = (allocate_buffer_for_field p hi field).1.size
            ∧ b.is_unsigned = (field.flags &&& UNSIGNED_FLAG != 0)
            ∧ b.length = len.map (fun _ => 0) ∧ b.is_null = is_null.map (fun _ => false)
            ∧ b.error = err.map (fun _ => false))
        ∧ (never_refuses h → never_refuses h1)
        ∧ ((∃ b ∈ nb, b.buffer = none ∧ b.buffer_type ≠ MYSQL_TYPE_NULL) →
            s1.fix_fields = true
            ∧ (s1.lengths = none ∨ s1.lengths = some (List.replicate n 0))
            ∧ (never_refuses h → s1.lengths = some (List.replicate n 0)))
        ∧ ((¬ ∃ b ∈ nb, b.buffer = none ∧ b.buffer_type ≠ MYSQL_TYPE_NULL) →
            s1.fix_fields = s.fix_fields ∧ s1.lengths = s.lengths) := by
  intro fields
  induction fields with
  | nil =>
    intro s h accb acca hb ha
    refine ⟨s, h, [], [], rfl, by simpa using hb, by simpa using ha, rfl, rfl, rfl, ?_,
      fun hn => hn, ?_, fun _ => ⟨rfl, rfl⟩⟩
    · intro i field hi
      simp at hi
    · rintro ⟨b, hb, -⟩
      simp at hb
  | cons field rest ih =>
    intro s h accb acca hb ha
    obtain ⟨hrt, hrs, hrn⟩ := allocate_buffer_for_field_parts p h field
    obtain ⟨b, hbdef⟩ : ∃ b : MYSQL_BIND, b =
        { buffer_type := (allocate_buffer_for_field p h field).1.type,
          buffer := (allocate_buffer_for_field p h field).1.buffer,
          buffer_length := (allocate_buffer_for_field p h field).1.size,
          length := len.map (fun _ => 0),
          is_null := is_null.map (fun _ => false),
          error := err.map (fun _ => false),
          is_unsigned := field.flags &&& UNSIGNED_FLAG != 0 } := ⟨_, rfl⟩
    have hbparts : b.buffer_type = field.type
        ∧ b.buffer = (allocate_buffer_for_field p h field).1.buffer
        ∧ b.buffer_length = (allocate_buffer_for_field p h field).1.size
        ∧ b.is_unsigned = (field.flags &&& UNSIGNED_FLAG != 0)
        ∧ b.length = len.map (fun _ => 0) ∧ b.is_null = is_null.map (fun _ => false)
        ∧ b.error = err.map (fun _ => false) := by
      rw [hbdef]
      exact ⟨hrt, rfl, rfl, rfl, rfl, rfl, rfl⟩
    have hbtype : b.buffer_type = (allocate_buffer_for_field p h field).1.type := by
      rw [hbdef]
    by_cases hdef : b.buffer = none ∧ b.buffer_type ≠ MYSQL_TYPE_NULL
    · obtain ⟨s1, h1, nb, na, hloop, hb1, ha1, hf1, hnb, hna, hcols, hheap, hyes, hno⟩ :=
        ih { s with
             result_bind := some (accb ++ [b]),
             array := some (acca ++ [b.buffer]),
             fix_fields := true,
             lengths := (my_malloc (allocate_buffer_for_field p h field).2).1.map
               (fun _ => List.replicate n 0) }
          (my_malloc (allocate_buffer_for_field p h field).2).2
          (accb ++ [b]) (acca ++ [b.buffer]) rfl rfl
      refine ⟨s1, h1, b :: nb, b.buffer :: na, ?_, by simpa using hb1, by simpa using ha1,
        hf1, by simp [hnb], by simp [hna], ?_, ?_, ?_, ?_⟩
      · rw [← hloop]
        simp only [first_bind_loop, hb, ha]
        rw [← hbdef, if_pos (by rw [← hbparts.2.1, ← hbtype]; exact hdef), hbparts.2.1]
      · intro i fld hi
        cases i with
        | zero =>
          simp only [List.getElem?_cons_zero, Option.some.injEq] at hi
          subst hi
          exact ⟨h, b, by simp, by simp, fun hn => hn, hbparts⟩
        | succ i =>
          simp only [List.getElem?_cons_succ] at hi
          obtain ⟨hi1, b1, e1, e2, e3, e4⟩ := hcols i fld hi
          refine ⟨hi1, b1, by simpa using e1, by simpa using e2, fun hn => e3 ?_, e4⟩
          exact (my_malloc_never_refuses _ (hrn hn).1).2
      · intro hn
        exact hheap (my_malloc_never_refuses _ (hrn hn).1).2
      · intro _
        have hl0 : ∀ hn : never_refuses h,
            (my_malloc (allocate_buffer_for_field p h field).2).1.map
              (fun _ => List.replicate n 0) = some (List.replicate n 0) := by
          intro hn
          rw [(my_malloc_never_refuses _ (hrn hn).1).1]
          rfl
        by_cases hmore : ∃ x ∈ nb, x.buffer = none ∧ x.buffer_type ≠ MYSQL_TYPE_NULL
        · obtain ⟨e1, e2, e3⟩ := hyes hmore
          exact ⟨e1, e2, fun hn => e3 (my_malloc_never_refuses _ (hrn hn).1).2⟩
        · obtain ⟨e1, e2⟩ := hno hmore
          refine ⟨e1, ?_, fun hn => by rw [e2]; exact hl0 hn⟩
          rw [e2]
          cases (my_malloc (allocate_buffer_for_field p h field).2).1 with
          | none => exact Or.inl rfl
          | some a => exact Or.inr rfl
      · intro hnone
        exact absurd ⟨b, List.mem_cons_self _ _, hdef⟩ hnone
    · obtain ⟨s1, h1, nb, na, hloop, hb1, ha1, hf1, hnb, hna, hcols, hheap, hyes, hno⟩ :=
        ih { s with
             result_bind := some (accb ++ [b]),
             array := some (acca ++ [b.buffer]) }
          (allocate_buffer_for_field p h field).2
          (accb ++ [b]) (acca ++ [b.buffer]) rfl rfl
      have hiff : (∃ x ∈ b :: nb, x.buffer = none ∧ x.buffer_type ≠ MYSQL_TYPE_NULL)
          ↔ ∃ x ∈ nb, x.buffer = none ∧ x.buffer_type ≠ MYSQL_TYPE_NULL := by
        constructor
        · rintro ⟨x, hx, hxd⟩
          rcases List.mem_cons.mp hx with rfl | hx
          · exact absurd hxd hdef
          · exact ⟨x, hx, hxd⟩
        · rintro ⟨x, hx, hxd⟩
          exact ⟨x, List.mem_cons_of_mem _ hx, hxd⟩
      refine ⟨s1, h1, b :: nb, b.buffer :: na, ?_, by simpa using hb1, by simpa using ha1,
        hf1, by simp [hnb], by simp [hna], ?_, ?_, ?_, ?_⟩
      · rw [← hloop]
        simp only [first_bind_loop, hb, ha]
        rw [← hbdef, if_neg (by rw [← hbparts.2.1, ← hbtype]; exact hdef), hbparts.2.1]
      · intro i fld hi
        cases i with
        | zero =>
          simp only [List.getElem?_cons_zero, Option.some.injEq] at hi
          subst hi
          exact ⟨h, b, by simp, by simp, fun hn => hn, hbparts⟩
        | succ i =>
          simp only [List.getElem?_cons_succ] at hi
          obtain ⟨hi1, b1, e1, e2, e3, e4⟩ := hcols i fld hi
          exact ⟨hi1, b1, by simpa using e1, by simpa using e2, fun hn => e3 (hrn hn).1, e4⟩
      · intro hn
        exact hheap (hrn hn).1
      · intro hd
        obtain ⟨e1, e2, e3⟩ := hyes (hiff.mp hd)
        exact ⟨e1, e2, fun hn => e3 (hrn hn).1⟩
      · intro hd
        exact hno (fun hh => hd (hiff.mpr hh))

/-- The first bind with an allocator that refuses nothing: it returns 0 and builds a
table and a scratch array with one entry per column, as the loop specifies. -/
theorem ssps_bind_result_first (p : Platform) (s : STMT) (h : Heap)
    (hnone : s.result_bind = none) (hn : never_refuses h) :
    ∃ s1 h1 binds arr, ssps_bind_result p s h = some (0, s1, h1)
      ∧ s1.result_bind = some binds ∧ s1.array = some arr ∧ s1.fields = s.fields
      ∧ binds.length = field_count s ∧ arr.length = field_count s
      ∧ (∀ (i : Nat) (field : MYSQL_FIELD), s.fields[i]? = some field →
          ∃ (hi : Heap) (b : MYSQL_BIND), binds[i]? = some b ∧ arr[i]? = some b.buffer
            ∧ never_refuses hi ∧ b.buffer_type = field.type
            ∧ b.buffer = (allocate_buffer_for_field p hi field).1.buffer
            ∧ b.buffer_length = (allocate_buffer_for_field p hi field).1.size
            ∧ b.is_unsigned = (field.flags &&& UNSIGNED_FLAG != 0)
            ∧ b.length = some 0 ∧ b.is_null = some false ∧ b.error = some false)
      ∧ ((∃ b ∈ binds, b.buffer = none ∧ b.buffer_type ≠ MYSQL_TYPE_NULL) →
          s1.fix_fields = true ∧ s1.lengths = some (List.replicate (field_count s) 0))
      ∧ ((¬ ∃ b ∈ binds, b.buffer = none ∧ b.buffer_type ≠ MYSQL_TYPE_NULL) →
          s1.fix_fields = s.fix_fields ∧ s1.lengths = s.lengths) := by
  obtain ⟨e1, n1⟩ := my_malloc_never_refuses h hn
  obtain ⟨e2, n2⟩ := my_malloc_never_refuses _ n1
  obtain ⟨e3, n3⟩ := my_malloc_never_refuses _ n2
  obtain ⟨e4, n4⟩ := my_malloc_never_refuses _ n3
  obtain ⟨e5, n5⟩ := my_malloc_never_refuses _ n4
  obtain ⟨s1, h1, nb, na, hloop, hb1, ha1, hf1, hnb, hna, hcols, -, hyes, hno⟩ :=
    first_bind_loop_spec p (field_count s) (my_malloc h).1 (my_malloc (my_malloc h).2).1
      (my_malloc (my_malloc (my_malloc h).2).2).1 s.fields
      { s with
        result_bind := (my_malloc (my_malloc (my_malloc (my_malloc h).2).2).2).1.map
          (fun _ => []),
        array := (my_malloc (my_malloc (my_malloc (my_malloc (my_malloc h).2).2).2).2).1.map
          (fun _ => []) }
      (my_malloc (my_malloc (my_malloc (my_malloc (my_malloc h).2).2).2).2).2 [] []
      (by simp only [e4]; rfl) (by simp only [e5]; rfl)
  refine ⟨s1, h1, nb, na, ?_, by simpa using hb1, by simpa using ha1, hf1, hnb, hna, ?_, ?_,
    hno⟩
  · simp only [ssps_bind_result, hnone, field_count] at hloop ⊢
    rw [hloop]
    rfl
  · intro i field hi
    obtain ⟨hi1, b, g1, g2, g3, g4, g5, g6, g7, g8, g9, g10⟩ := hcols i field hi
    refine ⟨hi1, b, g1, g2, g3 n5, g4, g5, g6, g7, ?_, ?_, ?_⟩
    · rw [g8, e3]; rfl
    · rw [g9, e1]; rfl
    · rw [g10, e2]; rfl
  · intro hd
    obtain ⟨g1, -, g3⟩ := hyes hd
    exact ⟨g1, g3 n5⟩

theorem first_bind_loop_without_table (p : Platform) (n : Nat) (is_null err len : Option Ptr)
    (fields : List MYSQL_FIELD) (s s1 : STMT) (h h1 : Heap)
    (hnone : s.result_bind = none ∨ s.array = none)
    (hloop : first_bind_loop p n is_null err len fields s h = some (s1, h1)) : s1 = s := by
  cases fields with
  | nil =>
    simp only [first_bind_loop, Option.some.injEq, Prod.mk.injEq] at hloop
    exact hloop.1.symm
  | cons f rest =>
    rcases hnone with hb | ha
    · simp [first_bind_loop, hb] at hloop
    · rcases Option.eq_none_or_eq_some s.result_bind with hb | ⟨binds, hb⟩
      · simp [first_bind_loop, hb] at hloop
      · simp [first_bind_loop, hb, ha] at hloop

/-- After `ssps_bind_result` on an unbound statement, whatever the allocator did, the
cache of lengths is absent or all zero. -/
theorem ssps_bind_result_first_cached (p : Platform) (s s1 : STMT) (h h1 : Heap) (r : Int)
    (hu : unbound s) (hcall : ssps_bind_result p s h = some (r, s1, h1)) :
    ∀ i, cached_at s1 i = none ∨ cached_at s1 i = some 0 := by
  obtain ⟨hnone, -, hlens, -⟩ := hu
  have hl : s1.lengths = none ∨ s1.lengths = some (List.replicate (field_count s) 0) := by
    simp only [ssps_bind_result, hnone] at hcall
    obtain ⟨⟨s2, h2⟩, hloop, hres⟩ := Option.map_eq_some'.mp hcall
    simp only [Prod.mk.injEq] at hres
    obtain ⟨-, rfl, -⟩ := hres
    rcases Option.eq_none_or_eq_some
      (my_malloc (my_malloc (my_malloc (my_malloc h).2).2).2).1 with e4 | ⟨a4, e4⟩
    · have := first_bind_loop_without_table p _ _ _ _ _ _ _ _ _
        (Or.inl (by simp only [e4]; rfl)) hloop
      left
      rw [this]
      exact hlens
    rcases Option.eq_none_or_eq_some
      (my_malloc (my_malloc (my_malloc (my_malloc (my_malloc h).2).2).2).2).1
      with e5 | ⟨a5, e5⟩
    · have := first_bind_loop_without_table p _ _ _ _ _ _ _ _ _
        (Or.inr (by simp only [e5]; rfl)) hloop
      left
      rw [this]
      exact hlens
    obtain ⟨s3, h3, nb, na, hloop3, -, -, -, -, -, -, -, hyes, hno⟩ :=
      first_bind_loop_spec p (field_count s) (my_malloc h).1 (my_malloc (my_malloc h).2).1
        (my_malloc (my_malloc (my_malloc h).2).2).1 s.fields
        { s with
          result_bind := (my_malloc (my_malloc (my_malloc (my_malloc h).2).2).2).1.map
            (fun _ => []),
          array := (my_malloc (my_malloc (my_malloc (my_malloc (my_malloc h).2).2).2).2).1.map
            (fun _ => []) }
        (my_malloc (my_malloc (my_malloc (my_malloc (my_malloc h).2).2).2).2).2 [] []
        (by simp only [e4]; rfl) (by simp only [e5]; rfl)
    have : (s2, h2) = (s3, h3) := by
      have := hloop.symm.trans hloop3
      simpa using this
    simp only [Prod.mk.injEq] at this
    obtain ⟨rfl, rfl⟩ := this
    by_cases hd : ∃ b ∈ nb, b.buffer = none ∧ b.buffer_type ≠ MYSQL_TYPE_NULL
    · exact (hyes hd).2.1
    · left
      rw [(hno hd).2]
      exact hlens
  intro i
  rcases hl with hl | hl
  · left
    simp [cached_at, hl]
  · simp only [cached_at, hl]
    rcases Option.eq_none_or_eq_some (List.replicate (field_count s) 0)[i]? with e | ⟨v, e⟩
    · exact Or.inl e
    · right
      rw [e]
      have := List.getElem?_mem e
      rw [List.eq_of_mem_replicate this]

theorem column_heap_never_refuses (p : Platform) :
    ∀ (fields : List MYSQL_FIELD) (h : Heap) (i : Nat), never_refuses h →
      never_refuses (column_heap p fields h i) := by
  intro fields
  induction fields with
  | nil => intro h i hn; exact hn
  | cons field rest ih =>
    intro h i hn
    cases i with
    | zero => exact hn
    | succ i =>
      have hr := ((allocate_buffer_for_field_parts p h field).2.2 hn).1
      simp only [column_heap]
      split
      · exact ih _ i (my_malloc_never_refuses _ hr).2
      · exact ih _ i hr

/-- The loop of the first bind appends, for each column, exactly the binding built
from what `allocate_buffer_for_field` returns with the allocator as the loop finds it
at that column. -/
theorem first_bind_loop_bindings (p : Platform) (n : Nat) (is_null err len : Option Ptr) :
    ∀ (fields : List MYSQL_FIELD) (s s1 : STMT) (h h1 : Heap) (accb : List MYSQL_BIND),
      first_bind_loop p n is_null err len fields s h = some (s1, h1) →
      s.result_bind = some accb →
      ∃ nb, s1.result_bind = some (accb ++ nb)
        ∧ ∀ (i : Nat) (field : MYSQL_FIELD), fields[i]? = some field →
            nb[i]? = some (first_binding p (column_heap p fields h i) field is_null err len) := by
  intro fields
  induction fields with
  | nil =>
    intro s s1 h h1 accb hloop hb
    simp only [first_bind_loop, Option.some.injEq, Prod.mk.injEq] at hloop
    obtain ⟨rfl, -⟩ := hloop
    exact ⟨[], by simpa using hb, fun i field hi => by simp at hi⟩
  | cons field rest ih =>
    intro s s1 h h1 accb hloop hb
    rcases Option.eq_none_or_eq_some s.array with ha | ⟨acca, ha⟩
    · simp [first_bind_loop, hb, ha] at hloop
    simp only [first_bind_loop, hb, ha] at hloop
    by_cases hdef : (allocate_buffer_for_field p h field).1.buffer = none
        ∧ (allocate_buffer_for_field p h field).1.type ≠ MYSQL_TYPE_NULL
    · rw [if_pos hdef] at hloop
      obtain ⟨nb, hnb, hcols⟩ := ih _ s1 _ h1 (accb ++ [first_binding p h field is_null err len])
        hloop rfl
      refine ⟨first_binding p h field is_null err len :: nb, by simpa using hnb, ?_⟩
      intro i fld hi
      cases i with
      | zero =>
        simp only [List.getElem?_cons_zero, Option.some.injEq] at hi
        subst hi
        simp [column_heap]
      | succ i =>
        simp only [List.getElem?_cons_succ] at hi
        simp only [List.getElem?_cons_succ, column_heap, if_pos hdef]
        exact hcols i fld hi
    · rw [if_neg hdef] at hloop
      obtain ⟨nb, hnb, hcols⟩ := ih _ s1 _ h1 (accb ++ [first_binding p h field is_null err len])
        hloop rfl
      refine ⟨first_binding p h field is_null err len :: nb, by simpa using hnb, ?_⟩
      intro i fld hi
      cases i with
      | zero =>
        simp only [List.getElem?_cons_zero, Option.some.injEq] at hi
        subst hi
        simp [column_heap]
      | succ i =>
        simp only [List.getElem?_cons_succ] at hi
        simp only [List.getElem?_cons_succ, column_heap, if_neg hdef]
        exact hcols i fld hi

/-- The binding table of the first bind with an allocator that refuses nothing, entry
by entry: `is_null`, `err` and `len` are the three arrays of cells it allocated. -/
theorem ssps_bind_result_first_bindings (p : Platform) (s s1 : STMT) (h h1 : Heap) (r : Int)
    (hnone : s.result_bind = none) (hn : never_refuses h)
    (hcall : ssps_bind_result p s h = some (r, s1, h1)) :
    ∃ (binds : List MYSQL_BIND) (is_null err len : Ptr), s1.result_bind = some binds
      ∧ ∀ (i : Nat) (field : MYSQL_FIELD), s.fields[i]? = some field →
          binds[i]? = some (first_binding p (column_heap p s.fields (tables_heap h) i) field
            (some is_null) (some err) (some len)) := by
  obtain ⟨e1, n1⟩ := my_malloc_never_refuses h hn
  obtain ⟨e2, n2⟩ := my_malloc_never_refuses _ n1
  obtain ⟨e3, n3⟩ := my_malloc_never_refuses _ n2
  obtain ⟨e4, n4⟩ := my_malloc_never_refuses _ n3
  simp only [ssps_bind_result, hnone] at hcall
  obtain ⟨⟨s2, h2⟩, hloop, hres⟩ := Option.map_eq_some'.mp hcall
  simp only [Prod.mk.injEq] at hres
  obtain ⟨-, rfl, rfl⟩ := hres
  obtain ⟨nb, hnb, hcols⟩ := first_bind_loop_bindings p _ _ _ _ _ _ _ _ _ [] hloop
    (by simp only [e4]; rfl)
  refine ⟨nb, h.next, (my_malloc h).2.next, (my_malloc (my_malloc h).2).2.next,
    by simpa using hnb, fun i field hi => ?_⟩
  rw [hcols i field hi, e1, e2, e3]
  rfl

/-- Claim C17. The first `ssps_bind_result` on an unbound statement, with an allocator
that refuses nothing, returns 0 and leaves a binding table with one entry per column.
Entry `i` carries the type tag of column `i`, the buffer and the capacity that
`allocate_buffer_for_field` returns for the column with the allocator as the loop
finds it at column `i` (which still refuses nothing, so the buffer is a block exactly
when the size chosen for the type is positive), the unsigned flag of the column, and
valid, zeroed length, is-null and error cells. The statement is marked as having
deferred columns if and only if some binding has no buffer and is not of the NULL
type, and then its cache of lengths has one zero entry per column. -/
theorem first_bind_marks_deferred (p : Platform) (s : STMT) (h : Heap)
    (hu : unbound s) (hn : never_refuses h) :
    ∃ s1 h1 binds, ssps_bind_result p s h = some (0, s1, h1)
      ∧ s1.result_bind = some binds ∧ binds.length = field_count s
      ∧ (∀ (i : Nat) (field : MYSQL_FIELD), s.fields[i]? = some field →
          ∃ b : MYSQL_BIND, binds[i]? = some b
            ∧ never_refuses (column_heap p s.fields (tables_heap h) i)
            ∧ b.buffer_type = field.type
            ∧ b.buffer = (allocate_buffer_for_field p
                (column_heap p s.fields (tables_heap h) i) field).1.buffer
            ∧ b.buffer_length = (allocate_buffer_for_field p
                (column_heap p s.fields (tables_heap h) i) field).1.size
            ∧ b.buffer_length = buffer_size_for_field p field
            ∧ (b.buffer ≠ none ↔ 0 < buffer_size_for_field p field)
            ∧ b.is_unsigned = (field.flags &&& UNSIGNED_FLAG != 0)
            ∧ b.length = some 0 ∧ b.is_null = some false ∧ b.error = some false)
      ∧ (s1.fix_fields = true ↔
          ∃ b ∈ binds, b.buffer = none ∧ b.buffer_type ≠ MYSQL_TYPE_NULL)
      ∧ (s1.fix_fields = true → s1.lengths = some (List.replicate (field_count s) 0)) := by
  obtain ⟨s1, h1, binds, arr, hcall, hb, -, -, hlen, -, -, hyes, hno⟩ :=
    ssps_bind_result_first p s h hu.1 hn
  obtain ⟨binds1, c1, c2, c3, hb1, hcols⟩ :=
    ssps_bind_result_first_bindings p s s1 h h1 0 hu.1 hn hcall
  rw [hb] at hb1
  cases hb1
  have hiff : s1.fix_fields = true ↔
      ∃ b ∈ binds, b.buffer = none ∧ b.buffer_type ≠ MYSQL_TYPE_NULL := by
    constructor
    · intro hfix
      by_contra hd
      have := (hno hd).1
      rw [hu.2.2.2] at this
      rw [this] at hfix
      cases hfix
    · intro hd
      exact (hyes hd).1
  refine ⟨s1, h1, binds, hcall, hb, hlen, ?_, hiff, fun hfix => (hyes (hiff.mp hfix)).2⟩
  intro i field hi
  have hheap : never_refuses (column_heap p s.fields (tables_heap h) i) := by
    apply column_heap_never_refuses
    obtain ⟨-, n1⟩ := my_malloc_never_refuses h hn
    obtain ⟨-, n2⟩ := my_malloc_never_refuses _ n1
    obtain ⟨-, n3⟩ := my_malloc_never_refuses _ n2
    obtain ⟨-, n4⟩ := my_malloc_never_refuses _ n3
    exact (my_malloc_never_refuses _ n4).2
  obtain ⟨e1, e2, e3⟩ := allocate_buffer_for_field_parts p
    (column_heap p s.fields (tables_heap h) i) field
  refine ⟨_, hcols i field hi, hheap, e1, rfl, rfl, e2, ?_, rfl, rfl, rfl, rfl⟩
  have := (e3 hheap).2
  simp only [first_binding, Ne, this]
  omega

theorem first_bind_marks_deferred_witness :
    ∃ s1 h1 binds, ssps_bind_result host mixed_statement ⟨100, []⟩ = some (0, s1, h1)
      ∧ s1.result_bind = some binds ∧ binds.length = 2
      ∧ (∃ b : MYSQL_BIND, binds[0]? = some b ∧ b.buffer_type = MYSQL_TYPE_LONG
          ∧ b.buffer = some 105 ∧ b.buffer_length = 4)
      ∧ (∃ b : MYSQL_BIND, binds[1]? = some b ∧ b.buffer_type = MYSQL_TYPE_BLOB
          ∧ b.buffer = none ∧ b.buffer_length = 0)
      ∧ (s1.fix_fields = true ↔
          ∃ b ∈ binds, b.buffer = none ∧ b.buffer_type ≠ MYSQL_TYPE_NULL)
      ∧ (s1.fix_fields = true → s1.lengths = some [0, 0]) := by
  obtain ⟨s1, h1, binds, g1, g2, g3, g4, g5, g6⟩ :=
    first_bind_marks_deferred host mixed_statement ⟨100, []⟩ (by decide) (by decide)
  obtain ⟨b0, a1, -, a3, a4, a5, -⟩ := g4 0 _ rfl
  obtain ⟨b1, c1, -, c3, c4, c5, -⟩ := g4 1 _ rfl
  exact ⟨s1, h1, binds, g1, g2, g3, ⟨b0, a1, a3, a4, a5⟩, ⟨b1, c1, c3, c4, c5⟩, g5, g6⟩

/-! ## Invariants of a deferred column and of a fixed column -/

theorem column_view_bind (s : STMT) (m : Nat) : (column_view s m).bind = col_rbind s m := rfl

theorem column_view_cached (s : STMT) (m : Nat) : (column_view s m).cached = cached_at s m :=
  rfl

theorem column_view_scratch (s : STMT) (m : Nat) :
    (column_view s m).scratch = scratch_at s m := rfl

theorem untouched_keeps (s s1 : STMT) (m : Nat) (b : MYSQL_BIND)
    (hu : untouched (column_view s m) (column_view s1 m)) (hc : col_rbind s m = some b) :
    ∃ b1, col_rbind s1 m = some b1 ∧ b1.buffer = b.buffer
      ∧ b1.buffer_length = b.buffer_length ∧ cached_at s1 m = cached_at s m
      ∧ scratch_at s1 m = scratch_at s m := by
  obtain ⟨b1, h1, -, h3, h4, -⟩ := untouched_bind _ _ b hu hc
  exact ⟨b1, h1, h3, h4, hu.2.1, hu.2.2⟩

theorem refetched_keeps (s s1 : STMT) (m : Nat) (b : MYSQL_BIND) (li : Nat)
    (hr : refetched (column_view s m) (column_view s1 m)) (hc : col_rbind s m = some b)
    (hca : cached_at s m = some li) :
    ∃ b1 li1, col_rbind s1 m = some b1 ∧ cached_at s1 m = some li1 ∧ li ≤ li1
      ∧ (b.buffer ≠ none → b1.buffer = b.buffer ∧ b1.buffer_length = b.buffer_length
          ∧ li1 = li ∧ scratch_at s1 m = scratch_at s m)
      ∧ (b.buffer = none → ∃ len ai, b.length = some len ∧ scratch_at s m = some ai
          ∧ li1 = max li len ∧ b1.buffer_length = max li len
          ∧ scratch_at s1 m = some b1.buffer ∧ (len ≤ li → b1.buffer = ai)) := by
  obtain ⟨b0, b1, hx, hy, -, -, hcase⟩ := hr
  rw [column_view_bind, hc] at hx
  cases hx
  rw [column_view_bind] at hy
  rcases hcase with ⟨hb, hbuf, hcap, hcs, hss⟩ | ⟨hb, len, li0, ai, hlen, hcs, hss, hc1, hcap, hs1,
    hkeep⟩
  · rw [column_view_cached, column_view_cached, hca] at hcs
    rw [column_view_scratch, column_view_scratch] at hss
    exact ⟨b1, li, hy, hcs, le_refl _, fun _ => ⟨hbuf, hcap, rfl, hss⟩,
      fun hn => absurd hn hb⟩
  · rw [column_view_cached, hca] at hcs
    cases hcs
    rw [column_view_cached] at hc1
    rw [column_view_scratch] at hss hs1
    exact ⟨b1, max li len, hy, hc1, Nat.le_max_left _ _, fun hn => absurd hb hn,
      fun _ => ⟨len, ai, hlen, hss, rfl, hcap, hs1, hkeep⟩⟩

theorem rebound_keeps (s s1 : STMT) (m : Nat) (b : MYSQL_BIND)
    (hr : rebound (column_view s m) (column_view s1 m)) (hc : col_rbind s m = some b) :
    cached_at s1 m = cached_at s m ∧ scratch_at s1 m = scratch_at s m
    ∧ ∃ li, cached_at s m = some li
      ∧ (0 < li → col_rbind s1 m = some { b with buffer := none, buffer_length := 0 })
      ∧ (li = 0 → col_rbind s1 m = some b) := by
  obtain ⟨h1, h2, li, hli, hcase⟩ := hr
  refine ⟨h1, h2, li, hli, ?_, ?_⟩
  · intro hpos
    rw [if_pos hpos] at hcase
    obtain ⟨b0, hb0, hb1⟩ := hcase
    rw [column_view_bind, hc] at hb0
    cases hb0
    exact hb1
  · intro hz
    rw [if_neg (by omega)] at hcase
    rw [column_view_bind, column_view_bind, hc] at hcase
    exact hcase

theorem col_rbind_bound (s : STMT) (m : Nat) (b : MYSQL_BIND) (hc : col_rbind s m = some b) :
    s.result_bind ≠ none := by
  intro hnone
  simp [col_rbind, hnone] at hc

/-- Every call keeps a deferred column ready. -/
theorem deferred_column_ready_call (p : Platform) (n i : Nat) (s s1 : STMT)
    (hcall : Call p s s1) (hinv : deferred_column_ready n i s) :
    deferred_column_ready n i s1 := by
  obtain ⟨hi, hfix, hcount, hall, b, li, ai, hcb, hcl, hcs, hzero⟩ := hinv
  cases hcall with
  | row row =>
    obtain ⟨hf, hx, -, -, hun⟩ := mysql_stmt_fetch_view row s
    refine ⟨hi, by rw [hx, hfix], by rw [field_count, hf]; exact hcount, ?_, ?_⟩
    · intro m hm
      obtain ⟨bm, lm, h1, h2⟩ := hall m hm
      obtain ⟨b1, g1, -, -, g4, -⟩ := untouched_keeps s _ m bm (hun m) h1
      exact ⟨b1, lm, g1, by rw [g4, h2]⟩
    · obtain ⟨b1, g1, g2, g3, g4, g5⟩ := untouched_keeps s _ i b (hun i) hcb
      refine ⟨b1, li, ai, g1, by rw [g4, hcl], by rw [g5, hcs], fun hz => ?_⟩
      obtain ⟨z1, z2, z3⟩ := hzero hz
      exact ⟨by rw [g2, z1], by rw [g3, z2], z3⟩
  | fetch fetch _ _ h h1 hfetch =>
    obtain ⟨hf, hx, -, hin, -⟩ := fetch_varlength_columns_view fetch s s1 h h1 hfetch
    have hcnt : field_count s1 = n := by rw [field_count, hf]; exact hcount
    refine ⟨hi, by rw [hx, hfix], hcnt, ?_, ?_⟩
    · intro m hm
      obtain ⟨bm, lm, h1, h2⟩ := hall m hm
      obtain ⟨b1, l1, g1, g2, -⟩ := refetched_keeps s s1 m bm lm (hin m (by omega)) h1 h2
      exact ⟨b1, l1, g1, g2⟩
    · obtain ⟨b1, l1, g1, g2, -, gsome, gnone⟩ :=
        refetched_keeps s s1 i b li (hin i (by omega)) hcb hcl
      by_cases hbuf : b.buffer = none
      · obtain ⟨len, ai0, e1, e2, e3, e4, e5, e6⟩ := gnone hbuf
        rw [hcs] at e2
        cases e2
        refine ⟨b1, l1, b1.buffer, g1, g2, e5, fun hz => ?_⟩
        have hli : li = 0 := by omega
        have hle : len ≤ li := by omega
        obtain ⟨-, -, z3⟩ := hzero hli
        have hb1 : b1.buffer = none := by rw [e6 hle, z3]
        exact ⟨hb1, by omega, hb1⟩
      · obtain ⟨e1, e2, e3, e4⟩ := gsome hbuf
        refine ⟨b1, l1, ai, g1, g2, by rw [e4, hcs], fun hz => ?_⟩
        obtain ⟨z1, z2, z3⟩ := hzero (by omega)
        exact absurd z1 hbuf
  | bind _ _ h h1 r hbind =>
    obtain ⟨-, -, hf, hx, -, -, -, hon⟩ := ssps_bind_result_rebind_view p s s1 h h1 r
      (col_rbind_bound s i b hcb) hbind
    obtain ⟨-, hin⟩ := hon hfix
    refine ⟨hi, by rw [hx, hfix], by rw [field_count, hf]; exact hcount, ?_, ?_⟩
    · intro m hm
      obtain ⟨bm, lm, h1, h2⟩ := hall m hm
      obtain ⟨g1, -, l0, g3, g4, g5⟩ := rebound_keeps s s1 m bm (hin m (by omega)) h1
      rw [h2] at g3
      cases g3
      rcases Nat.eq_zero_or_pos lm with hz | hpos
      · exact ⟨_, lm, g5 hz, by rw [g1, h2]⟩
      · exact ⟨_, lm, g4 hpos, by rw [g1, h2]⟩
    · obtain ⟨g1, g2, l0, g3, g4, g5⟩ := rebound_keeps s s1 i b (hin i (by omega)) hcb
      rw [hcl] at g3
      cases g3
      rcases Nat.eq_zero_or_pos li with hz | hpos
      · exact ⟨b, li, ai, g5 hz, by rw [g1, hcl], by rw [g2, hcs], hzero⟩
      · exact ⟨_, li, ai, g4 hpos, by rw [g1, hcl], by rw [g2, hcs], fun hz => by omega⟩

theorem deferred_column_ready_later (p : Platform) (n i : Nat) (s s1 : STMT)
    (hlater : Later p s s1) (hinv : deferred_column_ready n i s) :
    deferred_column_ready n i s1 := by
  induction hlater with
  | refl => exact hinv
  | step s1 s2 _ hcall ih => exact deferred_column_ready_call p n i s1 s2 hcall ih

/-- Every call keeps a column that got a buffer at the first bind. -/
theorem fixed_column_kept_call (p : Platform) (i : Nat) (buffer : Option Ptr)
    (capacity : Nat) (hbuf : buffer ≠ none) (s s1 : STMT)
    (hcall : Call p s s1) (hinv : fixed_column_kept i buffer capacity s) :
    fixed_column_kept i buffer capacity s1 := by
  obtain ⟨⟨b, hcb, hbb, hbl⟩, hcached⟩ := hinv
  have hbne : b.buffer ≠ none := by rw [hbb]; exact hbuf
  cases hcall with
  | row row =>
    obtain ⟨-, -, -, -, hun⟩ := mysql_stmt_fetch_view row s
    obtain ⟨b1, g1, g2, g3, g4, -⟩ := untouched_keeps s _ i b (hun i) hcb
    exact ⟨⟨b1, g1, by rw [g2, hbb], by rw [g3, hbl]⟩, by rw [g4]; exact hcached⟩
  | fetch fetch _ _ h h1 hfetch =>
    obtain ⟨-, -, hout, hin, -⟩ := fetch_varlength_columns_view fetch s s1 h h1 hfetch
    by_cases hi : i < field_count s
    · obtain ⟨b0, b1, hx, hy, -, -, hcase⟩ := hin i hi
      rw [column_view_bind, hcb] at hx
      cases hx
      rw [column_view_bind] at hy
      rcases hcase with ⟨-, e1, e2, e3, -⟩ | ⟨e1, -⟩
      · rw [column_view_cached, column_view_cached] at e3
        exact ⟨⟨b1, hy, by rw [e1, hbb], by rw [e2, hbl]⟩, by rw [e3]; exact hcached⟩
      · exact absurd e1 hbne
    · obtain ⟨b1, g1, g2, g3, g4, -⟩ := untouched_keeps s s1 i b (hout i (by omega)) hcb
      exact ⟨⟨b1, g1, by rw [g2, hbb], by rw [g3, hbl]⟩, by rw [g4]; exact hcached⟩
  | bind _ _ h h1 r hbind =>
    obtain ⟨-, -, -, -, -, -, hoff, hon⟩ := ssps_bind_result_rebind_view p s s1 h h1 r
      (col_rbind_bound s i b hcb) hbind
    rcases Bool.eq_false_or_eq_true s.fix_fields with hfix | hfix
    · obtain ⟨hout, hin⟩ := hon hfix
      by_cases hi : i < field_count s
      · obtain ⟨g1, -, l0, g3, -, g5⟩ := rebound_keeps s s1 i b (hin i hi) hcb
        have hl0 : l0 = 0 := by
          rcases hcached with hc | hc
          · rw [hc] at g3; cases g3
          · rw [hc] at g3; cases g3; rfl
        exact ⟨⟨b, g5 hl0, hbb, hbl⟩, by rw [g1]; exact hcached⟩
      · have hview := hout i (by omega)
        have e1 : col_rbind s1 i = col_rbind s i := congrArg ColumnView.bind hview
        have e2 : cached_at s1 i = cached_at s i := congrArg ColumnView.cached hview
        exact ⟨⟨b, by rw [e1, hcb], hbb, hbl⟩, by rw [e2]; exact hcached⟩
    · rw [hoff hfix]
      exact ⟨⟨b, hcb, hbb, hbl⟩, hcached⟩

theorem fixed_column_kept_later (p : Platform) (i : Nat) (buffer : Option Ptr)
    (capacity : Nat) (hbuf : buffer ≠ none) (s s1 : STMT)
    (hlater : Later p s s1) (hinv : fixed_column_kept i buffer capacity s) :
    fixed_column_kept i buffer capacity s1 := by
  induction hlater with
  | refl => exact hinv
  | step s1 s2 _ hcall ih => exact fixed_column_kept_call p i buffer capacity hbuf s1 s2 hcall ih

/-! ## Well-formed tables along a sequence of calls -/

theorem tables_ready_row (n : Nat) (row : Nat → RowCells) (s : STMT)
    (hready : tables_ready n s) : tables_ready n (mysql_stmt_fetch row s) := by
  obtain ⟨binds, arr, lens, hb, ha, hl, hnb, hna, hnl, hcells⟩ :=
    (tables_ready_iff n s).mp hready
  refine (tables_ready_iff n _).mpr ⟨_, arr, lens, by simp only [mysql_stmt_fetch, hb]; rfl,
    ha, hl, by simp [hnb], hna, hnl, ?_⟩
  intro b hmem
  obtain ⟨m, hm⟩ := List.mem_iff_getElem?.mp hmem
  have hcol : col_rbind (mysql_stmt_fetch row s) m = some b := by
    simp only [col_rbind, mysql_stmt_fetch, hb, Option.map_some']
    exact hm
  rw [mysql_stmt_fetch_col_rbind] at hcol
  obtain ⟨b0, hb0, rfl⟩ := Option.map_eq_some'.mp hcol
  have hmem0 : b0 ∈ binds := by
    simp only [col_rbind, hb] at hb0
    exact List.getElem?_mem hb0
  have := hcells b0 hmem0
  obtain ⟨len, hlen⟩ := Option.ne_none_iff_exists'.mp this
  simp [write_cells, hlen]

theorem tables_ready_reset_loop (n : Nat) :
    ∀ (k i0 : Nat) (s s1 : STMT), reset_loop k i0 s = some s1 → tables_ready n s →
      tables_ready n s1 := by
  intro k
  induction k with
  | zero =>
    intro i0 s s1 hloop hready
    simp only [reset_loop, Option.some.injEq] at hloop
    subst hloop
    exact hready
  | succ k ih =>
    intro i0 s s1 hloop hready
    obtain ⟨binds, arr, lens, hb, ha, hl, hnb, hna, hnl, hcells⟩ :=
      (tables_ready_iff n s).mp hready
    simp only [reset_loop, hl, hb] at hloop
    rcases Option.eq_none_or_eq_some lens[i0]? with hgl | ⟨li, hgl⟩
    · simp [hgl] at hloop
    simp only [hgl] at hloop
    by_cases hpos : li > 0
    · rw [if_pos hpos] at hloop
      rcases Option.eq_none_or_eq_some binds[i0]? with hget | ⟨b, hget⟩
      · simp [hget] at hloop
      simp only [hget] at hloop
      refine ih (i0 + 1) _ s1 hloop ((tables_ready_iff n _).mpr
        ⟨_, arr, lens, rfl, ha, rfl, by simp [hnb], hna, hnl, ?_⟩)
      intro x hx
      rcases List.mem_or_eq_of_mem_set hx with hx | rfl
      · exact hcells x hx
      · exact hcells b (List.getElem?_mem hget)
    · rw [if_neg hpos] at hloop
      exact ih (i0 + 1) s s1 hloop hready

/-- The loop of the deferred fetch on a well-formed statement returns a well-formed
statement. -/
theorem fetch_varlength_loop_ready (fetch : FetchColumn) (n : Nat) :
    ∀ (k i0 : Nat) (s : STMT) (h : Heap), tables_ready n s → i0 + k = n →
      ∃ s1 h1, fetch_varlength_loop fetch k i0 s h = some (s1, h1) ∧ tables_ready n s1 := by
  intro k
  induction k with
  | zero =>
    intro i0 s h hready _
    exact ⟨s, h, rfl, hready⟩
  | succ k ih =>
    intro i0 s h hready hk
    obtain ⟨s1, h1, hstep, hready1, -, -⟩ :=
      fetch_varlength_column_spec fetch n i0 s h hready (by omega)
    obtain ⟨s2, h2, hloop, hready2⟩ := ih (i0 + 1) s1 h1 hready1 (by omega)
    refine ⟨s2, h2, ?_, hready2⟩
    simp only [fetch_varlength_loop, hstep]
    exact hloop

/-- The deferred fetch on a well-formed statement with at least one column returns a
well-formed statement. -/
theorem fetch_varlength_columns_ready (fetch : FetchColumn) (s : STMT) (h : Heap)
    (hready : tables_ready (field_count s) s) (hpos : 0 < field_count s) :
    ∃ s1 h1, fetch_varlength_columns fetch s h = some (s1, h1)
      ∧ tables_ready (field_count s) s1 := by
  obtain ⟨s1, h1, hloop, hready1⟩ :=
    fetch_varlength_loop_ready fetch (field_count s) (field_count s) 0 s h hready (by omega)
  refine ⟨s1, h1, ?_, hready1⟩
  obtain ⟨binds, arr, lens, hb, -, -, hnb, -⟩ := (tables_ready_iff _ s1).mp hready1
  simp only [fetch_varlength_columns, hloop, hb]
  cases binds with
  | nil => simp at hnb; omega
  | cons x xs => rfl

theorem tables_ready_bound (n : Nat) (s : STMT) (hready : tables_ready n s) :
    s.result_bind ≠ none := by
  obtain ⟨binds, arr, lens, hb, -⟩ := (tables_ready_iff n s).mp hready
  rw [hb]
  exact Option.some_ne_none _

/-- Every call keeps the tables of a statement with deferred columns well-formed. -/
theorem tables_ready_call (p : Platform) (n : Nat) (s s1 : STMT) (hcall : Call p s s1)
    (hn : field_count s = n) (hpos : 0 < n) (hready : tables_ready n s) :
    tables_ready n s1 := by
  cases hcall with
  | row row => exact tables_ready_row n row s hready
  | fetch fetch _ _ h h1 hfetch =>
    subst hn
    obtain ⟨s2, h2, hret, hready2⟩ := fetch_varlength_columns_ready fetch s h hready hpos
    rw [hret] at hfetch
    simp only [Option.some.injEq, Prod.mk.injEq] at hfetch
    rw [← hfetch.1]
    exact hready2
  | bind _ _ h h1 r hbind =>
    obtain ⟨binds, hb⟩ := Option.ne_none_iff_exists'.mp (tables_ready_bound n s hready)
    rcases Bool.eq_false_or_eq_true s.fix_fields with hfix | hfix
    · rcases Option.eq_none_or_eq_some (reset_loop (field_count s) 0 s) with hnone | ⟨s2, hs2⟩
      · simp [ssps_bind_result, hb, hfix, hnone] at hbind
      have : (r, s1, h1) = (0, s2, h) := by
        simpa [ssps_bind_result, hb, hfix, hs2] using hbind.symm
      simp only [Prod.mk.injEq] at this
      obtain ⟨-, rfl, -⟩ := this
      exact tables_ready_reset_loop n _ 0 s s1 hs2 hready
    · have : (r, s1, h1) = (0, s, h) := by
        simpa [ssps_bind_result, hb, hfix] using hbind.symm
      simp only [Prod.mk.injEq] at this
      obtain ⟨-, rfl, -⟩ := this
      exact hready

/-- A statement bound for `n` columns in which column `i` is deferred. -/
theorem bound_deferred_later (p : Platform) (n i : Nat) (s s1 : STMT)
    (hlater : Later p s s1)
    (hinv : tables_ready n s ∧ deferred_column_ready n i s) :
    tables_ready n s1 ∧ deferred_column_ready n i s1 := by
  induction hlater with
  | refl => exact hinv
  | step s1 s2 _ hcall ih =>
    exact ⟨tables_ready_call p n s1 s2 hcall ih.2.2.2.1 (by have := ih.2.1; omega) ih.1,
      deferred_column_ready_call p n i s1 s2 hcall ih.2⟩

/-! ## Sequences of calls after the first bind -/

/-- The first bind with an allocator that refuses nothing leaves the tables in place
and every column it found without a buffer, of a type other than NULL, ready for the
deferred fetch. -/
theorem first_bind_deferred_ready (p : Platform) (s first : STMT) (h h1 : Heap) (r : Int)
    (i : Nat) (b0 : MYSQL_BIND) (hu : unbound s) (hn : never_refuses h)
    (hfirst : ssps_bind_result p s h = some (r, first, h1))
    (hcol : col_rbind first i = some b0) (hdef : b0.buffer = none)
    (hty : b0.buffer_type ≠ MYSQL_TYPE_NULL) :
    tables_ready (field_count s) first ∧ deferred_column_ready (field_count s) i first := by
  obtain ⟨s1, h2, binds, arr, hcall, hb, ha, hf, hnb, hna, hcols, hyes, -⟩ :=
    ssps_bind_result_first p s h hu.1 hn
  rw [hcall] at hfirst
  simp only [Option.some.injEq, Prod.mk.injEq] at hfirst
  obtain ⟨-, rfl, -⟩ := hfirst
  have hget : binds[i]? = some b0 := by simpa [col_rbind, hb] using hcol
  have hi : i < field_count s := by
    have := getElem?_lt_length binds i b0 hget
    omega
  obtain ⟨hfix, hl⟩ := hyes ⟨b0, List.getElem?_mem hget, hdef, hty⟩
  have hcell : ∀ (m : Nat) (b : MYSQL_BIND), binds[m]? = some b → b.length = some 0 := by
    intro m b hm
    have hlt : m < s.fields.length := by
      have := getElem?_lt_length binds m b hm
      rw [field_count] at hnb
      omega
    obtain ⟨hi1, b1, g1, -, -, -, -, -, -, g8, -⟩ :=
      hcols m s.fields[m] (List.getElem?_eq_getElem hlt)
    rw [hm] at g1
    cases g1
    exact g8
  have hcached : ∀ m, m < field_count s → cached_at s1 m = some 0 := by
    intro m hm
    simp only [cached_at, hl]
    rw [List.getElem?_replicate]
    simp [hm]
  refine ⟨(tables_ready_iff _ _).mpr ⟨binds, arr, _, hb, ha, hl, hnb, hna, by simp, ?_⟩,
    hi, hfix, by rw [field_count, hf, field_count], ?_, ?_⟩
  · intro b hmem
    obtain ⟨m, hm⟩ := List.mem_iff_getElem?.mp hmem
    rw [hcell m b hm]
    exact Option.some_ne_none _
  · intro m hm
    have hlt : m < binds.length := by omega
    exact ⟨binds[m], 0, by simp [col_rbind, hb, List.getElem?_eq_getElem hlt], hcached m hm⟩
  · have hlt : i < s.fields.length := hi
    obtain ⟨hi1, b1, g1, g2, g3, -, g5, g6, -⟩ :=
      hcols i s.fields[i] (List.getElem?_eq_getElem hlt)
    rw [hget] at g1
    cases g1
    obtain ⟨e1, e2, e3⟩ := allocate_buffer_for_field_parts p hi1 s.fields[i]
    have hsize : b0.buffer_length = 0 := by
      rw [g6, e2]
      exact (e3 g3).2.mp (by rw [← g5]; exact hdef)
    refine ⟨b0, 0, b0.buffer, hcol, hcached i hi, by simp [scratch_at, ha, g2], fun _ => ?_⟩
    exact ⟨hdef, hsize, hdef⟩

/-- The deferred fetch on a well-formed statement returns, and a column whose buffer is
empty and whose length cell holds `len` ends with a capacity that covers `len`. -/
theorem fetch_varlength_columns_covers (fetch : FetchColumn) (stmt : STMT) (h : Heap)
    (i len : Nat) (b : MYSQL_BIND)
    (hready : tables_ready (field_count stmt) stmt)
    (hcol : col_rbind stmt i = some b) (hbuf : b.buffer = none) (hlen : b.length = some len) :
    ∃ stmt1 h1 b1, fetch_varlength_columns fetch stmt h = some (stmt1, h1)
      ∧ col_rbind stmt1 i = some b1 ∧ len ≤ b1.buffer_length := by
  obtain ⟨stmt1, h1, hloop, b1, hcol1, hcap⟩ :=
    fetch_varlength_loop_covers fetch (field_count stmt) i len (field_count stmt) 0 stmt h
      hready (by omega) (Or.inl ⟨Nat.zero_le _, b, hcol, hbuf, hlen⟩)
  refine ⟨stmt1, h1, b1, ?_, hcol1, hcap⟩
  simp only [fetch_varlength_columns, hloop]
  cases hrb : stmt1.result_bind with
  | none => simp [col_rbind, hrb] at hcol1
  | some l =>
    cases l with
    | nil => simp [col_rbind, hrb] at hcol1
    | cons x xs => rfl

/-- A rebind of a statement with deferred columns returns 0 and allocates nothing. -/
theorem rebind_returns (p : Platform) (n i : Nat) (s : STMT) (h : Heap)
    (hinv : deferred_column_ready n i s) :
    ∃ s1, ssps_bind_result p s h = some (0, s1, h) := by
  obtain ⟨hi, hfix, hcount, hall, b, -, -, hcb, -⟩ := hinv
  obtain ⟨s1, hs1⟩ := reset_loop_returns n 0 s (fun m _ hm => hall m (by omega))
  obtain ⟨binds, hb⟩ := Option.ne_none_iff_exists'.mp (col_rbind_bound s i b hcb)
  exact ⟨s1, by simp [ssps_bind_result, hb, hfix, hcount, hs1]⟩

/-- One call never lowers the cached length of a deferred column. -/
theorem cached_length_call (p : Platform) (n i li : Nat) (s s1 : STMT)
    (hcall : Call p s s1) (hinv : deferred_column_ready n i s)
    (hcached : cached_at s i = some li) :
    ∃ li1, cached_at s1 i = some li1 ∧ li ≤ li1 := by
  obtain ⟨hi, hfix, hcount, -, b, li0, -, hcb, hcl, -⟩ := hinv
  rw [hcached] at hcl
  cases hcl
  cases hcall with
  | row row =>
    obtain ⟨-, -, -, -, hun⟩ := mysql_stmt_fetch_view row s
    obtain ⟨-, -, -, -, g4, -⟩ := untouched_keeps s _ i b (hun i) hcb
    exact ⟨li, by rw [g4, hcached], le_refl _⟩
  | fetch fetch _ _ h h1 hfetch =>
    obtain ⟨-, -, -, hin, -⟩ := fetch_varlength_columns_view fetch s s1 h h1 hfetch
    obtain ⟨-, l1, -, g2, g3, -⟩ :=
      refetched_keeps s s1 i b li (hin i (by omega)) hcb hcached
    exact ⟨l1, g2, g3⟩
  | bind _ _ h h1 r hbind =>
    obtain ⟨-, -, -, -, -, -, -, hon⟩ := ssps_bind_result_rebind_view p s s1 h h1 r
      (col_rbind_bound s i b hcb) hbind
    obtain ⟨g1, -⟩ := rebound_keeps s s1 i b ((hon hfix).2 i (by omega)) hcb
    exact ⟨li, by rw [g1, hcached], le_refl _⟩

theorem cached_length_later (p : Platform) (n i li : Nat) (s s1 : STMT)
    (hlater : Later p s s1)
    (hinv : tables_ready n s ∧ deferred_column_ready n i s)
    (hcached : cached_at s i = some li) :
    ∃ li1, cached_at s1 i = some li1 ∧ li ≤ li1 := by
  induction hlater with
  | refl => exact ⟨li, hcached, le_refl _⟩
  | step s1 s2 hl hcall ih =>
    obtain ⟨l1, g1, g2⟩ := ih
    obtain ⟨l2, g3, g4⟩ := cached_length_call p n i l1 s1 s2 hcall
      (bound_deferred_later p n i s s1 hl hinv).2 g1
    exact ⟨l2, g3, by omega⟩

/-- The sample sequence on the one-column statement: a row of length 5 is fetched and
then fetched again by the deferred fetch. -/
theorem blob_sequence : Later host blob_bound blob_fetched :=
  Later.step blob_bound (mysql_stmt_fetch (row_of_length 5) blob_bound) blob_fetched
    (Later.step blob_bound blob_bound _ (Later.refl blob_bound)
      (Call.row (row_of_length 5) blob_bound))
    (Call.fetch refetch (mysql_stmt_fetch (row_of_length 5) blob_bound) blob_fetched
      ⟨106, []⟩ ⟨107, []⟩ rfl)

/-- The sample sequence on the two-column statement: a row is fetched, fetched again by
the deferred fetch, and the statement is bound again. -/
theorem mixed_sequence : Later host mixed_bound mixed_rebound :=
  Later.step mixed_bound mixed_fetched mixed_rebound
    (Later.step mixed_bound (mysql_stmt_fetch mixed_row mixed_bound) mixed_fetched
      (Later.step mixed_bound mixed_bound _ (Later.refl mixed_bound)
        (Call.row mixed_row mixed_bound))
      (Call.fetch refetch (mysql_stmt_fetch mixed_row mixed_bound) mixed_fetched
        ⟨107, []⟩ ⟨108, []⟩ rfl))
    (Call.bind mixed_fetched mixed_rebound ⟨108, []⟩ ⟨108, []⟩ 0 rfl)

/-- Claim C18. A statement is bound for the first time (by an allocator that grants
every request) and column `i` is identified as deferred: it received no buffer and is
not of the NULL type. In every state reached from there by row fetches, deferred
fetches (`fetch_varlength_columns`) and binds, a further `ssps_bind_result` returns 0,
allocates nothing and leaves column `i` with an empty buffer and capacity 0; the
deferred fetch of whatever row comes next then returns and gives the column a capacity
that covers the length reported for that row. -/
theorem rebind_resets_deferred_column (p : Platform) (stmt0 first s : STMT)
    (h0 h1 : Heap) (r : Int) (i : Nat) (b0 : MYSQL_BIND)
    (hfresh : unbound stmt0) (hgrant : never_refuses h0)
    (hfirst : ssps_bind_result p stmt0 h0 = some (r, first, h1))
    (hcol : col_rbind first i = some b0) (hdef : b0.buffer = none)
    (hty : b0.buffer_type ≠ MYSQL_TYPE_NULL)
    (hlater : Later p first s) (h : Heap) :
    ∃ s1 b1, ssps_bind_result p s h = some (0, s1, h)
      ∧ col_rbind s1 i = some b1 ∧ b1.buffer = none ∧ b1.buffer_length = 0
      ∧ ∀ (row : Nat → RowCells) (fetch : FetchColumn) (h2 : Heap), ∃ s2 h3 b2,
          fetch_varlength_columns fetch (mysql_stmt_fetch row s1) h2 = some (s2, h3)
          ∧ col_rbind s2 i = some b2 ∧ (row i).length ≤ b2.buffer_length := by
  have hinv := bound_deferred_later p (field_count stmt0) i first s hlater
    (first_bind_deferred_ready p stmt0 first h0 h1 r i b0 hfresh hgrant hfirst hcol hdef hty)
  obtain ⟨s1, hs1⟩ := rebind_returns p (field_count stmt0) i s h hinv.2
  have hinv1 := bound_deferred_later p (field_count stmt0) i s s1
    (Later.step s s s1 (Later.refl s) (Call.bind s s1 h h 0 hs1)) hinv
  obtain ⟨hready, hi, hfix, hcount, hall, b, li, ai, hcb, hcl, hcs, hzero⟩ := hinv
  obtain ⟨-, -, -, -, -, -, -, hon⟩ := ssps_bind_result_rebind_view p s s1 h h 0
    (col_rbind_bound s i b hcb) hs1
  obtain ⟨-, -, l0, g3, g4, g5⟩ := rebound_keeps s s1 i b ((hon hfix).2 i (by omega)) hcb
  rw [hcl] at g3
  cases g3
  have hreset : ∃ b1, col_rbind s1 i = some b1 ∧ b1.buffer = none ∧ b1.buffer_length = 0 := by
    rcases Nat.eq_zero_or_pos li with hz | hpos
    · exact ⟨b, g5 hz, (hzero hz).1, (hzero hz).2.1⟩
    · exact ⟨_, g4 hpos, rfl, rfl⟩
  obtain ⟨b1, hc1, hb1, hl1⟩ := hreset
  refine ⟨s1, b1, hs1, hc1, hb1, hl1, fun row fetch h2 => ?_⟩
  have hready1 := tables_ready_row (field_count stmt0) row s1 hinv1.1
  have hcount1 : field_count (mysql_stmt_fetch row s1) = field_count stmt0 := hinv1.2.2.2.1
  have hlen : b1.length ≠ none := by
    obtain ⟨binds, -, -, hb, -, -, -, -, -, hcells⟩ := (tables_ready_iff _ s1).mp hinv1.1
    have hget : binds[i]? = some b1 := by simpa [col_rbind, hb] using hc1
    exact hcells b1 (List.getElem?_mem hget)
  obtain ⟨len, hlen⟩ := Option.ne_none_iff_exists'.mp hlen
  rw [← hcount1] at hready1
  exact fetch_varlength_columns_covers fetch (mysql_stmt_fetch row s1) h2 i (row i).length
    (write_cells b1 (row i)) hready1 (by rw [mysql_stmt_fetch_col_rbind, hc1]; rfl)
    (by rw [(write_cells_buffer b1 (row i)).1]; exact hb1) (by simp [write_cells, hlen])

theorem rebind_resets_deferred_column_witness :
    ∃ s1 b1, ssps_bind_result host blob_fetched ⟨107, []⟩ = some (0, s1, ⟨107, []⟩)
      ∧ col_rbind s1 0 = some b1 ∧ b1.buffer = none ∧ b1.buffer_length = 0
      ∧ ∀ (row : Nat → RowCells) (fetch : FetchColumn) (h2 : Heap), ∃ s2 h3 b2,
          fetch_varlength_columns fetch (mysql_stmt_fetch row s1) h2 = some (s2, h3)
          ∧ col_rbind s2 0 = some b2 ∧ (row 0).length ≤ b2.buffer_length :=
  rebind_resets_deferred_column host blob_statement blob_bound blob_fetched ⟨100, []⟩
    ⟨106, []⟩ 0 0 blob_bind
    (by decide) (by decide) rfl rfl rfl (by decide) blob_sequence ⟨107, []⟩

/-- Claim C19. A statement is bound for the first time and column `i` receives a
buffer. In every state reached from there by row fetches, deferred fetches
(`fetch_varlength_columns`) and binds (`ssps_bind_result`), column `i` has the buffer
and the capacity it was given at the first bind. -/
theorem fixed_column_never_changes (p : Platform) (stmt0 first s : STMT)
    (h0 h1 : Heap) (r : Int) (i : Nat) (b0 : MYSQL_BIND)
    (hfresh : unbound stmt0)
    (hfirst : ssps_bind_result p stmt0 h0 = some (r, first, h1))
    (hcol : col_rbind first i = some b0) (hbuf : b0.buffer ≠ none)
    (hlater : Later p first s) :
    ∃ b, col_rbind s i = some b ∧ b.buffer = b0.buffer
      ∧ b.buffer_length = b0.buffer_length := by
  have hstart : fixed_column_kept i b0.buffer b0.buffer_length first :=
    ⟨⟨b0, hcol, rfl, rfl⟩, ssps_bind_result_first_cached p stmt0 first h0 h1 r hfresh hfirst i⟩
  exact (fixed_column_kept_later p i b0.buffer b0.buffer_length hbuf first s hlater hstart).1

theorem fixed_column_never_changes_witness :
    ∃ b, col_rbind mixed_rebound 0 = some b ∧ b.buffer = some 105 ∧ b.buffer_length = 4 :=
  fixed_column_never_changes host mixed_statement mixed_bound mixed_rebound ⟨100, []⟩
    ⟨107, []⟩ 0 0 (long_bind 0) (by decide) rfl rfl (by decide) mixed_sequence

/-- Claim C20. A statement is bound for the first time (by an allocator that grants
every request) and column `i` is identified as deferred. In every state `s` reached
from there by row fetches, deferred fetches and binds, the column has a cached length
`li` and a scratch entry, and: (1) along every further sequence of calls the cached
length stays at least `li`; (2) a deferred fetch returns, and it changes the cached
length only if the column had no buffer and the reported length `len` exceeded `li`,
the new value being exactly `len`; when the buffer is empty the new value is
`max li len` and with `len ≤ li` the scratch entry is kept; when no column without a
buffer reports more than its cached length, nothing is allocated and the cached lengths
and the scratch array are what they were; (3) a rebind returns 0, allocates nothing
and leaves cached lengths and scratch array alone. -/
theorem cached_length_never_decreases (p : Platform) (stmt0 first s : STMT)
    (h0 h1 : Heap) (r : Int) (i : Nat) (b0 : MYSQL_BIND)
    (hfresh : unbound stmt0) (hgrant : never_refuses h0)
    (hfirst : ssps_bind_result p stmt0 h0 = some (r, first, h1))
    (hcol : col_rbind first i = some b0) (hdef : b0.buffer = none)
    (hty : b0.buffer_type ≠ MYSQL_TYPE_NULL)
    (hlater : Later p first s) :
    ∃ b li ai, col_rbind s i = some b ∧ cached_at s i = some li ∧ scratch_at s i = some ai
      ∧ (∀ s2, Later p s s2 → ∃ li2, cached_at s2 i = some li2 ∧ li ≤ li2)
      ∧ (∀ (fetch : FetchColumn) (h : Heap), ∃ s1 h2 li1,
          fetch_varlength_columns fetch s h = some (s1, h2) ∧ cached_at s1 i = some li1
          ∧ (li1 ≠ li → b.buffer = none ∧ ∃ len, b.length = some len ∧ li < len ∧ li1 = len)
          ∧ (b.buffer = none → ∃ len, b.length = some len ∧ li1 = max li len
              ∧ (len ≤ li → scratch_at s1 i = some ai))
          ∧ ((∀ m bm len lm, col_rbind s m = some bm → bm.buffer = none →
                bm.length = some len → cached_at s m = some lm → len ≤ lm) →
              h2 = h ∧ s1.lengths = s.lengths ∧ s1.array = s.array))
      ∧ (∀ h : Heap, ∃ s1, ssps_bind_result p s h = some (0, s1, h)
          ∧ s1.lengths = s.lengths ∧ s1.array = s.array) := by
  have hinv := bound_deferred_later p (field_count stmt0) i first s hlater
    (first_bind_deferred_ready p stmt0 first h0 h1 r i b0 hfresh hgrant hfirst hcol hdef hty)
  obtain ⟨hready, hi, hfix, hcount, hall, b, li, ai, hcb, hcl, hcs, hzero⟩ := hinv
  refine ⟨b, li, ai, hcb, hcl, hcs, ?_, ?_, ?_⟩
  · intro s2 hl2
    exact cached_length_later p (field_count stmt0) i li s s2 hl2
      ⟨hready, hi, hfix, hcount, hall, b, li, ai, hcb, hcl, hcs, hzero⟩ hcl
  · intro fetch h
    rw [← hcount] at hready
    obtain ⟨s1, h2, hret, -⟩ := fetch_varlength_columns_ready fetch s h hready (by omega)
    obtain ⟨-, -, -, hin, hgrow⟩ := fetch_varlength_columns_view fetch s s1 h h2 hret
    obtain ⟨b1, l1, -, g2, g3, gsome, gnone⟩ :=
      refetched_keeps s s1 i b li (hin i (by omega)) hcb hcl
    refine ⟨s1, h2, l1, hret, g2, fun hne => ?_, fun hbuf => ?_, hgrow⟩
    · by_cases hbuf : b.buffer = none
      · obtain ⟨len, -, e1, -, e3, -⟩ := gnone hbuf
        refine ⟨hbuf, len, e1, ?_, ?_⟩ <;> omega
      · exact absurd (gsome hbuf).2.2.1 hne
    · obtain ⟨len, ai0, e1, e2, e3, -, e5, e6⟩ := gnone hbuf
      rw [hcs] at e2
      cases e2
      exact ⟨len, e1, e3, fun hle => by rw [e5, e6 hle]⟩
  · intro h
    obtain ⟨s1, hs1⟩ := rebind_returns p (field_count stmt0) i s h
      ⟨hi, hfix, hcount, hall, b, li, ai, hcb, hcl, hcs, hzero⟩
    obtain ⟨-, -, -, -, e1, e2, -⟩ := ssps_bind_result_rebind_view p s s1 h h 0
      (col_rbind_bound s i b hcb) hs1
    exact ⟨s1, hs1, e1, e2⟩

theorem cached_length_never_decreases_witness :
    ∃ li, cached_at blob_fetched 0 = some li
      ∧ (∀ s2, Later host blob_fetched s2 → ∃ li2, cached_at s2 0 = some li2 ∧ li ≤ li2)
      ∧ (∀ h : Heap, ∃ s1, ssps_bind_result host blob_fetched h = some (0, s1, h)
          ∧ s1.lengths = blob_fetched.lengths ∧ s1.array = blob_fetched.array) := by
  obtain ⟨b, li, ai, -, hcached, -, hmono, -, hrebind⟩ :=
    cached_length_never_decreases host blob_statement blob_bound blob_fetched ⟨100, []⟩
      ⟨106, []⟩ 0 0 blob_bind (by decide) (by decide) rfl rfl rfl (by decide) blob_sequence
  exact ⟨li, hcached, hmono, hrebind⟩

/-! ## Columns the deferred fetch touches -/

/-- Claim C21. The code on a statement with a BLOB column and a column of the NULL
type, which the binder did not count as deferred (`blob_null_bound` is what the first
bind returns). When the row reports length 3 for the NULL-typed column, the deferred
fetch gives that column the block 107 as buffer and scratch entry and the capacity 3,
where it had no buffer, capacity 0 and no scratch entry. When the row reports length 0
for it, buffer, capacity and scratch entry stay, but the column re-fetch is still
issued for column 1: it ran last and left its length 41 in the cells of the first
binding. -/
theorem fetch_varlength_touches_null_typed_column :
    (ssps_bind_result host blob_null_statement ⟨100, []⟩).map (fun r => r.2.1)
      = some blob_null_bound
    ∧ column_state (mysql_stmt_fetch (blob_null_row 3 false) blob_null_bound) 1
      = (some (none, 0, some 3), some none, some 0)
    ∧ (fetch_varlength_columns numbered
        (mysql_stmt_fetch (blob_null_row 3 false) blob_null_bound) ⟨106, []⟩).map
          (fun r => column_state r.1 1)
      = some (some (some 107, 3, some 3), some (some 107), some 3)
    ∧ (fetch_varlength_columns numbered
        (mysql_stmt_fetch (blob_null_row 0 true) blob_null_bound) ⟨106, []⟩).map
          (fun r => (column_state r.1 1, column_state r.1 0))
      = some ((some (none, 0, some 0), some none, some 0),
              (some (some 106, 5, some 41), some (some 106), some 5)) := by
  refine ⟨rfl, rfl, rfl, rfl⟩

/-! ## Refused allocations -/

/-- Claim C23. The code with an allocator that refuses a request. (1) The buffer of
the LONG column of `mixed_statement` is refused (sixth request): `ssps_bind_result`
returns 0 and the column is bound without a buffer, capacity 4. (2) The cache of
lengths of `blob_statement` is refused: it returns 0 with `fix_fields` set and no
cache. (3) The three arrays of cells are refused: it returns 0 and the binding holds
three invalid pointers. (4) The growth of the scratch buffer to 5 bytes is refused in
`fetch_varlength_columns`: the call returns, the cached length and the capacity are 5,
buffer and scratch entry are NULL. -/
theorem refused_allocations_not_reported :
    (ssps_bind_result host mixed_statement ⟨100, [false, false, false, false, false, true]⟩).map
        (fun r => (r.1, column_state r.2.1 0))
      = some (0, some (none, 4, some 0), some none, some 0)
    ∧ (ssps_bind_result host blob_statement ⟨100, [false, false, false, false, false, true]⟩).map
        (fun r => (r.1, r.2.1.fix_fields, r.2.1.lengths))
      = some (0, true, none)
    ∧ (ssps_bind_result host blob_statement ⟨100, [true, true, true]⟩).map
        (fun r => (r.1, (col_rbind r.2.1 0).map (fun b => (b.length, b.is_null, b.error))))
      = some (0, some (none, none, none))
    ∧ (fetch_varlength_columns refetch (blob_row 5) ⟨106, [true]⟩).map
        (fun r => column_state r.1 0)
      = some (some (none, 5, some 5), some none, some 5) := by
  refine ⟨rfl, rfl, rfl, rfl⟩

/-! ## Temporal columns read as integers -/

theorem digits_value_zeros (k : Nat) (xs : List Char) :
    digits_value (List.replicate k '0' ++ xs) = digits_value xs := by
  induction k with
  | zero => rfl
  | succ k ih =>
    have hstep : digits_value ('0' :: (List.replicate k '0' ++ xs))
        = digits_value (List.replicate k '0' ++ xs) := by
      simp [digits_value]
    rw [List.replicate_succ, List.cons_append, hstep, ih]

theorem digits_value_fmt_0u (w n : Nat) : digits_value (fmt_0u w n) = n := by
  rw [fmt_0u, digits_value_zeros, digits_value_fmt_u]

theorem fmt_0u_four_length (n : Nat) (hn : n ≤ 9999) : (fmt_0u 4 n).length = 4 := by
  rw [fmt_0u_eq_zero_padded 3 n (by omega), zero_padded_length]

/-- The library function `strtoll` on a non-empty run of digits followed by a character
that is not a digit: the value of the run. -/
theorem strtoll_digits_then (ds rest : List Char) (c0 : Char) (hne : ds ≠ [])
    (hd : ∀ c ∈ ds, c.isDigit = true) (hstop : c0.isDigit = false)
    (hv : digits_value ds < 2 ^ 63) :
    strtoll (ds ++ c0 :: rest) = (digits_value ds : Int) := by
  obtain ⟨c, tl, rfl⟩ := List.exists_cons_of_ne_nil hne
  have hc : c.isDigit = true := hd c (List.mem_cons_self _ _)
  obtain ⟨hsp, hminus, hplus⟩ := isDigit_not_space c hc
  have hdrop : (c :: tl ++ c0 :: rest).dropWhile isspace = c :: tl ++ c0 :: rest := by
    rw [List.cons_append, List.dropWhile_cons_of_neg (by simp [hsp])]
  have hhead : (c :: tl ++ c0 :: rest).head? = some c := rfl
  have htake : (c :: tl ++ c0 :: rest).takeWhile Char.isDigit = c :: tl := by
    rw [List.takeWhile_append_of_pos hd, List.takeWhile_cons_of_neg (by simp [hstop]),
      List.append_nil]
  unfold strtoll
  simp only [hdrop, hhead, Option.some.injEq, hminus, hplus, or_self, if_false, htake,
    decide_False]
  norm_num
  omega

theorem take_digits_then (ds rest : List Char) (c0 : Char) (k : Nat)
    (hk : ds.length < k) :
    (ds ++ c0 :: rest).take k = ds ++ c0 :: rest.take (k - ds.length - 1) := by
  rw [List.take_append_eq_append_take, List.take_of_length_le (by omega)]
  obtain ⟨m, hm⟩ : ∃ m, k - ds.length = m + 1 := ⟨k - ds.length - 1, by omega⟩
  rw [hm, List.take_succ_cons]
  congr 3

theorem get_string_date_shape (t : MYSQL_TIME) (hy : t.year ≤ 9999) :
    ∃ rest, (get_string_date t).value = some (fmt_0u 4 t.year ++ '-' :: rest) := by
  have hlen4 := fmt_0u_four_length t.year hy
  simp only [get_string_date, snprintf, List.append_assoc, List.cons_append]
  rw [take_digits_then _ _ '-' _ (by omega)]
  exact ⟨_, rfl⟩

theorem get_string_datetime_shape (t : MYSQL_TIME) (hy : t.year ≤ 9999) :
    ∃ rest, (get_string_datetime t).value = some (fmt_0u 4 t.year ++ '-' :: rest) := by
  have hlen4 := fmt_0u_four_length t.year hy
  have htext : ∃ rest, snprintf 20 (fmt_0u 4 t.year ++ '-' :: fmt_0u 2 t.month
      ++ '-' :: fmt_0u 2 t.day ++ ' ' :: fmt_0u 2 t.hour ++ ':' :: fmt_0u 2 t.minute
      ++ ':' :: fmt_0u 2 t.second) = fmt_0u 4 t.year ++ '-' :: rest := by
    simp only [snprintf, List.append_assoc, List.cons_append]
    rw [take_digits_then _ _ '-' _ (by omega)]
    exact ⟨_, rfl⟩
  obtain ⟨rest, hrest⟩ := htext
  by_cases hsp : t.second_part > 0
  · simp only [get_string_datetime, hsp, if_true, hrest, write_at]
    split
    · rw [take_digits_then _ _ '-' _ (by omega), List.append_assoc, List.cons_append]
      exact ⟨_, rfl⟩
    · exact ⟨rest, rfl⟩
  · simp only [get_string_datetime, hsp, if_false, hrest]
    exact ⟨rest, rfl⟩

/-- Claim C24. For a non-null DATE, DATETIME or TIMESTAMP column with a buffer whose
year field `y` is at most 9999: the text `ssps_get_string` produces is the four digits
of `y` followed by `-` and the rest of the rendering, and `ssps_get_int64` returns what
`strtoll` reads from that text, which is `y`. -/
theorem get_int64_temporal_year (p : Platform) (mem : Memory) (stmt : STMT)
    (column_number length : Nat) (col : MYSQL_BIND) (a : Ptr)
    (hcol : col_rbind stmt column_number = some col)
    (hty : col.buffer_type = MYSQL_TYPE_DATE ∨ col.buffer_type = MYSQL_TYPE_DATETIME
      ∨ col.buffer_type = MYSQL_TYPE_TIMESTAMP)
    (hnull : col.is_null = some false) (hbuf : col.buffer = some a)
    (hy : (mem a).time.year ≤ 9999) :
    ∃ text rest len, ssps_get_string p mem stmt column_number length Dest.caller
        = some { value := some text, length := len }
      ∧ text = fmt_0u 4 (mem a).time.year ++ '-' :: rest
      ∧ (fmt_0u 4 (mem a).time.year).length = 4
      ∧ (∀ c ∈ fmt_0u 4 (mem a).time.year, c.isDigit = true)
      ∧ ssps_get_int64 p mem stmt column_number length = some (strtoll text)
      ∧ strtoll text = ((mem a).time.year : Int) := by
  have hlen4 := fmt_0u_four_length (mem a).time.year hy
  have hdig := fmt_0u_digits 4 (mem a).time.year
  have hparse : ∀ rest, strtoll (fmt_0u 4 (mem a).time.year ++ '-' :: rest)
      = ((mem a).time.year : Int) := by
    intro rest
    rw [strtoll_digits_then _ rest '-' (by intro h; rw [h] at hlen4; cases hlen4) hdig
      (by decide) (by rw [digits_value_fmt_0u]; omega), digits_value_fmt_0u]
  have hshape : ∃ r : StringResult,
      ssps_get_string p mem stmt column_number length Dest.caller = some r
      ∧ ∃ rest, r.value = some (fmt_0u 4 (mem a).time.year ++ '-' :: rest) := by
    rcases hty with h | h | h
    · exact ⟨get_string_date (mem a).time,
        by simp [ssps_get_string, hcol, hnull, h, ALLOC_IFNULL, deref_time, hbuf],
        get_string_date_shape _ hy⟩
    · exact ⟨get_string_datetime (mem a).time,
        by simp [ssps_get_string, hcol, hnull, h, ALLOC_IFNULL, deref_time, hbuf],
        get_string_datetime_shape _ hy⟩
    · exact ⟨get_string_datetime (mem a).time,
        by simp [ssps_get_string, hcol, hnull, h, ALLOC_IFNULL, deref_time, hbuf],
        get_string_datetime_shape _ hy⟩
  obtain ⟨⟨value, len⟩, hs, rest, hv⟩ := hshape
  simp only at hv
  subst hv
  refine ⟨_, rest, len, hs, rfl, hlen4, hdig, ?_, hparse rest⟩
  rcases hty with h | h | h <;> simp [ssps_get_int64, hcol, h, hs]

theorem get_int64_temporal_year_witness :
    ∃ text rest len, ssps_get_string host (memory_of_time ⟨2024, 2, 29, 23, 59, 58, 0, false⟩)
        (one_column MYSQL_TYPE_DATETIME 40 0 false false) 0 0 Dest.caller
        = some { value := some text, length := len }
      ∧ text = fmt_0u 4 2024 ++ '-' :: rest
      ∧ ssps_get_int64 host (memory_of_time ⟨2024, 2, 29, 23, 59, 58, 0, false⟩)
        (one_column MYSQL_TYPE_DATETIME 40 0 false false) 0 0 = some 2024 := by
  obtain ⟨text, rest, len, h1, h2, -, -, h5, h6⟩ :=
    get_int64_temporal_year host (memory_of_time ⟨2024, 2, 29, 23, 59, 58, 0, false⟩)
      (one_column MYSQL_TYPE_DATETIME 40 0 false false) 0 0
      (sample_bind MYSQL_TYPE_DATETIME 40 0 false false) 1 rfl (Or.inr (Or.inl rfl)) rfl rfl
      (by decide)
  exact ⟨text, rest, len, h1, h2, by rw [h5, h6]; rfl⟩

/-! ## Repeated binds -/

theorem set_same {α : Type} (l : List α) (i : Nat) (a : α) (h : l[i]? = some a) :
    l.set i a = l := by
  induction l generalizing i with
  | nil => rfl
  | cons x xs ih =>
    cases i with
    | zero =>
      simp only [List.getElem?_cons_zero, Option.some.injEq] at h
      rw [h]
      rfl
    | succ i =>
      simp only [List.getElem?_cons_succ] at h
      rw [List.set_cons_succ, ih i h]

/-- Running the reset loop on its own result changes nothing. -/
theorem reset_loop_idempotent :
    ∀ (k i0 : Nat) (s s1 : STMT), reset_loop k i0 s = some s1 →
      reset_loop k i0 s1 = some s1 := by
  intro k
  induction k with
  | zero => intro i0 s s1 _; rfl
  | succ k ih =>
    intro i0 s s1 hloop
    rcases Option.eq_none_or_eq_some s.lengths with hl | ⟨lens, hl⟩
    · simp [reset_loop, hl] at hloop
    rcases Option.eq_none_or_eq_some lens[i0]? with hgl | ⟨li, hgl⟩
    · simp [reset_loop, hl, hgl] at hloop
    by_cases hpos : li > 0
    · rcases Option.eq_none_or_eq_some s.result_bind with hb | ⟨binds, hb⟩
      · simp [reset_loop, hl, hgl, hpos, hb] at hloop
      rcases Option.eq_none_or_eq_some binds[i0]? with hget | ⟨b, hget⟩
      · simp [reset_loop, hl, hgl, hpos, hb, hget] at hloop
      have hnext : reset_loop k (i0 + 1) (reset_column s binds i0 b) = some s1 := by
        simpa [reset_loop, hl, hgl, hpos, hb, hget, reset_column] using hloop
      obtain ⟨-, -, hlen, -, hout, -⟩ := reset_loop_view k (i0 + 1) _ s1 hnext
      have hl1 : s1.lengths = some lens := by rw [hlen]; exact hl
      have hlt : i0 < binds.length := getElem?_lt_length binds i0 b hget
      have hcol : col_rbind s1 i0
          = some { b with buffer := none, buffer_length := 0 } := by
        have := congrArg ColumnView.bind (hout i0 (Or.inl (by omega)))
        rw [column_view_bind, column_view_bind] at this
        rw [this]
        simp [col_rbind, reset_column, hlt]
      obtain ⟨binds1, hb1⟩ := Option.ne_none_iff_exists'.mp (col_rbind_bound s1 i0 _ hcol)
      have hget1 : binds1[i0]? = some { b with buffer := none, buffer_length := 0 } := by
        simpa [col_rbind, hb1] using hcol
      have hsame : binds1.set i0 { b with buffer := none, buffer_length := 0 } = binds1 :=
        set_same binds1 i0 _ hget1
      simp only [reset_loop, hl1, hgl, hpos, if_true, hb1, hget1]
      rw [hsame, ← hb1, ← hl1]
      exact ih (i0 + 1) _ s1 hnext
    · have hnext : reset_loop k (i0 + 1) s = some s1 := by
        simpa [reset_loop, hl, hgl, hpos] using hloop
      obtain ⟨-, -, hlen, -⟩ := reset_loop_view k (i0 + 1) s s1 hnext
      have hl1 : s1.lengths = some lens := by rw [hlen]; exact hl
      simp only [reset_loop, hl1, hgl, hpos, if_false]
      exact ih (i0 + 1) s s1 hnext

theorem fetch_varlength_loop_count (fetch : FetchColumn) :
    ∀ (k i0 : Nat) (s s1 : STMT) (h h1 : Heap) (binds : List MYSQL_BIND),
      fetch_varlength_loop fetch k i0 s h = some (s1, h1) → s.result_bind = some binds →
      ∃ binds1, s1.result_bind = some binds1 ∧ binds1.length = binds.length := by
  intro k
  induction k with
  | zero =>
    intro i0 s s1 h h1 binds hloop hb
    simp only [fetch_varlength_loop, Option.some.injEq, Prod.mk.injEq] at hloop
    obtain ⟨rfl, -⟩ := hloop
    exact ⟨binds, hb, rfl⟩
  | succ k ih =>
    intro i0 s s1 h h1 binds hloop hb
    rcases Option.eq_none_or_eq_some (fetch_varlength_column fetch i0 s h) with hn | ⟨r, hr⟩
    · simp [fetch_varlength_loop, hn] at hloop
    obtain ⟨s2, h2⟩ := r
    simp only [fetch_varlength_loop, hr] at hloop
    obtain ⟨binds0, b, hb0, -, hcase⟩ := fetch_varlength_column_cases fetch i0 s s2 h h2 hr
    rw [hb] at hb0
    cases hb0
    have hb2 : ∃ binds2, s2.result_bind = some binds2 ∧ binds2.length = binds.length := by
      rcases hcase with ⟨-, rfl, -⟩ | ⟨-, lens, arr, len, li, ai, -, -, -, -, -, rfl, -⟩
      · exact ⟨binds, hb, rfl⟩
      · exact ⟨_, rfl, by rw [fetch_column_call_length, List.length_set]⟩
    obtain ⟨binds2, hb2, hlen2⟩ := hb2
    obtain ⟨binds1, hb1, hlen1⟩ := ih (i0 + 1) s2 s1 h2 h1 binds2 hloop hb2
    exact ⟨binds1, hb1, by omega⟩

/-- Every call keeps a statement bound for the same number of columns. -/
theorem bound_columns_call (p : Platform) (n : Nat) (s s1 : STMT) (hcall : Call p s s1)
    (hinv : bound_columns n s) : bound_columns n s1 := by
  obtain ⟨hcount, ⟨binds, hb, hlen⟩, hfix⟩ := hinv
  have hready1 : s1.fix_fields = s.fix_fields → field_count s1 = n →
      (s1.fix_fields = true → tables_ready n s1 ∧ 0 < n) := by
    intro hx _ hf
    rw [hx] at hf
    exact ⟨tables_ready_call p n s s1 hcall hcount (hfix hf).2 (hfix hf).1, (hfix hf).2⟩
  cases hcall with
  | row row =>
    refine ⟨hcount, ⟨_, by simp only [mysql_stmt_fetch, hb]; rfl, by simp [hlen]⟩,
      hready1 rfl hcount⟩
  | fetch fetch _ _ h h1 hfetch =>
    obtain ⟨hf, hx, -⟩ := fetch_varlength_columns_view fetch s s1 h h1 hfetch
    have hc1 : field_count s1 = n := by rw [field_count, hf]; exact hcount
    refine ⟨hc1, ?_, hready1 hx hc1⟩
    rcases Option.eq_none_or_eq_some (fetch_varlength_loop fetch (field_count s) 0 s h)
      with hnone | ⟨r, hr⟩
    · simp [fetch_varlength_columns, hnone] at hfetch
    obtain ⟨s2, h2⟩ := r
    have heq : s2 = s1 := by
      simp only [fetch_varlength_columns, hr] at hfetch
      split at hfetch
      · simp only [Option.some.injEq, Prod.mk.injEq] at hfetch
        exact hfetch.1
      · cases hfetch
    subst heq
    obtain ⟨binds1, hb1, hlen1⟩ := fetch_varlength_loop_count fetch _ 0 s s2 h h2 binds hr hb
    exact ⟨binds1, hb1, by omega⟩
  | bind _ _ h h1 r hbind =>
    obtain ⟨-, -, hf, hx, -, -, hoff, -⟩ := ssps_bind_result_rebind_view p s s1 h h1 r
      (by rw [hb]; exact Option.some_ne_none _) hbind
    have hc1 : field_count s1 = n := by rw [field_count, hf]; exact hcount
    refine ⟨hc1, ?_, hready1 hx hc1⟩
    rcases Bool.eq_false_or_eq_true s.fix_fields with hfx | hfx
    · have hr1 := (hready1 hx hc1 (by rw [hx]; exact hfx)).1
      obtain ⟨binds1, -, -, hb1, -, -, hn1, -⟩ := (tables_ready_iff n s1).mp hr1
      exact ⟨binds1, hb1, hn1⟩
    · rw [hoff hfx]
      exact ⟨binds, hb, hlen⟩

theorem bound_columns_later (p : Platform) (n : Nat) (s s1 : STMT) (hlater : Later p s s1)
    (hinv : bound_columns n s) : bound_columns n s1 := by
  induction hlater with
  | refl => exact hinv
  | step s1 s2 _ hcall ih => exact bound_columns_call p n s1 s2 hcall ih

/-- The first bind with an allocator that refuses nothing leaves the statement bound
for its columns. -/
theorem first_bind_bound_columns (p : Platform) (s first : STMT) (h h1 : Heap) (r : Int)
    (hu : unbound s) (hn : never_refuses h)
    (hfirst : ssps_bind_result p s h = some (r, first, h1)) :
    r = 0 ∧ bound_columns (field_count s) first := by
  obtain ⟨s1, h2, binds, arr, hcall, hb, ha, hf, hnb, hna, hcols, hyes, hno⟩ :=
    ssps_bind_result_first p s h hu.1 hn
  rw [hcall] at hfirst
  simp only [Option.some.injEq, Prod.mk.injEq] at hfirst
  obtain ⟨rfl, rfl, -⟩ := hfirst
  refine ⟨rfl, by rw [field_count, hf, field_count], ⟨binds, hb, hnb⟩, fun hfix => ?_⟩
  by_cases hd : ∃ b ∈ binds, b.buffer = none ∧ b.buffer_type ≠ MYSQL_TYPE_NULL
  · obtain ⟨b0, hmem, hdef, hty⟩ := hd
    obtain ⟨i, hi⟩ := List.mem_iff_getElem?.mp hmem
    have hready := first_bind_deferred_ready p s s1 h h2 0 i b0 hu hn hcall
      (by simp [col_rbind, hb, hi]) hdef hty
    exact ⟨hready.1, by have := hready.2.1; omega⟩
  · have := (hno hd).1
    rw [hu.2.2.2] at this
    rw [this] at hfix
    cases hfix

/-- A rebind of a bound statement returns 0, allocates nothing, keeps the number of
bindings, and a second rebind changes nothing any more. -/
theorem rebind_twice (p : Platform) (n : Nat) (s : STMT) (h : Heap)
    (hinv : bound_columns n s) :
    ∃ s1, ssps_bind_result p s h = some (0, s1, h) ∧ bound_columns n s1
      ∧ ∀ h2 : Heap, ssps_bind_result p s1 h2 = some (0, s1, h2) := by
  obtain ⟨hcount, ⟨binds, hb, hlen⟩, hfix⟩ := hinv
  rcases Bool.eq_false_or_eq_true s.fix_fields with hfx | hfx
  · obtain ⟨hready, hpos⟩ := hfix hfx
    obtain ⟨binds0, arr, lens, hb0, ha, hl, hnb, hna, hnl, hcells⟩ :=
      (tables_ready_iff n s).mp hready
    obtain ⟨s1, hs1⟩ := reset_loop_returns n 0 s (fun m _ hm => by
      have h1 : m < binds0.length := by omega
      have h2 : m < lens.length := by omega
      exact ⟨binds0[m], lens[m], by simp [col_rbind, hb0, List.getElem?_eq_getElem h1],
        by simp [cached_at, hl, List.getElem?_eq_getElem h2]⟩)
    have hcall : ssps_bind_result p s h = some (0, s1, h) := by
      simp [ssps_bind_result, hb, hfx, hcount, hs1]
    have hinv1 := bound_columns_call p n s s1 (Call.bind s s1 h h 0 hcall)
      ⟨hcount, ⟨binds, hb, hlen⟩, hfix⟩
    obtain ⟨-, hx, -⟩ := reset_loop_view n 0 s s1 hs1
    obtain ⟨binds1, hb1, -⟩ := hinv1.2.1
    refine ⟨s1, hcall, hinv1, fun h2 => ?_⟩
    have hidem := reset_loop_idempotent n 0 s s1 hs1
    simp [ssps_bind_result, hb1, hx, hfx, hinv1.1, hidem]
  · refine ⟨s, by simp [ssps_bind_result, hb, hfx], ⟨hcount, ⟨binds, hb, hlen⟩, hfix⟩,
      fun h2 => by simp [ssps_bind_result, hb, hfx]⟩

/-- Claim C22. A statement is bound for the first time (by an allocator that grants
every request); the table then has one binding per column. In every state reached
from there by row fetches, deferred fetches and binds, `ssps_bind_result` returns 0
and allocates nothing, the statement it leaves is not changed by a further
`ssps_bind_result` (binding table, scratch array, cached lengths and deferred flag
included, whatever the allocator), and before and after the call the table has one
binding per column of the statement. -/
theorem bind_result_idempotent (p : Platform) (stmt0 first s : STMT)
    (h0 h1 : Heap) (r : Int)
    (hfresh : unbound stmt0) (hgrant : never_refuses h0)
    (hfirst : ssps_bind_result p stmt0 h0 = some (r, first, h1))
    (hlater : Later p first s) (h : Heap) :
    ∃ s1 binds binds1, ssps_bind_result p s h = some (0, s1, h)
      ∧ (∀ h2 : Heap, ssps_bind_result p s1 h2 = some (0, s1, h2))
      ∧ s.result_bind = some binds ∧ s1.result_bind = some binds1
      ∧ binds.length = field_count stmt0 ∧ binds1.length = field_count stmt0
      ∧ field_count s = field_count stmt0 ∧ field_count s1 = field_count stmt0 := by
  have hinv := bound_columns_later p (field_count stmt0) first s hlater
    (first_bind_bound_columns p stmt0 first h0 h1 r hfresh hgrant hfirst).2
  obtain ⟨s1, hcall, hinv1, htwice⟩ := rebind_twice p (field_count stmt0) s h hinv
  obtain ⟨hc, ⟨binds, hb, hlen⟩, -⟩ := hinv
  obtain ⟨hc1, ⟨binds1, hb1, hlen1⟩, -⟩ := hinv1
  exact ⟨s1, binds, binds1, hcall, htwice, hb, hb1, hlen, hlen1, hc, hc1⟩

theorem bind_result_idempotent_witness :
    ∃ s1 binds binds1, ssps_bind_result host mixed_fetched ⟨108, []⟩ = some (0, s1, ⟨108, []⟩)
      ∧ (∀ h2 : Heap, ssps_bind_result host s1 h2 = some (0, s1, h2))
      ∧ mixed_fetched.result_bind = some binds ∧ s1.result_bind = some binds1
      ∧ binds.length = 2 ∧ binds1.length = 2 := by
  obtain ⟨s1, binds, binds1, g1, g2, g3, g4, g5, g6, -, -⟩ :=
    bind_result_idempotent host mixed_statement mixed_bound mixed_fetched ⟨100, []⟩
      ⟨107, []⟩ 0 (by decide) (by decide) rfl
      (Later.step mixed_bound (mysql_stmt_fetch mixed_row mixed_bound) mixed_fetched
        (Later.step mixed_bound mixed_bound _ (Later.refl mixed_bound)
          (Call.row mixed_row mixed_bound))
        (Call.fetch refetch (mysql_stmt_fetch mixed_row mixed_bound) mixed_fetched
          ⟨107, []⟩ ⟨108, []⟩ rfl))
      ⟨108, []⟩
  exact ⟨s1, binds, binds1, g1, g2, g3, g4, g5, g6⟩

/-! ## Buffers and capacities when every allocation succeeds -/

theorem granted_call (p : Platform) (s s1 : STMT) (hcall : GrantedCall p s s1) :
    Call p s s1 := by
  cases hcall with
  | row row => exact Call.row row s
  | fetch fetch _ _ h h1 _ hfetch => exact Call.fetch fetch s s1 h h1 hfetch
  | bind _ _ h h1 r _ hbind => exact Call.bind s s1 h h1 r hbind

theorem granted_later (p : Platform) (s s1 : STMT) (hlater : GrantedLater p s s1) :
    Later p s s1 := by
  induction hlater with
  | refl => exact Later.refl s
  | step s1 s2 _ hcall ih => exact Later.step s s1 s2 ih (granted_call p s1 s2 hcall)

/-- One iteration of the deferred fetch with an allocator that refuses nothing: when
the column had no buffer and reported more than its cached length, its scratch entry
is a block afterwards. -/
theorem fetch_varlength_column_granted (fetch : FetchColumn) (j : Nat) (s s1 : STMT)
    (h h1 : Heap) (hn : never_refuses h)
    (hstep : fetch_varlength_column fetch j s h = some (s1, h1)) :
    never_refuses h1
    ∧ ∀ b len li, col_rbind s j = some b → b.buffer = none → b.length = some len →
        cached_at s j = some li → li < len → ∃ a, scratch_at s1 j = some (some a) := by
  obtain ⟨binds, b0, hb, hget, hcase⟩ := fetch_varlength_column_cases fetch j s s1 h h1 hstep
  have hcolj : col_rbind s j = some b0 := by simp [col_rbind, hb, hget]
  obtain ⟨hre, hnre⟩ := my_malloc_never_refuses h hn
  rcases hcase with ⟨hbuf, rfl, rfl⟩ | ⟨hbuf, lens, arr, len0, li0, ai, hl, ha, hlen, hgl, hga,
    hs1, hh1⟩
  · refine ⟨hn, fun b len li hc hbn _ _ _ => ?_⟩
    rw [hcolj] at hc
    cases hc
    exact absurd hbn hbuf
  · refine ⟨?_, fun b len li hc _ hblen hca hlt => ?_⟩
    · rw [hh1]
      split
      · exact hnre
      · exact hn
    · rw [hcolj] at hc
      cases hc
      rw [hlen] at hblen
      cases hblen
      have hli : li0 = li := by
        simp only [cached_at, hl, hgl, Option.some.injEq] at hca
        exact hca
      subst hli
      have hjl : j < arr.length := getElem?_lt_length arr j ai hga
      refine ⟨h.next, ?_⟩
      rw [hs1]
      simp only [scratch_at, if_pos hlt, my_realloc, hre]
      rw [List.getElem?_set_self hjl]

theorem fetch_varlength_loop_granted (fetch : FetchColumn) :
    ∀ (k i0 : Nat) (s s1 : STMT) (h h1 : Heap), never_refuses h →
      fetch_varlength_loop fetch k i0 s h = some (s1, h1) →
      never_refuses h1
      ∧ ∀ m, i0 ≤ m → m < i0 + k → ∀ b len li, col_rbind s m = some b → b.buffer = none →
          b.length = some len → cached_at s m = some li → li < len →
          ∃ a, scratch_at s1 m = some (some a) := by
  intro k
  induction k with
  | zero =>
    intro i0 s s1 h h1 hn hloop
    simp only [fetch_varlength_loop, Option.some.injEq, Prod.mk.injEq] at hloop
    obtain ⟨-, rfl⟩ := hloop
    exact ⟨hn, fun m h1 h2 => by omega⟩
  | succ k ih =>
    intro i0 s s1 h h1 hn hloop
    rcases Option.eq_none_or_eq_some (fetch_varlength_column fetch i0 s h) with hnone | ⟨r, hr⟩
    · simp [fetch_varlength_loop, hnone] at hloop
    obtain ⟨s2, h2⟩ := r
    simp only [fetch_varlength_loop, hr] at hloop
    obtain ⟨hn2, hcol2⟩ := fetch_varlength_column_granted fetch i0 s s2 h h2 hn hr
    obtain ⟨-, -, hothers, -, -⟩ := fetch_varlength_column_view fetch i0 s s2 h h2 hr
    obtain ⟨hn1, hrest⟩ := ih (i0 + 1) s2 s1 h2 h1 hn2 hloop
    obtain ⟨-, -, hout, -, -⟩ := fetch_varlength_loop_view fetch k (i0 + 1) s2 s1 h2 h1 hloop
    refine ⟨hn1, fun m hm1 hm2 b len li hc hbn hlen hca hlt => ?_⟩
    rcases Nat.eq_or_lt_of_le hm1 with heq | hgt
    · subst heq
      obtain ⟨a, ha⟩ := hcol2 b len li hc hbn hlen hca hlt
      have hu := (hout i0 (Or.inl (by omega))).2.2
      rw [column_view_scratch, column_view_scratch] at hu
      exact ⟨a, by rw [hu, ha]⟩
    · have hview := (hothers m (by omega)).2 (by omega)
      have e1 : col_rbind s2 m = col_rbind s m := congrArg ColumnView.bind hview
      have e2 : cached_at s2 m = cached_at s m := congrArg ColumnView.cached hview
      exact hrest m (by omega) (by omega) b len li (by rw [e1, hc]) hbn hlen
        (by rw [e2, hca]) hlt

theorem fetch_varlength_columns_granted (fetch : FetchColumn) (s s1 : STMT) (h h1 : Heap)
    (hn : never_refuses h) (hcall : fetch_varlength_columns fetch s h = some (s1, h1)) :
    ∀ m, m < field_count s → ∀ b len li, col_rbind s m = some b → b.buffer = none →
      b.length = some len → cached_at s m = some li → li < len →
      ∃ a, scratch_at s1 m = some (some a) := by
  rcases Option.eq_none_or_eq_some (fetch_varlength_loop fetch (field_count s) 0 s h)
    with hnone | ⟨r, hr⟩
  · simp [fetch_varlength_columns, hnone] at hcall
  obtain ⟨s2, h2⟩ := r
  have heq : s2 = s1 := by
    simp only [fetch_varlength_columns, hr] at hcall
    split at hcall
    · simp only [Option.some.injEq, Prod.mk.injEq] at hcall
      exact hcall.1
    · cases hcall
  subst heq
  intro m hm
  exact (fetch_varlength_loop_granted fetch (field_count s) 0 s s2 h h2 hn hr).2 m
    (Nat.zero_le _) (by omega)

/-- Every call in which the allocations succeed keeps buffer and capacity, scratch
entry and cached length of a column in agreement. -/
theorem capacity_matches_call (p : Platform) (m : Nat) (s s1 : STMT)
    (hcall : GrantedCall p s s1) (hinv : capacity_matches (column_view s m)) :
    capacity_matches (column_view s1 m) := by
  obtain ⟨b, hcb, hiff, hscr⟩ := hinv
  rw [column_view_bind] at hcb
  rw [column_view_cached, column_view_scratch] at hscr
  have hkeep : untouched (column_view s m) (column_view s1 m) →
      capacity_matches (column_view s1 m) := by
    intro hu
    obtain ⟨b1, g1, g2, g3, g4, g5⟩ := untouched_keeps s s1 m b hu hcb
    refine ⟨b1, g1, by rw [g2, g3]; exact hiff, ?_⟩
    rw [column_view_cached, column_view_scratch, g4, g5, g2]
    exact hscr
  cases hcall with
  | row row => exact hkeep ((mysql_stmt_fetch_view row s).2.2.2.2 m)
  | fetch fetch _ _ h h1 hn hfetch =>
    obtain ⟨-, -, hout, hin, -⟩ := fetch_varlength_columns_view fetch s s1 h h1 hfetch
    by_cases hm : m < field_count s
    · obtain ⟨b0, b1, hx, hy, -, -, hcase⟩ := hin m hm
      rw [column_view_bind, hcb] at hx
      cases hx
      rcases hcase with ⟨hb, e1, e2, e3, e4⟩ | ⟨hb, len, li, ai, hlen, hcs, hss, hc1, hcap,
        hs1, hsame⟩
      · refine ⟨b1, hy, by rw [e1, e2]; exact hiff, ?_⟩
        rw [e3, e4, e1]
        exact hscr
      · rw [column_view_cached] at hcs
        rw [column_view_scratch] at hss
        have hold : ai = none ↔ li = 0 := hscr li ai hcs hss (Or.inl hb)
        have hnew : b1.buffer = none ↔ max li len = 0 := by
          by_cases hle : len ≤ li
          · rw [hsame hle, Nat.max_eq_left hle]
            exact hold
          · obtain ⟨a, ha⟩ := fetch_varlength_columns_granted fetch s s1 h h1 hn hfetch m hm
              b len li hcb hb hlen hcs (by omega)
            rw [column_view_scratch, ha] at hs1
            simp only [Option.some.injEq] at hs1
            rw [← hs1]
            constructor
            · intro hc
              cases hc
            · intro hc
              omega
        refine ⟨b1, hy, by rw [hcap]; exact hnew, ?_⟩
        intro li1 ai1 h1 h2 _
        rw [hc1] at h1
        rw [hs1] at h2
        cases h1
        cases h2
        exact hnew
    · exact hkeep (hout m (by omega))
  | bind _ _ h h1 r hn hbind =>
    obtain ⟨-, -, -, -, -, -, hoff, hon⟩ := ssps_bind_result_rebind_view p s s1 h h1 r
      (col_rbind_bound s m b hcb) hbind
    rcases Bool.eq_false_or_eq_true s.fix_fields with hfix | hfix
    · obtain ⟨hout, hin⟩ := hon hfix
      by_cases hm : m < field_count s
      · obtain ⟨g1, g2, li, g3, g4, g5⟩ := rebound_keeps s s1 m b (hin m hm) hcb
        rcases Nat.eq_zero_or_pos li with hz | hpos
        · refine ⟨b, g5 hz, hiff, ?_⟩
          rw [column_view_cached, column_view_scratch, g1, g2]
          exact hscr
        · refine ⟨_, g4 hpos, ⟨fun _ => rfl, fun _ => rfl⟩, ?_⟩
          rw [column_view_cached, column_view_scratch, g1, g2]
          intro li1 ai1 h1 h2 _
          rw [g3] at h1
          cases h1
          exact hscr li ai1 g3 h2 (Or.inr hpos)
      · rw [hout m (by omega)]
        exact ⟨b, hcb, hiff, hscr⟩
    · rw [hoff hfix]
      exact ⟨b, hcb, hiff, hscr⟩

theorem capacity_matches_later (p : Platform) (m : Nat) (s s1 : STMT)
    (hlater : GrantedLater p s s1) (hinv : capacity_matches (column_view s m)) :
    capacity_matches (column_view s1 m) := by
  induction hlater with
  | refl => exact hinv
  | step s1 s2 _ hcall ih => exact capacity_matches_call p m s1 s2 hcall ih

/-- The first bind with an allocator that refuses nothing leaves buffer and capacity of
every column in agreement. -/
theorem first_bind_capacity_matches (p : Platform) (s first : STMT) (h h1 : Heap) (r : Int)
    (m : Nat) (b : MYSQL_BIND) (hu : unbound s) (hn : never_refuses h)
    (hfirst : ssps_bind_result p s h = some (r, first, h1))
    (hcol : col_rbind first m = some b) :
    capacity_matches (column_view first m) := by
  have hcached := ssps_bind_result_first_cached p s first h h1 r hu hfirst m
  obtain ⟨s1, h2, binds, arr, hcall, hb, ha, hf, hnb, hna, hcols, -, -⟩ :=
    ssps_bind_result_first p s h hu.1 hn
  rw [hcall] at hfirst
  simp only [Option.some.injEq, Prod.mk.injEq] at hfirst
  obtain ⟨-, rfl, -⟩ := hfirst
  have hget : binds[m]? = some b := by simpa [col_rbind, hb] using hcol
  have hlt : m < s.fields.length := by
    have := getElem?_lt_length binds m b hget
    rw [field_count] at hnb
    omega
  obtain ⟨hi1, b1, g1, g2, g3, -, g5, g6, -⟩ :=
    hcols m s.fields[m] (List.getElem?_eq_getElem hlt)
  rw [hget] at g1
  cases g1
  obtain ⟨-, e2, e3⟩ := allocate_buffer_for_field_parts p hi1 s.fields[m]
  have hiff : b.buffer = none ↔ b.buffer_length = 0 := by
    rw [g5, g6, e2]
    exact (e3 g3).2
  refine ⟨b, hcol, hiff, ?_⟩
  rw [column_view_cached, column_view_scratch]
  intro li ai hc hs hpre
  have hli : li = 0 := by
    rcases hcached with hc0 | hc0
    · rw [hc0] at hc
      cases hc
    · rw [hc0] at hc
      cases hc
      rfl
  have hai : ai = b.buffer := by
    simp only [scratch_at, ha, g2, Option.some.injEq] at hs
    exact hs.symm
  subst hli
  rcases hpre with hnone | hpos
  · rw [hai]
    exact ⟨fun _ => rfl, fun _ => hnone⟩
  · omega

/-- The sample sequence on the one-column statement, with the allocators used. -/
theorem blob_sequence_granted : GrantedLater host blob_bound blob_fetched :=
  GrantedLater.step blob_bound (mysql_stmt_fetch (row_of_length 5) blob_bound) blob_fetched
    (GrantedLater.step blob_bound blob_bound _ (GrantedLater.refl blob_bound)
      (GrantedCall.row (row_of_length 5) blob_bound))
    (GrantedCall.fetch refetch (mysql_stmt_fetch (row_of_length 5) blob_bound) blob_fetched
      ⟨106, []⟩ ⟨107, []⟩ (by decide) rfl)

/-- Claim C25. A statement is bound for the first time by an allocator that grants
every request, and then row fetches, deferred fetches and binds follow in which every
allocation succeeds. In every state reached, each binding has a buffer if and only if
its capacity is positive, and each column identified as deferred at the first bind has
a scratch entry that is a block if and only if its cached length is positive. -/
theorem buffer_present_iff_capacity (p : Platform) (stmt0 first s : STMT)
    (h0 h1 : Heap) (r : Int)
    (hfresh : unbound stmt0) (hgrant : never_refuses h0)
    (hfirst : ssps_bind_result p stmt0 h0 = some (r, first, h1))
    (hlater : GrantedLater p first s) :
    (∀ m b, col_rbind s m = some b → (b.buffer ≠ none ↔ 0 < b.buffer_length))
    ∧ (∀ i b0, col_rbind first i = some b0 → b0.buffer = none →
        b0.buffer_type ≠ MYSQL_TYPE_NULL →
        ∃ li ai, cached_at s i = some li ∧ scratch_at s i = some ai
          ∧ (ai ≠ none ↔ 0 < li)) := by
  have hb0 := (first_bind_bound_columns p stmt0 first h0 h1 r hfresh hgrant hfirst).2
  have hbs := bound_columns_later p (field_count stmt0) first s
    (granted_later p first s hlater) hb0
  have hmatch : ∀ m b, col_rbind s m = some b → capacity_matches (column_view s m) := by
    intro m b hcol
    obtain ⟨-, ⟨binds0, hbf, hlen0⟩, -⟩ := hb0
    obtain ⟨-, ⟨binds, hbsb, hlen⟩, -⟩ := hbs
    have hget : binds[m]? = some b := by simpa [col_rbind, hbsb] using hcol
    have hm : m < binds0.length := by
      have := getElem?_lt_length binds m b hget
      omega
    exact capacity_matches_later p m first s hlater
      (first_bind_capacity_matches p stmt0 first h0 h1 r m binds0[m] hfresh hgrant hfirst
        (by simp [col_rbind, hbf, List.getElem?_eq_getElem hm]))
  constructor
  · intro m b hcol
    obtain ⟨b1, g1, g2, -⟩ := hmatch m b hcol
    rw [column_view_bind, hcol] at g1
    cases g1
    rw [Ne, g2]
    omega
  · intro i b0 hcol hdef hty
    obtain ⟨-, -, -, -, -, b, li, ai, hcb, hcl, hcs, hzero⟩ :=
      bound_deferred_later p (field_count stmt0) i first s (granted_later p first s hlater)
        (first_bind_deferred_ready p stmt0 first h0 h1 r i b0 hfresh hgrant hfirst hcol hdef
          hty)
    obtain ⟨b1, g1, -, g3⟩ := hmatch i b hcb
    rw [column_view_bind, hcb] at g1
    cases g1
    rw [column_view_cached, column_view_scratch] at g3
    have hpre : b.buffer = none ∨ 0 < li := by
      rcases Nat.eq_zero_or_pos li with hz | hpos
      · exact Or.inl (hzero hz).1
      · exact Or.inr hpos
    have := g3 li ai hcl hcs hpre
    refine ⟨li, ai, hcl, hcs, ?_⟩
    rw [Ne, this]
    omega

theorem buffer_present_iff_capacity_witness :
    (∀ m b, col_rbind blob_fetched m = some b → (b.buffer ≠ none ↔ 0 < b.buffer_length))
    ∧ ∃ li ai, cached_at blob_fetched 0 = some li ∧ scratch_at blob_fetched 0 = some ai
        ∧ (ai ≠ none ↔ 0 < li) := by
  obtain ⟨g1, g2⟩ := buffer_present_iff_capacity host blob_statement blob_bound blob_fetched
    ⟨100, []⟩ ⟨106, []⟩ 0 (by decide) (by decide) rfl blob_sequence_granted
  exact ⟨g1, g2 0 blob_bind rfl rfl (by decide)⟩

/-! ## Statement preparation -/

theorem char_at_getElem? (text : List Char) (i : Nat) (c : Char) (h : text[i]? = some c) :
    char_at text i = some c := by
  simp [char_at, h]

theorem char_at_length (text : List Char) : char_at text text.length = some NUL := by
  simp [char_at]

theorem drop_of_getElem? (text : List Char) (i : Nat) (c : Char) (h : text[i]? = some c) :
    text.drop i = c :: text.drop (i + 1) := by
  induction text generalizing i with
  | nil => simp at h
  | cons x xs ih =>
    cases i with
    | zero =>
      simp only [List.getElem?_cons_zero, Option.some.injEq] at h
      rw [h]
      rfl
    | succ i =>
      simp only [List.getElem?_cons_succ] at h
      simpa using ih i h

/-- The character after a character of the text: the head of what follows, or the
terminator. -/
theorem char_at_succ (text : List Char) (i : Nat) (hi : i < text.length) :
    char_at text (i + 1) = some ((text.drop (i + 1)).head?.getD NUL) := by
  rcases Option.eq_none_or_eq_some text[i + 1]? with hn | ⟨c1, hc1⟩
  · have hlen : text.length ≤ i + 1 := List.getElem?_eq_none_iff.mp hn
    have heq : i + 1 = text.length := by omega
    rw [List.drop_of_length_le hlen]
    simp [char_at, hn, heq]
  · rw [drop_of_getElem? text (i + 1) c1 hc1, char_at_getElem? text (i + 1) c1 hc1]
    rfl

theorem scan_loop_next (cs : CHARSET_INFO) (record : Nat → Bool) (fuel : Nat) (s s1 : Scan)
    (c : Char) (hc : char_at s.query s.pos = some c) (hc0 : c ≠ NUL)
    (hbody : scan_body cs record s c = Step.next s1) :
    scan_loop cs record (fuel + 1) s
      = scan_loop cs record fuel { s1 with pos := s1.pos + 1 } := by
  simp only [scan_loop, hc, hc0, if_false, hbody]

theorem scan_loop_end (cs : CHARSET_INFO) (record : Nat → Bool) (fuel : Nat) (s : Scan)
    (hc : char_at s.query s.pos = some NUL) :
    scan_loop cs record (fuel + 1) s = scan_finish s := by
  simp only [scan_loop, hc, if_true]

/-- The body of the loop on a text that is not an embraced statement, in a
single-byte character set, at a character that is not a backslash: only the parts
`in a string?` and `parameter marker?` act. -/
theorem scan_body_plain (cs : CHARSET_INFO) (record : Nat → Bool) (text : List Char)
    (i : Nat) (quote : Option Char) (perhaps : Bool) (ps : List Nat) (c : Char)
    (hmb : cs.use_mb = false) (hbs : c ≠ '\\') (hopen : perhaps = true → c ≠ '{') :
    scan_body cs record (scan_at text i quote perhaps ps) c
      = scan_quote_or_marker record (scan_at text i quote (perhaps && isspace c) ps) c := by
  have hflags : brace_flags (scan_at text i quote perhaps ps) c
      = scan_at text i quote (perhaps && isspace c) ps := by
    cases perhaps <;> cases hsp : isspace c <;> simp [brace_flags, scan_at, hsp]
  have hno : ¬ ((scan_at text i quote perhaps ps).bPerhapsEmbraced = true ∧ c = '{') := by
    rintro ⟨h1, h2⟩
    exact hopen h1 h2
  simp only [scan_body, hmb, Bool.false_eq_true, false_and, if_false, hno, hflags,
    scan_escape, hbs]

theorem outside_markers_closing (q c : Char) (pos : Nat) (rest : List Char) (h : c ≠ q) :
    outside_markers (Quoting.closing q) pos (c :: rest)
      = outside_markers Quoting.outside pos (c :: rest) := by
  simp only [outside_markers, h, if_false]

theorem isspace_not_quote (c : Char) (h : c = '\'' ∨ c = '"' ∨ c = '`' ∨ c = '?') :
    isspace c = false := by
  rcases h with rfl | rfl | rfl | rfl <;> rfl

/-- The scan of a text that is not an embraced statement, in a single-byte character
set, without backslashes, in an environment that creates every parameter record: from
any offset the loop ends at the terminator, leaves the text as it is, and records the
markers that the reference reading finds from that offset on. -/
theorem scan_loop_plain (cs : CHARSET_INFO) (record : Nat → Bool) (text : List Char)
    (hmb : cs.use_mb = false) (hrec : ∀ k, record k = true)
    (hnul : NUL ∉ text) (hbs : '\\' ∉ text) :
    ∀ (fuel i : Nat) (quote : Option Char) (perhaps : Bool) (ps : List Nat),
      text.length + 1 ≤ fuel + i → i ≤ text.length →
      (∀ q, quote = some q → q = '\'' ∨ q = '"' ∨ q = '`') →
      (perhaps = true →
        quote = none ∧ ((text.drop i).dropWhile isspace).head? ≠ some '{') →
      scan_loop cs record fuel (scan_at text i quote perhaps ps)
        = Prepared.success text
            (ps ++ outside_markers (quoting_of quote) i (text.drop i)).length
            (ps ++ outside_markers (quoting_of quote) i (text.drop i)) text.length := by
  intro fuel
  induction fuel with
  | zero =>
    intro i quote perhaps ps hfuel hi
    omega
  | succ fuel ih =>
    intro i quote perhaps ps hfuel hi hq hp
    rcases Nat.eq_or_lt_of_le hi with heq | hlt
    · subst heq
      rw [scan_loop_end cs record fuel _ (char_at_length text)]
      simp [scan_finish, scan_at, outside_markers]
    · have hget : text[i]? = some text[i] := List.getElem?_eq_getElem hlt
      obtain ⟨c, hc⟩ : ∃ c, text[i]? = some c := ⟨_, hget⟩
      have hmem : c ∈ text := List.getElem?_mem hc
      have hc0 : c ≠ NUL := fun h => hnul (h ▸ hmem)
      have hcb : c ≠ '\\' := fun h => hbs (h ▸ hmem)
      have hdrop := drop_of_getElem? text i c hc
      have hopen : perhaps = true → c ≠ '{' := by
        intro hper hbrace
        have := (hp hper).2
        rw [hdrop, hbrace] at this
        exact this rfl
      have hbody := scan_body_plain cs record text i quote perhaps ps c hmb hcb hopen
      have hnext := char_at_succ text i hlt
      have hpnext : (perhaps && isspace c) = true →
          ((text.drop (i + 1)).dropWhile isspace).head? ≠ some '{' := by
        intro hboth
        simp only [Bool.and_eq_true] at hboth
        have := (hp hboth.1).2
        rw [hdrop, List.dropWhile_cons_of_pos hboth.2] at this
        exact this
      have hgo : ∀ (j : Nat) (quote1 : Option Char) (ps1 : List Nat) (markers : List Nat),
          scan_quote_or_marker record (scan_at text i quote (perhaps && isspace c) ps) c
            = Step.next (scan_at text j quote1 (perhaps && isspace c) ps1) →
          i ≤ j → j + 1 ≤ text.length →
          (∀ q, quote1 = some q → q = '\'' ∨ q = '"' ∨ q = '`') →
          ((perhaps && isspace c) = true → quote1 = none ∧ j = i) →
          ps ++ markers
            = ps1 ++ outside_markers (quoting_of quote1) (j + 1) (text.drop (j + 1)) →
          scan_loop cs record (fuel + 1) (scan_at text i quote perhaps ps)
            = Prepared.success text (ps ++ markers).length (ps ++ markers) text.length := by
        intro j quote1 ps1 markers hstep hij hj hq1 hper hm
        rw [scan_loop_next cs record fuel _ _ c (char_at_getElem? text i c hc) hc0
          (hbody.trans hstep), hm]
        refine ih (j + 1) quote1 _ ps1 (by omega) hj hq1 (fun hb => ⟨(hper hb).1, ?_⟩)
        rw [(hper hb).2]
        exact hpnext hb
      rw [hdrop]
      rcases Option.eq_none_or_eq_some quote with hqn | ⟨q, hqs⟩
      · subst hqn
        by_cases hquote : c = '\'' ∨ c = '"' ∨ c = '`'
        · have hsp : isspace c = false := by
            rcases hquote with h | h | h
            · exact isspace_not_quote c (Or.inl h)
            · exact isspace_not_quote c (Or.inr (Or.inl h))
            · exact isspace_not_quote c (Or.inr (Or.inr (Or.inl h)))
          refine hgo i (some c) ps _ ?_ (by omega) (by omega) ?_ ?_ ?_
          · simp [scan_quote_or_marker, scan_at, hc0, hquote]
          · intro q hq
            cases hq
            exact hquote
          · intro hb
            rw [hsp] at hb
            simp at hb
          · simp only [quoting_of, outside_markers, hquote, if_true]
        · by_cases hmark : c = '?'
          · subst hmark
            have hq1 : ¬ (('?' : Char) = '\'' ∨ ('?' : Char) = '"' ∨ ('?' : Char) = '`') := by
              decide
            refine hgo i none (ps ++ [i]) _ ?_ (by omega) (by omega) ?_ ?_ ?_
            · simp only [scan_quote_or_marker, scan_at, Option.getD_none, hc0, if_false,
                hq1, if_true, hrec, List.length_append, List.length_singleton]
            · intro q hq
              cases hq
            · intro hb
              simp [isspace] at hb
            · simp only [quoting_of, outside_markers, hq1, if_false, if_true,
                List.append_assoc, List.singleton_append]
          · refine hgo i none ps _ ?_ (by omega) (by omega) ?_ ?_ ?_
            · simp [scan_quote_or_marker, scan_at, hc0, hquote, hmark]
            · intro q hq
              cases hq
            · intro _
              exact ⟨rfl, rfl⟩
            · simp only [quoting_of, outside_markers, hquote, if_false, hmark]
      · subst hqs
        have hper : perhaps = false := by
          cases hpb : perhaps
          · rfl
          · have := (hp hpb).1
            cases this
        subst hper
        have hqq := hq q rfl
        have hq0 : q ≠ NUL := by
          rcases hqq with h | h | h <;> rw [h] <;> decide
        by_cases hcq : c = q
        · subst hcq
          rcases hrest : text.drop (i + 1) with _ | ⟨c1, rest1⟩
          · rw [hrest] at hnext
            refine hgo i none ps _ ?_ (by omega) (by omega) ?_ ?_ ?_
            · simp [scan_quote_or_marker, scan_at, hnext, Ne.symm hq0]
            · intro q hq
              cases hq
            · intro hb
              simp at hb
            · simp [quoting_of, outside_markers, hrest]
          · rw [hrest] at hnext
            have hlt1 : i + 1 < text.length := by
              by_contra hge
              rw [List.drop_of_length_le (by omega)] at hrest
              cases hrest
            by_cases hc1 : c1 = c
            · subst hc1
              have hrest2 : text.drop (i + 2) = rest1 := by
                have : text.drop (i + 2) = (text.drop (i + 1)).drop 1 := by
                  rw [List.drop_drop]
                rw [this, hrest]
                rfl
              refine hgo (i + 1) (some c1) ps _ ?_ (by omega) (by omega) ?_ ?_ ?_
              · simp [scan_quote_or_marker, scan_at, hnext]
              · intro q hq
                cases hq
                exact hqq
              · intro hb
                simp at hb
              · simp only [quoting_of, outside_markers, if_true, hrest2]
            · refine hgo i none ps _ ?_ (by omega) (by omega) ?_ ?_ ?_
              · simp [scan_quote_or_marker, scan_at, hnext, hc1]
              · intro q hq
                cases hq
              · intro hb
                simp at hb
              · simp only [quoting_of, outside_markers, if_true, hrest, hc1, if_false]
        · refine hgo i (some q) ps _ ?_ (by omega) (by omega) ?_ ?_ ?_
          · simp [scan_quote_or_marker, scan_at, hcq, hq0]
          · intro q1 hq1
            cases hq1
            exact hqq
          · intro hb
            simp at hb
          · simp only [quoting_of, outside_markers, hcq, if_false]

/-- The parts `in a string?` and `parameter marker?` never move `pos` back and never
change the text. -/
theorem scan_quote_or_marker_progress (record : Nat → Bool) (s s1 : Scan) (c : Char)
    (h : scan_quote_or_marker record s c = Step.next s1) :
    s.pos ≤ s1.pos ∧ s1.query = s.query := by
  unfold scan_quote_or_marker at h
  split at h
  · split at h
    · cases h
    · split at h <;> (cases h; exact ⟨by simp, rfl⟩)
  · split at h
    · split at h
      · cases h
        exact ⟨le_refl _, rfl⟩
      · split at h
        · split at h
          · cases h
            exact ⟨le_refl _, rfl⟩
          · cases h
        · cases h
          exact ⟨le_refl _, rfl⟩
    · cases h
      exact ⟨le_refl _, rfl⟩

theorem brace_flags_keeps (s : Scan) (c : Char) :
    (brace_flags s c).pos = s.pos ∧ (brace_flags s c).query = s.query := by
  unfold brace_flags
  split
  · split <;> exact ⟨rfl, rfl⟩
  · split <;> exact ⟨rfl, rfl⟩

/-- The body of the loop never moves `pos` back and keeps the length of the text. -/
theorem scan_body_progress (cs : CHARSET_INFO) (record : Nat → Bool) (s s1 : Scan) (c : Char)
    (h : scan_body cs record s c = Step.next s1) :
    s.pos ≤ s1.pos ∧ s1.query.length = s.query.length := by
  unfold scan_body at h
  split at h
  · cases h
    exact ⟨by simp, rfl⟩
  · split at h
    · cases h
      exact ⟨by simp, by simp⟩
    · obtain ⟨e1, e2⟩ := brace_flags_keeps s c
      unfold scan_escape at h
      split at h
      · split at h
        · cases h
        · split at h
          · cases h
            exact ⟨by simp [e1], by simp [e2]⟩
          · obtain ⟨g1, g2⟩ := scan_quote_or_marker_progress record _ s1 c h
            exact ⟨by omega, by rw [g2, e2]⟩
      · obtain ⟨g1, g2⟩ := scan_quote_or_marker_progress record _ s1 c h
        exact ⟨by omega, by rw [g2, e2]⟩

/-- The loop ends, or reads outside the text, before the iterations granted to it are
used up, whatever the character set and the environment. -/
theorem scan_loop_ends (cs : CHARSET_INFO) (record : Nat → Bool) :
    ∀ (fuel : Nat) (s : Scan), s.query.length + 1 ≤ fuel + s.pos → 0 < fuel →
      scan_loop cs record fuel s ≠ Prepared.running := by
  intro fuel
  induction fuel with
  | zero => intro s _ h; omega
  | succ fuel ih =>
    intro s hfuel _
    rcases Option.eq_none_or_eq_some (char_at s.query s.pos) with hn | ⟨c, hc⟩
    · simp [scan_loop, hn]
    by_cases hc0 : c = NUL
    · subst hc0
      rw [scan_loop_end cs record fuel s hc]
      simp [scan_finish]
    · have hpos : s.pos < s.query.length := by
        by_contra hge
        have hnone : s.query[s.pos]? = none := List.getElem?_eq_none_iff.mpr (by omega)
        simp only [char_at, hnone] at hc
        split at hc
        · simp only [Option.some.injEq] at hc
          exact hc0 hc.symm
        · cases hc
      cases hbody : scan_body cs record s c with
      | next s1 =>
        obtain ⟨g1, g2⟩ := scan_body_progress cs record s s1 c hbody
        rw [scan_loop_next cs record fuel s s1 c hc hc0 hbody]
        exact ih _ (by simp only [g2]; omega) (by omega)
      | failed => simp [scan_loop, hc, hc0, hbody]
      | outside i => simp [scan_loop, hc, hc0, hbody]

/-- Function `my_SQLPrepare` never uses up the iterations granted to its loop. -/
theorem my_SQLPrepare_ends (cs : CHARSET_INFO) (record : Nat → Bool)
    (query : Option (List Char)) : my_SQLPrepare cs record query ≠ Prepared.running := by
  cases query with
  | none => simp [my_SQLPrepare]
  | some q =>
    exact scan_loop_ends cs record (q.length + 1) (scan_start q) (by simp [scan_start])
      (by omega)

/-- One character of the reference reading: either the character is passed over, or it
is a marker at the current position. -/
theorem outside_markers_cons (lex : Quoting) (pos : Nat) (c : Char) (rest : List Char) :
    (∃ lex1, outside_markers lex pos (c :: rest) = outside_markers lex1 (pos + 1) rest)
    ∨ (c = '?' ∧ outside_markers lex pos (c :: rest)
        = pos :: outside_markers Quoting.outside (pos + 1) rest) := by
  cases lex with
  | outside =>
    simp only [outside_markers]
    split
    · exact Or.inl ⟨_, rfl⟩
    · split
      · next h => exact Or.inr ⟨h, rfl⟩
      · exact Or.inl ⟨_, rfl⟩
  | inside q =>
    simp only [outside_markers]
    split
    · exact Or.inl ⟨_, rfl⟩
    · exact Or.inl ⟨_, rfl⟩
  | closing q =>
    simp only [outside_markers]
    split
    · exact Or.inl ⟨_, rfl⟩
    · split
      · exact Or.inl ⟨_, rfl⟩
      · split
        · next h => exact Or.inr ⟨h, rfl⟩
        · exact Or.inl ⟨_, rfl⟩

/-- The reference reading lists positions of `?` characters, from left to right. -/
theorem outside_markers_spec (text : List Char) :
    ∀ (lex : Quoting) (pos : Nat),
      (∀ k ∈ outside_markers lex pos text, pos ≤ k ∧ text[k - pos]? = some '?')
      ∧ List.Pairwise (fun a b => a < b) (outside_markers lex pos text) := by
  induction text with
  | nil =>
    intro lex pos
    cases lex <;> simp [outside_markers]
  | cons c rest ih =>
    intro lex pos
    have hshift : ∀ lex1, ∀ k ∈ outside_markers lex1 (pos + 1) rest,
        pos + 1 ≤ k ∧ (c :: rest)[k - pos]? = some '?' := by
      intro lex1 k hk
      obtain ⟨h1, h2⟩ := (ih lex1 (pos + 1)).1 k hk
      have hidx : k - pos = (k - (pos + 1)) + 1 := by omega
      rw [hidx, List.getElem?_cons_succ]
      exact ⟨h1, h2⟩
    rcases outside_markers_cons lex pos c rest with ⟨lex1, h⟩ | ⟨hc, h⟩
    · rw [h]
      refine ⟨fun k hk => ?_, (ih lex1 (pos + 1)).2⟩
      obtain ⟨h1, h2⟩ := hshift lex1 k hk
      exact ⟨by omega, h2⟩
    · rw [h]
      refine ⟨fun k hk => ?_, List.pairwise_cons.mpr ⟨fun k hk => ?_, (ih _ (pos + 1)).2⟩⟩
      · rcases List.mem_cons.mp hk with rfl | hk
        · simp [hc]
        · obtain ⟨h1, h2⟩ := hshift _ k hk
          exact ⟨by omega, h2⟩
      · have := (hshift _ k hk).1
        omega

/-- Claim C26. In a single-byte character set and an environment in which the copy
of the text and every parameter record can be created, for every NUL-terminated query
text without a backslash whose first character other than white space is not `{`:
`my_SQLPrepare` returns `SQL_SUCCESS`, leaves the text as it is, sets `param_count` to
the number of `?` characters outside the literals quoted with `'`, `"` or a backtick,
records their positions from left to right, and sets `query_end` to the terminator. -/
theorem prepare_counts_markers (cs : CHARSET_INFO) (record : Nat → Bool) (text : List Char)
    (hmb : cs.use_mb = false) (hrec : ∀ k, record k = true)
    (hnul : NUL ∉ text) (hbs : '\\' ∉ text)
    (hplain : (text.dropWhile isspace).head? ≠ some '{') :
    my_SQLPrepare cs record (some text)
        = Prepared.success text (outside_markers Quoting.outside 0 text).length
            (outside_markers Quoting.outside 0 text) text.length
    ∧ List.Pairwise (fun a b => a < b) (outside_markers Quoting.outside 0 text)
    ∧ ∀ k ∈ outside_markers Quoting.outside 0 text, text[k]? = some '?' := by
  refine ⟨?_, (outside_markers_spec text Quoting.outside 0).2, fun k hk =>
    ((outside_markers_spec text Quoting.outside 0).1 k hk).2⟩
  have := scan_loop_plain cs record text hmb hrec hnul hbs (text.length + 1) 0 none true []
    (by omega) (Nat.zero_le _) (fun q hq => by cases hq) (fun _ => ⟨rfl, hplain⟩)
  simpa [my_SQLPrepare, scan_start, scan_at, quoting_of] using this

theorem prepare_counts_markers_witness :
    my_SQLPrepare single_byte always
        (some ['a', '=', '?', ' ', '\'', '?', '\'', '\'', '?', '\'', ' ', '{', '?', '}'])
      = Prepared.success ['a', '=', '?', ' ', '\'', '?', '\'', '\'', '?', '\'', ' ', '{', '?', '}']
          2 [2, 12] 14 :=
  (prepare_counts_markers single_byte always
    ['a', '=', '?', ' ', '\'', '?', '\'', '\'', '?', '\'', ' ', '{', '?', '}']
    rfl (fun _ => rfl) (by decide) (by decide) (by decide)).1

/-- Claim C27. The code on embraced statements. For the text `{?= call f(?)}` the
reference reading finds the markers at the positions 1 and 11, but `my_SQLPrepare`
sets `param_count` to 1 and records position 11 only: the character after the
opening brace is never examined (both braces are replaced by spaces). For the text
`{}` the closing brace is the character passed over, and it stays in the text. -/
theorem prepare_skips_after_open_brace :
    outside_markers Quoting.outside 0
        ['{', '?', '=', ' ', 'c', 'a', 'l', 'l', ' ', 'f', '(', '?', ')', '}'] = [1, 11]
    ∧ my_SQLPrepare single_byte always
        (some ['{', '?', '=', ' ', 'c', 'a', 'l', 'l', ' ', 'f', '(', '?', ')', '}'])
      = Prepared.success [' ', '?', '=', ' ', 'c', 'a', 'l', 'l', ' ', 'f', '(', '?', ')', ' ']
          1 [11] 14
    ∧ my_SQLPrepare single_byte always (some ['{', '}'])
      = Prepared.success [' ', '}'] 0 [] 2 := by
  refine ⟨rfl, rfl, rfl⟩

/-- Claim C28. The code on a text that ends with the opening brace of an embraced
statement: for the text `{` (length 1, terminator at index 1) and for ` {` (length 2)
the loop moves `pos` two places on from the brace and evaluates its condition at the
index after the terminator. -/
theorem prepare_reads_past_terminator :
    my_SQLPrepare single_byte always (some ['{']) = Prepared.outside 2
    ∧ my_SQLPrepare single_byte always (some [' ', '{']) = Prepared.outside 3 := by
  refine ⟨rfl, rfl⟩

/-! ## Every row of an execution -/

/-- After a row fetch on a statement whose tables are in place, the deferred fetch
returns and gives a column that had no buffer a capacity covering the length the row
reported for it. -/
theorem row_fetch_covers (n i : Nat) (s1 : STMT) (b1 : MYSQL_BIND)
    (hready : tables_ready n s1) (hcount : field_count s1 = n)
    (hc1 : col_rbind s1 i = some b1) (hb1 : b1.buffer = none)
    (row : Nat → RowCells) (fetch : FetchColumn) (h2 : Heap) :
    ∃ s2 h3 b2, fetch_varlength_columns fetch (mysql_stmt_fetch row s1) h2 = some (s2, h3)
      ∧ col_rbind s2 i = some b2 ∧ (row i).length ≤ b2.buffer_length := by
  have hready1 := tables_ready_row n row s1 hready
  have hcount1 : field_count (mysql_stmt_fetch row s1) = n := hcount
  have hlen : b1.length ≠ none := by
    obtain ⟨binds, -, -, hb, -, -, -, -, -, hcells⟩ := (tables_ready_iff _ s1).mp hready
    have hget : binds[i]? = some b1 := by simpa [col_rbind, hb] using hc1
    exact hcells b1 (List.getElem?_mem hget)
  obtain ⟨len, hlen⟩ := Option.ne_none_iff_exists'.mp hlen
  rw [← hcount1] at hready1
  exact fetch_varlength_columns_covers fetch (mysql_stmt_fetch row s1) h2 i (row i).length
    (write_cells b1 (row i)) hready1 (by rw [mysql_stmt_fetch_col_rbind, hc1]; rfl)
    (by rw [(write_cells_buffer b1 (row i)).1]; exact hb1) (by simp [write_cells, hlen])

/-- A rebind in a state in which column `i` is a deferred column returns 0, allocates
nothing, keeps the tables in place and leaves the column without a buffer. -/
theorem rebind_empties (p : Platform) (n i : Nat) (s : STMT) (h : Heap)
    (hinv : tables_ready n s ∧ deferred_column_ready n i s) :
    ∃ s1 b1, ssps_bind_result p s h = some (0, s1, h) ∧ tables_ready n s1
      ∧ field_count s1 = n ∧ col_rbind s1 i = some b1 ∧ b1.buffer = none
      ∧ b1.buffer_length = 0 := by
  obtain ⟨s1, hs1⟩ := rebind_returns p n i s h hinv.2
  have hinv1 := bound_deferred_later p n i s s1
    (Later.step s s s1 (Later.refl s) (Call.bind s s1 h h 0 hs1)) hinv
  obtain ⟨hready, hi, hfix, hcount, hall, b, li, ai, hcb, hcl, hcs, hzero⟩ := hinv
  obtain ⟨-, -, -, -, -, -, -, hon⟩ := ssps_bind_result_rebind_view p s s1 h h 0
    (col_rbind_bound s i b hcb) hs1
  obtain ⟨-, -, l0, g3, g4, g5⟩ := rebound_keeps s s1 i b ((hon hfix).2 i (by omega)) hcb
  rw [hcl] at g3
  cases g3
  rcases Nat.eq_zero_or_pos li with hz | hpos
  · exact ⟨s1, b, hs1, hinv1.1, hinv1.2.2.2.1, g5 hz, (hzero hz).1, (hzero hz).2.1⟩
  · exact ⟨s1, _, hs1, hinv1.1, hinv1.2.2.2.1, g4 hpos, rfl, rfl⟩

/-- Claim C8. A statement is bound for the first time (by an allocator that grants
every request) and column `i` is identified as deferred. Every row is fetched by
`ssps_bind_result`, the row fetch of the client library and `fetch_varlength_columns`,
in this order. For the first row, fetched right after the first bind, and for a row
fetched in any state `s` reached from there by earlier rows (or any other sequence of
row fetches, deferred fetches and binds), `fetch_varlength_columns` returns and leaves
column `i` with a capacity `buffer_length` that is at least the length the row fetch
reported for the column; the state it leaves is again a state reached from the first
bind, so the same holds for the row after it. -/
theorem fetch_varlength_covers_every_row (p : Platform) (stmt0 first s : STMT)
    (h0 h1 : Heap) (r : Int) (i : Nat) (b0 : MYSQL_BIND)
    (hfresh : unbound stmt0) (hgrant : never_refuses h0)
    (hfirst : ssps_bind_result p stmt0 h0 = some (r, first, h1))
    (hcol : col_rbind first i = some b0) (hdef : b0.buffer = none)
    (hty : b0.buffer_type ≠ MYSQL_TYPE_NULL)
    (hlater : Later p first s) (row : Nat → RowCells) (fetch : FetchColumn) (h h2 : Heap) :
    (∃ s2 h3 b2, fetch_varlength_columns fetch (mysql_stmt_fetch row first) h2 = some (s2, h3)
        ∧ col_rbind s2 i = some b2 ∧ (row i).length ≤ b2.buffer_length
        ∧ Later p first s2)
    ∧ (∃ s1 s2 h3 b2, ssps_bind_result p s h = some (0, s1, h)
        ∧ fetch_varlength_columns fetch (mysql_stmt_fetch row s1) h2 = some (s2, h3)
        ∧ col_rbind s2 i = some b2 ∧ (row i).length ≤ b2.buffer_length
        ∧ Later p first s2) := by
  have hstart :=
    first_bind_deferred_ready p stmt0 first h0 h1 r i b0 hfresh hgrant hfirst hcol hdef hty
  have hinv := bound_deferred_later p (field_count stmt0) i first s hlater hstart
  constructor
  · obtain ⟨s2, h3, b2, g1, g2, g3⟩ := row_fetch_covers (field_count stmt0) i first b0
      hstart.1 hstart.2.2.2.1 hcol hdef row fetch h2
    exact ⟨s2, h3, b2, g1, g2, g3,
      Later.step first (mysql_stmt_fetch row first) s2
        (Later.step first first _ (Later.refl first) (Call.row row first))
        (Call.fetch fetch _ s2 h2 h3 g1)⟩
  · obtain ⟨s1, b1, e1, e2, e3, e4, e5, -⟩ := rebind_empties p (field_count stmt0) i s h hinv
    obtain ⟨s2, h3, b2, g1, g2, g3⟩ := row_fetch_covers (field_count stmt0) i s1 b1
      e2 e3 e4 e5 row fetch h2
    exact ⟨s1, s2, h3, b2, e1, g1, g2, g3,
      Later.step first (mysql_stmt_fetch row s1) s2
        (Later.step first s1 _ (Later.step first s s1 hlater (Call.bind s s1 h h 0 e1))
          (Call.row row s1))
        (Call.fetch fetch _ s2 h2 h3 g1)⟩

theorem fetch_varlength_covers_every_row_witness :
    ∃ s1 s2 h3 b2, ssps_bind_result host blob_fetched ⟨107, []⟩ = some (0, s1, ⟨107, []⟩)
      ∧ fetch_varlength_columns refetch (mysql_stmt_fetch (row_of_length 10) s1) ⟨107, []⟩
          = some (s2, h3)
      ∧ col_rbind s2 0 = some b2 ∧ 10 ≤ b2.buffer_length := by
  obtain ⟨-, s1, s2, h3, b2, g1, g2, g3, g4, -⟩ :=
    fetch_varlength_covers_every_row host blob_statement blob_bound blob_fetched ⟨100, []⟩
      ⟨106, []⟩ 0 0 blob_bind (by decide) (by decide) rfl rfl rfl (by decide) blob_sequence
      (row_of_length 10) refetch ⟨107, []⟩ ⟨107, []⟩
  exact ⟨s1, s2, h3, b2, g1, g2, g3, g4⟩

end Ssps
